import Mathlib

/-!
# FotoTon: contest rules of the photo-contest client

A shallow embedding of the store operations performed by the screens of the
FotoTon client (`HomeScreen.js`, `AdminPanel.js`, `MyPhotosScreen.js`,
`RegisterScreen.js`, `BottomTabs.js`) and the properties of the contest rules they
implement.

Modelling conventions.

* The remote document store is a record of collections; a collection is the list
  of its documents in the order a read (`getDocs`) returns them. Document ids are
  the keys of a collection, so a collection of the store has pairwise distinct
  ids; theorems that depend on it carry the hypothesis explicitly.
* Identifiers are strings issued by the backend. The object `userPhotos` that
  `savePhotoLimit` uses as a dictionary is modelled as an association list in
  insertion order.
* Numbers are integers (`createdAt` is the creation instant as a number); a field
  that a document may lack is an `Option`, and `x || d` is `Option.getD`-like
  with the falsy values of the source's type taken into account.
* `Array.prototype.sort` is a stable sort (ECMAScript 2019), modelled as the insertion
  sort with the comparator of the code.
* Every store call is assumed to reach the backend; the failures that the code
  itself can cause (reading the data of a missing document, updating a missing
  document) are modelled.
-/

namespace FotoTon

/-! ## Data model -/

/-- A document of the collection `photos_base64`. -/
structure Photo where
  id : String
  userID : String
  userName : String
  title : String
  description : String
  imageBase64 : String
  month : Nat
  year : Nat
  createdAt : Int
  voteCount : Option Int
  votes : Option (List String)
  pending : Option Bool
  deriving DecidableEq, Repr

/-- A document of the collection `users`. -/
structure User where
  id : String
  name : String
  email : String
  role : Option String
  createdAt : Int
  photoURL : String
  votesThisMonth : Option Int
  votedPhotos : Option (List String)
  photosUploaded : Option Int
  photosUploadedBase64 : Option Int
  deriving DecidableEq, Repr

/-- A document of the collection `monthly_themes`, stored under `key`. -/
structure MonthlyTheme where
  key : String
  theme : String
  active : Bool
  month : Nat
  year : Nat
  createdAt : Int
  deriving DecidableEq, Repr

/-- The document `app_settings/config`. -/
structure AppConfig where
  photoLimit : Option Int
  deriving DecidableEq, Repr

/-- The remote store: its four collections (`app_settings` holds one document). -/
structure Store where
  users : List User
  photos : List Photo
  themes : List MonthlyTheme
  config : Option AppConfig
  deriving DecidableEq, Repr

/-! ## Store primitives (`firebase/firestore`) -/

/-- The expression `x || 0` on a numeric field that may be missing. -/
def orZero : Option Int → Int
  | some v => v
  | none => 0

/-- The expression `arr?.includes(x) || false`. -/
def includes (arr : Option (List String)) (x : String) : Bool :=
  match arr with
  | some l => decide (x ∈ l)
  | none => false

/-- The field transform `arrayUnion(x)`: appends `x` unless already present. -/
def arrayUnion (x : String) (arr : Option (List String)) : List String :=
  match arr with
  | some l => if x ∈ l then l else l ++ [x]
  | none => [x]

/-- The field transform `arrayRemove(x)`: removes every occurrence of `x`. -/
def arrayRemove (x : String) (arr : Option (List String)) : List String :=
  match arr with
  | some l => l.filter (fun y => decide (y ≠ x))
  | none => []

/-- Reads the document with the given id: `getDoc(doc(db, coll, id))`, `none` when
the snapshot does not exist. -/
def getDoc {α : Type} (key : α → String) (id : String) (docs : List α) : Option α :=
  docs.find? (fun d => decide (key d = id))

/-- The collection in which the document with the given id has its fields rewritten
by `f`. -/
def patch {α : Type} (key : α → String) (id : String) (f : α → α) (docs : List α) : List α :=
  docs.map (fun d => if key d = id then f d else d)

/-- Applies a field update to the document with the given id:
`updateDoc(doc(db, coll, id), fields)`; `none` when there is no such document
(the call rejects). -/
def updateDoc {α : Type} (key : α → String) (id : String) (f : α → α) (docs : List α) :
    Option (List α) :=
  match getDoc key id docs with
  | none => none
  | some _ => some (patch key id f docs)

/-- Removes the document with the given id: `deleteDoc(doc(db, coll, id))`. -/
def deleteDoc {α : Type} (key : α → String) (id : String) (docs : List α) : List α :=
  docs.filter (fun d => decide (key d ≠ id))

/-- Writes the whole document `d` under its id: `setDoc(doc(db, coll, id), fields)` with
every field of the document given (with or without `merge`): the document is created
when there is none with that id and replaced otherwise. -/
def setDoc {α : Type} (key : α → String) (d : α) (docs : List α) : List α :=
  match getDoc key (key d) docs with
  | none => docs ++ [d]
  | some _ => patch key (key d) (fun _ => d) docs

/-! ## Limit-enforcement sweep (`AdminPanel.js`, `savePhotoLimit`) -/

/-- The projection `{ id, userID, createdAt }` pushed to `photosData`. -/
structure PhotoRef where
  id : String
  userID : String
  createdAt : Int
  deriving DecidableEq, Repr

/-- The entry of `photosData` for a photo document. -/
def photoRef (p : Photo) : PhotoRef :=
  { id := p.id, userID := p.userID, createdAt := p.createdAt }

/-- One step of the grouping loop:
`if (!userPhotos[photo.userID]) userPhotos[photo.userID] = [];`
`userPhotos[photo.userID].push(photo)`. -/
def groupPush (userPhotos : List (String × List PhotoRef)) (photo : PhotoRef) :
    List (String × List PhotoRef) :=
  match userPhotos with
  | [] => [(photo.userID, [photo])]
  | (k, l) :: rest =>
    if k = photo.userID then (k, l ++ [photo]) :: rest
    else (k, l) :: groupPush rest photo

/-- The dictionary `userPhotos` built by `photosData.forEach`. -/
def groupByUser (photosData : List PhotoRef) : List (String × List PhotoRef) :=
  photosData.foldl groupPush []

/-- The call `.sort((a, b) => b.createdAt - a.createdAt)`: a stable sort, most
recent first. -/
def sortByCreatedAtDesc (l : List PhotoRef) : List PhotoRef :=
  l.insertionSort (fun a b => b.createdAt ≤ a.createdAt)

/-- The photos of one user that the sweep deletes:
`if (list.length > newLimit) photosToDelete = list.slice(newLimit)`. -/
def photosToDelete (newLimit : Nat) (userPhotosOfUser : List PhotoRef) : List PhotoRef :=
  let userPhotosList := sortByCreatedAtDesc userPhotosOfUser
  if userPhotosList.length > newLimit then userPhotosList.drop newLimit else []

/-- The deletions of the inner loop for one user. -/
def deleteAll (photosToDelete : List PhotoRef) (photos : List Photo) : List Photo :=
  photosToDelete.foldl (fun st photo => deleteDoc Photo.id photo.id st) photos

/-- The sweep over the whole collection (source lines 144 to 165). -/
def sweep (newLimit : Nat) (photos : List Photo) : List Photo :=
  let photosData := photos.map photoRef
  let userPhotos := groupByUser photosData
  userPhotos.foldl (fun st entry => deleteAll (photosToDelete newLimit entry.2) st) photos

/-- The handler `savePhotoLimit`. `isAdmin` is the flag of the panel and `newLimit`
the value of `parseInt(photoLimit, 10)`, `none` standing for `NaN`. -/
def savePhotoLimit (isAdmin : Bool) (newLimit : Option Int) (db : Store) : Store :=
  if !isAdmin then db
  else
    match newLimit with
    | none => db
    | some n =>
      if n < 0 then db
      else
        { db with
          config := some { photoLimit := some n }
          photos := sweep n.toNat db.photos }

/-! ## Feed and votes (`HomeScreen.js`) -/

/-- The React state of `HomeScreen` that the handlers read and write. -/
structure HomeState where
  photos : List Photo
  currentTheme : String
  userVotes : Int
  userRole : String
  deriving DecidableEq, Repr

/-- The state of `HomeScreen` before anything is loaded (the `useState` defaults). -/
def initialHomeState : HomeState :=
  { photos := [], currentTheme := "", userVotes := 0, userRole := "user" }

/-- The document id of a monthly theme, the template literal with year and month
separated by a hyphen. -/
def themeKey (currentYear currentMonth : Nat) : String :=
  toString currentYear ++ "-" ++ toString currentMonth

/-- The function `getMonthlyTheme`: the theme of the current period, or the default
text when there is no theme document. -/
def getMonthlyTheme (currentMonth currentYear : Nat) (db : Store) : String :=
  match getDoc MonthlyTheme.key (themeKey currentYear currentMonth) db.themes with
  | some docSnap => docSnap.theme
  | none => "Tema libre"

/-- Truthiness of the field `pending`, which a document may lack. -/
def isPending (p : Photo) : Bool :=
  match p.pending with
  | some b => b
  | none => false

/-- The call `.sort((a, b) => (b.voteCount || 0) - (a.voteCount || 0))`: a stable
sort, most voted first. -/
def sortByVoteCountDesc (l : List Photo) : List Photo :=
  l.insertionSort (fun a b => orZero b.voteCount ≤ orZero a.voteCount)

/-- The expression `role || "user"`. -/
def roleOrUser : Option String → String
  | some r => if r = "" then "user" else r
  | none => "user"

/-- The function `loadPhotos`: assembles the feed of the current period with the role
held by the screen, then reloads role and vote counter from the user document of the
signed-in viewer (when there is one). -/
def loadPhotos (currentUser : Option String) (currentMonth currentYear : Nat)
    (st : HomeState) (db : Store) : HomeState :=
  let currentTheme := getMonthlyTheme currentMonth currentYear db
  let queried := db.photos.filter
    (fun p => decide (p.month = currentMonth) && decide (p.year = currentYear))
  let photosData :=
    if st.userRole ≠ "admin" then queried.filter (fun photo => !isPending photo) else queried
  let photos := sortByVoteCountDesc photosData
  match currentUser with
  | none => { st with currentTheme := currentTheme, photos := photos }
  | some uid =>
    match getDoc User.id uid db.users with
    | none => { st with currentTheme := currentTheme, photos := photos }
    | some userDoc =>
      { photos := photos
        currentTheme := currentTheme
        userVotes := orZero userDoc.votesThisMonth
        userRole := roleOrUser userDoc.role }

/-- How a call of `handleVote` ends: one of the three rejections, a failure caught by
the handler, or the vote toggled. -/
inductive VoteOutcome where
  | notSignedIn
  | ownPhoto
  | limitReached
  | failed
  | toggled
  deriving DecidableEq, Repr

/-- The screen state, the store and the outcome after a handler of `HomeScreen`. -/
structure HomeResult where
  state : HomeState
  store : Store
  outcome : VoteOutcome
  deriving DecidableEq, Repr

/-- The photo fields written when a vote is withdrawn:
`{ votes: arrayRemove(uid), voteCount: (photoDoc.data().voteCount || 0) - 1 }`. -/
def photoVoteRemoved (uid : String) (photoDoc : Photo) (p : Photo) : Photo :=
  { p with
    votes := some (arrayRemove uid p.votes)
    voteCount := some (orZero photoDoc.voteCount - 1) }

/-- The user fields written when a vote is withdrawn:
`{ votesThisMonth: userVotes - 1, votedPhotos: arrayRemove(photoId) }`. -/
def userVoteRemoved (photoId : String) (userVotes : Int) (u : User) : User :=
  { u with
    votesThisMonth := some (userVotes - 1)
    votedPhotos := some (arrayRemove photoId u.votedPhotos) }

/-- The photo fields written when a vote is cast:
`{ votes: arrayUnion(uid), voteCount: (photoDoc.data().voteCount || 0) + 1 }`. -/
def photoVoteAdded (uid : String) (photoDoc : Photo) (p : Photo) : Photo :=
  { p with
    votes := some (arrayUnion uid p.votes)
    voteCount := some (orZero photoDoc.voteCount + 1) }

/-- The user fields written when a vote is cast:
`{ votesThisMonth: userVotes + 1, votedPhotos: arrayUnion(photoId) }`. -/
def userVoteAdded (photoId : String) (userVotes : Int) (u : User) : User :=
  { u with
    votesThisMonth := some (userVotes + 1)
    votedPhotos := some (arrayUnion photoId u.votedPhotos) }

/-- The handler `handleVote(photoId, userId)` run by the viewer `currentUser`
(`auth.currentUser.uid`, `none` when nobody is signed in). The photo document is
written first, the user document second; a failure between the two leaves the first
write in place. -/
def handleVote (currentUser : Option String) (currentMonth currentYear : Nat)
    (photoId userId : String) (st : HomeState) (db : Store) : HomeResult :=
  match currentUser with
  | none => ⟨st, db, .notSignedIn⟩
  | some uid =>
    if uid = userId then ⟨st, db, .ownPhoto⟩
    else if st.userVotes ≥ 3 then ⟨st, db, .limitReached⟩
    else
      match getDoc Photo.id photoId db.photos with
      | none => ⟨st, db, .failed⟩
      | some photoDoc =>
        let userHasVoted := includes photoDoc.votes uid
        if userHasVoted then
          match updateDoc Photo.id photoId (photoVoteRemoved uid photoDoc) db.photos with
          | none => ⟨st, db, .failed⟩
          | some photos1 =>
            let db1 := { db with photos := photos1 }
            match updateDoc User.id uid (userVoteRemoved photoId st.userVotes) db1.users with
            | none => ⟨st, db1, .failed⟩
            | some users2 =>
              let db2 := { db1 with users := users2 }
              ⟨loadPhotos currentUser currentMonth currentYear st db2, db2, .toggled⟩
        else
          match updateDoc Photo.id photoId (photoVoteAdded uid photoDoc) db.photos with
          | none => ⟨st, db, .failed⟩
          | some photos1 =>
            let db1 := { db with photos := photos1 }
            match updateDoc User.id uid (userVoteAdded photoId st.userVotes) db1.users with
            | none => ⟨st, db1, .failed⟩
            | some users2 =>
              let db2 := { db1 with users := users2 }
              ⟨loadPhotos currentUser currentMonth currentYear st db2, db2, .toggled⟩

/-- The handler `handleAcceptPhoto(photoId)`: the screen state and the store after it
(unchanged when the update rejects because the document is missing). -/
def handleAcceptPhoto (currentUser : Option String) (currentMonth currentYear : Nat)
    (photoId : String) (st : HomeState) (db : Store) : HomeState × Store :=
  match updateDoc Photo.id photoId (fun p => { p with pending := some false }) db.photos with
  | none => (st, db)
  | some photos1 =>
    let db1 := { db with photos := photos1 }
    (loadPhotos currentUser currentMonth currentYear st db1, db1)

/-- What a handler of `HomeScreen` that asks for confirmation leaves: the screen state,
the store, and the title and text of the alert shown at the end (`none` when the dialog
was cancelled). -/
structure DialogResult where
  state : HomeState
  store : Store
  alert : Option (String × String)
  deriving DecidableEq, Repr

/-- The handler `handleRejectPhoto(photoId)`. `confirmed` tells whether the admin
pressed the button that rejects in the confirmation dialog. -/
def handleRejectPhoto (confirmed : Bool) (currentUser : Option String)
    (currentMonth currentYear : Nat) (photoId : String) (st : HomeState) (db : Store) :
    DialogResult :=
  if confirmed then
    let db1 := { db with photos := deleteDoc Photo.id photoId db.photos }
    ⟨loadPhotos currentUser currentMonth currentYear st db1, db1,
      some ("Foto rechazada", "La foto ha sido eliminada")⟩
  else ⟨st, db, none⟩

/-- The handler `handleDeletePhoto(photoId)`. `confirmed` tells whether the admin
pressed the button that deletes in the confirmation dialog. -/
def handleDeletePhoto (confirmed : Bool) (currentUser : Option String)
    (currentMonth currentYear : Nat) (photoId : String) (st : HomeState) (db : Store) :
    DialogResult :=
  if confirmed then
    let db1 := { db with photos := deleteDoc Photo.id photoId db.photos }
    ⟨loadPhotos currentUser currentMonth currentYear st db1, db1,
      some ("Foto eliminada", "La foto se ha eliminado correctamente")⟩
  else ⟨st, db, none⟩

/-! ## Uploads (`MyPhotosScreen.js`) -/

/-- An entry of the list that `MyPhotosScreen` shows, as `uploadPhoto` appends it. -/
structure PhotoItem where
  id : String
  title : String
  description : String
  imageBase64 : String
  voteCount : Int
  votes : List String
  pending : Bool
  deriving DecidableEq, Repr

/-- The React state of `MyPhotosScreen` that `uploadPhoto` reads and writes. -/
structure MyPhotosState where
  image : Option String
  title : String
  description : String
  photos : List PhotoItem
  userRole : String
  deriving DecidableEq, Repr

/-- The code points that `String.prototype.trim` strips (white space and line
terminators of ECMAScript). -/
def isJsWhitespace (c : Char) : Bool :=
  let n := c.toNat
  n = 0x09 || n = 0x0A || n = 0x0B || n = 0x0C || n = 0x0D || n = 0x20 || n = 0xA0 ||
  n = 0x1680 || (0x2000 ≤ n && n ≤ 0x200A) || n = 0x2028 || n = 0x2029 || n = 0x202F ||
  n = 0x205F || n = 0x3000 || n = 0xFEFF

/-- The test `!title.trim()`: the title is empty once trimmed. -/
def titleBlank (title : String) : Bool :=
  title.toList.all isJsWhitespace

/-- The call `s.replace(pat, "")` with a string pattern: removes the first occurrence
of `pat`. -/
def removeFirst (pat : List Char) : List Char → List Char
  | [] => []
  | c :: cs =>
    if pat.isPrefixOf (c :: cs) then (c :: cs).drop pat.length
    else c :: removeFirst pat cs

/-- The expression `configDoc.exists() ? configDoc.data().photoLimit || 3 : 3`. -/
def readPhotoLimit (config : Option AppConfig) : Int :=
  match config with
  | some c =>
    match c.photoLimit with
    | some v => if v = 0 then 3 else v
    | none => 3
  | none => 3

/-- How a call of `uploadPhoto` ends. -/
inductive UploadOutcome where
  | notSignedIn
  | noImage
  | noTitle
  | failed
  | limitReached
  | uploaded
  deriving DecidableEq, Repr

/-- The screen state, the store and the outcome after `uploadPhoto`. -/
structure UploadResult where
  state : MyPhotosState
  store : Store
  outcome : UploadOutcome
  deriving DecidableEq, Repr

/-- The handler `uploadPhoto`. `newId` is the id that `addDoc` generates for the new
document and `now` the instant `new Date()`; the new document is placed last in the
collection. -/
def uploadPhoto (currentUser : Option String) (currentMonth currentYear : Nat)
    (newId : String) (now : Int) (st : MyPhotosState) (db : Store) : UploadResult :=
  match currentUser with
  | none => ⟨st, db, .notSignedIn⟩
  | some uid =>
    match st.image with
    | none => ⟨st, db, .noImage⟩
    | some image =>
      if image = "" then ⟨st, db, .noImage⟩
      else if titleBlank st.title then ⟨st, db, .noTitle⟩
      else
        match getDoc User.id uid db.users with
        | none => ⟨st, db, .failed⟩
        | some userDoc =>
          let photosUploaded := orZero userDoc.photosUploadedBase64
          let photoLimit := readPhotoLimit db.config
          if photosUploaded ≥ photoLimit then ⟨st, db, .limitReached⟩
          else
            let base64String :=
              String.mk (removeFirst "data:image/jpeg;base64,".toList image.toList)
            let pending := if st.userRole = "admin" then false else true
            let photoDoc : Photo :=
              { id := newId
                createdAt := now
                description := st.description
                imageBase64 := base64String
                month := currentMonth
                title := st.title
                userID := uid
                userName := if userDoc.name ≠ "" then userDoc.name else userDoc.email
                voteCount := some 0
                votes := some []
                year := currentYear
                pending := some pending }
            let db1 := { db with photos := db.photos ++ [photoDoc] }
            match updateDoc User.id uid
                (fun u => { u with photosUploadedBase64 := some (photosUploaded + 1) })
                db1.users with
            | none => ⟨st, db1, .failed⟩
            | some users2 =>
              ⟨{ st with
                  title := ""
                  description := ""
                  image := none
                  photos := st.photos ++
                    [{ id := newId, title := st.title, description := st.description,
                       imageBase64 := base64String, voteCount := 0, votes := [],
                       pending := pending }] },
                { db1 with users := users2 }, .uploaded⟩

/-- The entry of the list of `MyPhotosScreen` for a photo document read by
`fetchPhotos`: the fields the list shows, a missing field read as its falsy value. -/
def photoItem (p : Photo) : PhotoItem :=
  { id := p.id
    title := p.title
    description := p.description
    imageBase64 := p.imageBase64
    voteCount := orZero p.voteCount
    votes := match p.votes with
      | some l => l
      | none => []
    pending := isPending p }

/-- The effect `fetchPhotos` that runs when `MyPhotosScreen` is mounted: nothing when
nobody is signed in; otherwise the role of the user document (when it exists) and the
photos that the user owns. -/
def fetchPhotos (currentUser : Option String) (st : MyPhotosState) (db : Store) :
    MyPhotosState :=
  match currentUser with
  | none => st
  | some uid =>
    let userRole :=
      match getDoc User.id uid db.users with
      | some userDoc => roleOrUser userDoc.role
      | none => st.userRole
    { st with
      userRole := userRole
      photos := (db.photos.filter (fun p => decide (p.userID = uid))).map photoItem }

/-! ## Ranking (`AdminPanel.js`, `fetchData` and `savePhotoLimit`) -/

/-- An entry of the ranking that the admin panel shows. -/
structure RankingItem where
  id : String
  title : String
  userName : String
  voteCount : Int
  pending : Bool
  deriving DecidableEq, Repr

/-- The entry pushed to `rankingData` for a photo document:
`userName || 'Usuario desconocido'`, `voteCount || 0`, `pending || false`. -/
def rankingItem (p : Photo) : RankingItem :=
  { id := p.id
    title := p.title
    userName := if p.userName ≠ "" then p.userName else "Usuario desconocido"
    voteCount := orZero p.voteCount
    pending := isPending p }

/-- The list `rankingData` before it is sorted: one entry for every photo of the
current period, in read order. -/
def rankingData (currentMonth currentYear : Nat) (photos : List Photo) : List RankingItem :=
  (photos.filter
    (fun p => decide (p.month = currentMonth) && decide (p.year = currentYear))).map rankingItem

/-- The ranking set by `setPhotoRanking`: `rankingData` after
`.sort((a, b) => b.voteCount - a.voteCount)`, a stable sort. -/
def photoRanking (currentMonth currentYear : Nat) (photos : List Photo) : List RankingItem :=
  (rankingData currentMonth currentYear photos).insertionSort
    (fun a b => b.voteCount ≤ a.voteCount)

/-- How a call of `deletePhoto` of `MyPhotosScreen` ends. -/
inductive DeleteOutcome where
  | cancelled
  | failed
  | deleted
  deriving DecidableEq, Repr

/-- The screen state, the store and the outcome after `deletePhoto`. -/
structure DeleteResult where
  state : MyPhotosState
  store : Store
  outcome : DeleteOutcome
  deriving DecidableEq, Repr

/-- The handler `deletePhoto(photoId)` of `MyPhotosScreen`. `confirmed` tells whether
the user pressed the button that deletes in the confirmation dialog. The photo document
is deleted first; the counter of the signed-in user is then read and written back
decreased by 1 (a failure there leaves the deletion in place). -/
def deletePhoto (confirmed : Bool) (currentUser : Option String) (photoId : String)
    (st : MyPhotosState) (db : Store) : DeleteResult :=
  if confirmed then
    let db1 := { db with photos := deleteDoc Photo.id photoId db.photos }
    match currentUser with
    | none => ⟨st, db1, .failed⟩
    | some uid =>
      match getDoc User.id uid db1.users with
      | none => ⟨st, db1, .failed⟩
      | some userDoc =>
        let photosUploaded := orZero userDoc.photosUploadedBase64
        match updateDoc User.id uid
            (fun u => { u with photosUploadedBase64 := some (photosUploaded - 1) })
            db1.users with
        | none => ⟨st, db1, .failed⟩
        | some users2 =>
          ⟨{ st with photos := st.photos.filter (fun photo => decide (photo.id ≠ photoId)) },
            { db1 with users := users2 }, .deleted⟩
  else ⟨st, db, .cancelled⟩

/-! ## Administration panel (`AdminPanel.js`) -/

/-- The value of the state `photoLimit` of the panel: a number (the default 3 or the
limit read from the configuration) or the text typed in the field. -/
inductive LimitInput where
  | number (n : Int)
  | text (s : String)
  deriving DecidableEq, Repr

/-- The React state of `AdminPanel` that the handlers read and write. -/
structure AdminState where
  theme : String
  isAdmin : Bool
  photoLimit : LimitInput
  photoRanking : List RankingItem
  deriving DecidableEq, Repr

/-- The state of `AdminPanel` before anything is loaded (the `useState` defaults). -/
def initialAdminState : AdminState :=
  { theme := "", isAdmin := false, photoLimit := .number 3, photoRanking := [] }

/-- The effect `fetchData` that runs when the panel is mounted: it leaves the state as
it is unless the viewer is signed in, has a user document and that document has the
role admin; then it sets `isAdmin` and loads the theme of the period, the limit of the
configuration and the ranking. -/
def fetchData (currentUser : Option String) (currentMonth currentYear : Nat)
    (st : AdminState) (db : Store) : AdminState :=
  match currentUser with
  | none => st
  | some uid =>
    match getDoc User.id uid db.users with
    | none => st
    | some userData =>
      if userData.role ≠ some "admin" then st
      else
        { theme :=
            match getDoc MonthlyTheme.key (themeKey currentYear currentMonth) db.themes with
            | some themeDoc => themeDoc.theme
            | none => ""
          isAdmin := true
          photoLimit :=
            match db.config with
            | some _ => .number (readPhotoLimit db.config)
            | none => st.photoLimit
          photoRanking := photoRanking currentMonth currentYear db.photos }

/-- How a handler of the panel that saves ends: access denied, input rejected, or
saved. -/
inductive AdminOutcome where
  | denied
  | invalid
  | saved
  deriving DecidableEq, Repr

/-- The panel state, the store and the outcome after a handler of `AdminPanel`. -/
structure AdminResult where
  state : AdminState
  store : Store
  outcome : AdminOutcome
  deriving DecidableEq, Repr

/-- The handler `saveTheme`: writes the theme document of the current period under the
key of the period. `now` is the instant `new Date()`. -/
def saveTheme (currentMonth currentYear : Nat) (now : Int) (st : AdminState) (db : Store) :
    AdminResult :=
  if !st.isAdmin then ⟨st, db, .denied⟩
  else if titleBlank st.theme then ⟨st, db, .invalid⟩
  else
    ⟨st,
      { db with
        themes := setDoc MonthlyTheme.key
          { key := themeKey currentYear currentMonth
            theme := st.theme
            active := true
            createdAt := now
            month := currentMonth
            year := currentYear } db.themes },
      .saved⟩

/-- The value of a string of decimal digits. -/
def digitsValue (ds : List Char) : Nat :=
  ds.foldl (fun acc c => acc * 10 + (c.toNat - 48)) 0

/-- The call `parseInt(s, 10)` on a string: leading white space is skipped, a sign is
read, then the longest run of decimal digits; `none` stands for `NaN` (no digit). -/
def parseInt (s : String) : Option Int :=
  let digits (cs : List Char) : Option Nat :=
    match cs.takeWhile Char.isDigit with
    | [] => none
    | d :: ds => some (digitsValue (d :: ds))
  match s.toList.dropWhile isJsWhitespace with
  | '-' :: rest => (digits rest).map (fun n => -(n : Int))
  | '+' :: rest => (digits rest).map (fun n => (n : Int))
  | cs => (digits cs).map (fun n => (n : Int))

/-- The call `parseInt(photoLimit, 10)` on the state of the panel: a number is first
turned into its text, which parses back to the number when the text is the decimal one,
as it is for the integers below `10 ^ 21` in magnitude that a number holds exactly;
larger limits are outside the model. -/
def parseLimit : LimitInput → Option Int
  | .number n => some n
  | .text s => parseInt s

/-- The handler `savePhotoLimit` as the button runs it on the state of the panel: the
flag `isAdmin` and the parsed field decide, the accepted limit is written and swept by
`savePhotoLimit`, and the ranking of the panel is computed again from the swept
collection. -/
def savePhotoLimitPressed (currentMonth currentYear : Nat) (st : AdminState) (db : Store) :
    AdminResult :=
  if !st.isAdmin then ⟨st, db, .denied⟩
  else
    match parseLimit st.photoLimit with
    | none => ⟨st, db, .invalid⟩
    | some newLimit =>
      if newLimit < 0 then ⟨st, db, .invalid⟩
      else
        ⟨{ st with
            photoRanking := photoRanking currentMonth currentYear
              (savePhotoLimit true (some newLimit) db).photos },
          savePhotoLimit true (some newLimit) db, .saved⟩

/-! ## Profiles (`RegisterScreen.js`, `BottomTabs.js`) -/

/-- The user record of the authentication service, as far as the profile uses it. -/
structure AuthUser where
  uid : String
  displayName : Option String
  email : String
  photoURL : Option String
  deriving DecidableEq, Repr

/-- The expression `s || ""` on a string that may be null. -/
def orEmpty : Option String → String
  | some s => s
  | none => ""

/-- The handler `handleRegister(values)`. `created` is the uid of the account that
`createUserWithEmailAndPassword` returns, `none` when it rejects (and nothing is
written); `now` is the instant `new Date()`. -/
def handleRegister (created : Option String) (name email : String) (now : Int)
    (db : Store) : Store :=
  match created with
  | none => db
  | some uid =>
    { db with
      users := setDoc User.id
        { id := uid
          name := name
          email := email
          role := some "user"
          createdAt := now
          photoURL := ""
          votesThisMonth := some 0
          votedPhotos := none
          photosUploaded := some 0
          photosUploadedBase64 := none } db.users }

/-- The listener that `BottomTabs` registers with `onAuthStateChanged`: the role it
sets (`none` for `null`) and the store after it. The profile is created with the
defaults when the signed-in user has no user document. -/
def onAuthStateChanged (currentUser : Option AuthUser) (now : Int) (db : Store) :
    Option String × Store :=
  match currentUser with
  | none => (none, db)
  | some cu =>
    match getDoc User.id cu.uid db.users with
    | some userDoc => (some (roleOrUser userDoc.role), db)
    | none =>
      (some "user",
        { db with
          users := setDoc User.id
            { id := cu.uid
              name := orEmpty cu.displayName
              email := cu.email
              role := some "user"
              createdAt := now
              photoURL := orEmpty cu.photoURL
              votesThisMonth := some 0
              votedPhotos := none
              photosUploaded := some 0
              photosUploadedBase64 := none } db.users })

/-! ## Notions used in the statements -/

/-- Every entry that the sweep deletes, over all users. -/
def deletedRefs (newLimit : Nat) (photos : List Photo) : List PhotoRef :=
  (groupByUser (photos.map photoRef)).flatMap (fun entry => photosToDelete newLimit entry.2)

/-- The entries of `photosData` that belong to user `u`. -/
def ofUser (u : String) (l : List PhotoRef) : List PhotoRef :=
  l.filter (fun r => decide (r.userID = u))

/-- The dictionary `m` groups the entries `ps` by user: one key per user that has an
entry, holding the entries of that user in the order of `ps`. -/
def GroupInv (m : List (String × List PhotoRef)) (ps : List PhotoRef) : Prop :=
  (m.map Prod.fst).Nodup ∧ ∀ k g, (k, g) ∈ m ↔ (g = ofUser k ps ∧ g ≠ [])

/-- The photos of the collection that user `u` owns. -/
def ownedBy (u : String) (photos : List Photo) : List Photo :=
  photos.filter (fun p => decide (p.userID = u))

/-- The store after a vote of `uid` on `photoId` is withdrawn. -/
def storeVoteRemoved (uid photoId : String) (userVotes : Int) (photoDoc : Photo)
    (db : Store) : Store :=
  { db with
    photos := patch Photo.id photoId (photoVoteRemoved uid photoDoc) db.photos
    users := patch User.id uid (userVoteRemoved photoId userVotes) db.users }

/-- The store after a vote of `uid` on `photoId` is cast. -/
def storeVoteAdded (uid photoId : String) (userVotes : Int) (photoDoc : Photo)
    (db : Store) : Store :=
  { db with
    photos := patch Photo.id photoId (photoVoteAdded uid photoDoc) db.photos
    users := patch User.id uid (userVoteAdded photoId userVotes) db.users }

/-- No photo of the collection has its owner among its voters. -/
def NoSelfVote (photos : List Photo) : Prop :=
  ∀ p ∈ photos, includes p.votes p.userID = false

instance (photos : List Photo) : Decidable (NoSelfVote photos) :=
  inferInstanceAs (Decidable (∀ p ∈ photos, includes p.votes p.userID = false))

/-- The list `votes || []` of a photo. -/
def votesOf (p : Photo) : List String :=
  match p.votes with
  | some l => l
  | none => []

/-- The counter of a photo agrees with its list of voters, which has no duplicates. -/
def VoteCountOk (p : Photo) : Prop :=
  (votesOf p).Nodup ∧ orZero p.voteCount = ((votesOf p).length : Int)

instance (p : Photo) : Decidable (VoteCountOk p) :=
  inferInstanceAs (Decidable ((votesOf p).Nodup ∧ orZero p.voteCount = ((votesOf p).length : Int)))

/-- Two calls of `handleVote` in succession by the same viewer on the same photo: the
second call runs on the store and on the reloaded screen state that the first leaves. -/
def voteTwice (uid : String) (m y : Nat) (photoId userId : String) (st : HomeState)
    (db : Store) : HomeResult :=
  handleVote (some uid) m y photoId userId
    (handleVote (some uid) m y photoId userId st db).state
    (handleVote (some uid) m y photoId userId st db).store

/-- The photos that `loadPhotos` selects before sorting, for the role held by the
screen: those of the current period, without the pending ones unless the role is
admin. -/
def feedSelection (userRole : String) (currentMonth currentYear : Nat)
    (photos : List Photo) : List Photo :=
  if userRole ≠ "admin" then
    (photos.filter
      (fun p => decide (p.month = currentMonth) && decide (p.year = currentYear))).filter
      (fun photo => !isPending photo)
  else
    photos.filter (fun p => decide (p.month = currentMonth) && decide (p.year = currentYear))

/-- The signed-in viewer has a user document whose role is admin. -/
def viewerIsAdmin (currentUser : Option String) (db : Store) : Prop :=
  ∃ uid userDoc, currentUser = some uid ∧ getDoc User.id uid db.users = some userDoc ∧
    userDoc.role = some "admin"

/-- The photo document that `uploadPhoto` creates for the uploader `uid` whose user
document is `userDoc`. -/
def uploadedPhoto (uid : String) (currentMonth currentYear : Nat) (newId : String)
    (now : Int) (st : MyPhotosState) (userDoc : User) : Photo :=
  { id := newId
    createdAt := now
    description := st.description
    imageBase64 := String.mk (removeFirst "data:image/jpeg;base64,".toList
      (match st.image with
        | some image => image.toList
        | none => []))
    month := currentMonth
    title := st.title
    userID := uid
    userName := if userDoc.name ≠ "" then userDoc.name else userDoc.email
    voteCount := some 0
    votes := some []
    year := currentYear
    pending := some (if st.userRole = "admin" then false else true) }

/-- The user fields written by `uploadPhoto`: `{ photosUploadedBase64: photosUploaded + 1 }`
with the counter read from `userDoc`. -/
def uploadCounted (userDoc : User) (u : User) : User :=
  { u with photosUploadedBase64 := some (orZero userDoc.photosUploadedBase64 + 1) }

/-- The store after a successful `uploadPhoto` by `uid`. -/
def uploadedStore (uid : String) (currentMonth currentYear : Nat) (newId : String)
    (now : Int) (st : MyPhotosState) (userDoc : User) (db : Store) : Store :=
  { db with
    photos := db.photos ++ [uploadedPhoto uid currentMonth currentYear newId now st userDoc]
    users := patch User.id uid (uploadCounted userDoc) db.users }

/-- The upload counter of user `uid`, as `uploadPhoto` reads it, is the number of photos
that `uid` owns in the collection. -/
def UploadCounterOk (uid : String) (db : Store) : Prop :=
  (getDoc User.id uid db.users).map (fun u => orZero u.photosUploadedBase64) =
    some ((ownedBy uid db.photos).length : Int)

instance (uid : String) (db : Store) : Decidable (UploadCounterOk uid db) :=
  inferInstanceAs (Decidable ((getDoc User.id uid db.users).map
    (fun u => orZero u.photosUploadedBase64) = some ((ownedBy uid db.photos).length : Int)))

/-- The list `votedPhotos || []` of a user. -/
def votedOf (u : User) : List String :=
  match u.votedPhotos with
  | some l => l
  | none => []

/-- The user fields written by `deletePhoto`: `{ photosUploadedBase64: photosUploaded - 1 }`
with the counter read from `userDoc`. -/
def deleteCounted (userDoc : User) (u : User) : User :=
  { u with photosUploadedBase64 := some (orZero userDoc.photosUploadedBase64 - 1) }

/-! ## Example data -/

/-- A photo document with the given id, owner, creation instant and voters. -/
def examplePhoto (id userID : String) (createdAt : Int) (votes : List String) : Photo :=
  { id := id, userID := userID, userName := userID, title := id, description := "",
    imageBase64 := "", month := 5, year := 2025, createdAt := createdAt,
    voteCount := some (votes.length : Int), votes := some votes, pending := some false }

/-- A user document with the given id, vote counter and voted photos. -/
def exampleUser (id : String) (votesThisMonth : Int) (votedPhotos : List String) : User :=
  { id := id, name := id, email := "", role := some "user", createdAt := 0, photoURL := "",
    votesThisMonth := some votesThisMonth, votedPhotos := some votedPhotos,
    photosUploaded := some 0, photosUploadedBase64 := none }

/-- A collection in which `ana` owns five photos and `bea` one. -/
def sweepStore : Store :=
  { users := []
    photos := [examplePhoto "a4" "ana" 40 [], examplePhoto "b1" "bea" 15 [],
      examplePhoto "a1" "ana" 10 [], examplePhoto "a5" "ana" 50 [],
      examplePhoto "a2" "ana" 20 [], examplePhoto "a3" "ana" 30 []]
    themes := []
    config := none }

/-- A store in which `alice` has cast no vote and `bea` owns the photo `p1`. -/
def voteStore : Store :=
  { users := [exampleUser "alice" 0 [], exampleUser "bea" 0 []]
    photos := [examplePhoto "p1" "bea" 10 []]
    themes := []
    config := none }

/-- A store in which the vote of `alice` is on the photo `p1` while her counter is 0
(the second write of an earlier vote did not happen). -/
def halfVotedStore : Store :=
  { users := [exampleUser "alice" 0 [], exampleUser "bea" 0 []]
    photos := [examplePhoto "p1" "bea" 10 ["alice"]]
    themes := []
    config := none }

/-- A store in which `alice` has cast two votes, on `p2` and `p3`, and none on `p1`. -/
def twoVotesStore : Store :=
  { users := [exampleUser "alice" 2 ["p2", "p3"], exampleUser "bea" 0 []]
    photos := [examplePhoto "p1" "bea" 10 [], examplePhoto "p2" "bea" 20 ["alice"],
      examplePhoto "p3" "bea" 30 ["alice"]]
    themes := []
    config := none }

/-- The state of `MyPhotosScreen` with a picked image and a title, for a plain user. -/
def readyToUpload : MyPhotosState :=
  { image := some "data:image/jpeg;base64,QUJD", title := "Atardecer", description := "",
    photos := [], userRole := "user" }

/-- A photo document of the given period with the given id, owner and voters. -/
def examplePhotoIn (month year : Nat) (id userID : String) (votes : List String) : Photo :=
  { examplePhoto id userID 10 votes with month := month, year := year }

/-- A store in which `alice` has cast no vote and `bea` owns three photos of May 2025
and one of June 2025. -/
def twoMonthsStore : Store :=
  { users := [exampleUser "alice" 0 [], exampleUser "bea" 0 []]
    photos := [examplePhotoIn 5 2025 "m1" "bea" [], examplePhotoIn 5 2025 "m2" "bea" [],
      examplePhotoIn 5 2025 "m3" "bea" [], examplePhotoIn 6 2025 "j1" "bea" []]
    themes := []
    config := none }

/-- The three votes of `alice` in May 2025, on the photos `m1`, `m2` and `m3` of
`twoMonthsStore`, each cast on the screen as the previous vote leaves it. -/
def threeVotesInMay : HomeResult :=
  handleVote (some "alice") 5 2025 "m3" "bea"
    (handleVote (some "alice") 5 2025 "m2" "bea"
      (handleVote (some "alice") 5 2025 "m1" "bea"
        (loadPhotos (some "alice") 5 2025 initialHomeState twoMonthsStore)
        twoMonthsStore).state
      (handleVote (some "alice") 5 2025 "m1" "bea"
        (loadPhotos (some "alice") 5 2025 initialHomeState twoMonthsStore)
        twoMonthsStore).store).state
    (handleVote (some "alice") 5 2025 "m2" "bea"
      (handleVote (some "alice") 5 2025 "m1" "bea"
        (loadPhotos (some "alice") 5 2025 initialHomeState twoMonthsStore)
        twoMonthsStore).state
      (handleVote (some "alice") 5 2025 "m1" "bea"
        (loadPhotos (some "alice") 5 2025 initialHomeState twoMonthsStore)
        twoMonthsStore).store).store

/-- The store `voteStore` with the limit 0 in the configuration. -/
def zeroLimitStore : Store :=
  { voteStore with config := some { photoLimit := some 0 } }

/-- A store in which `bea` owns, in May 2025, an approved photo, a photo awaiting
approval and a photo whose document has no field `pending`, and `alice` is a plain
user. -/
def feedStore : Store :=
  { users := [exampleUser "alice" 0 [], exampleUser "bea" 0 []]
    photos := [examplePhoto "ok" "bea" 10 [],
      { examplePhoto "wait" "bea" 20 [] with pending := some true },
      { examplePhoto "old" "bea" 30 [] with pending := none }]
    themes := []
    config := none }

/-- The store `feedStore` with a third user, `carol`, whose role is admin. -/
def adminFeedStore : Store :=
  { feedStore with
    users := feedStore.users ++ [{ exampleUser "carol" 0 [] with role := some "admin" }] }

/-- The account of a user who signs in without having a user document. -/
def newAccount : AuthUser :=
  { uid := "dora", displayName := none, email := "dora@example.org", photoURL := none }

/-- The state of the panel of an admin who typed the given text as the limit. -/
def adminTyped (s : String) : AdminState :=
  { initialAdminState with isAdmin := true, photoLimit := .text s }

/-- A store in which `bea` owns two photos, one of them awaiting approval, and has the
upload counter 2, and `carol` is an admin. -/
def countedStore : Store :=
  { users := [{ exampleUser "bea" 0 [] with photosUploadedBase64 := some 2 },
      { exampleUser "carol" 0 [] with role := some "admin" }]
    photos := [examplePhoto "b1" "bea" 10 [],
      { examplePhoto "b2" "bea" 20 [] with pending := some true }]
    themes := []
    config := none }

/-- The state of `MyPhotosScreen` of `bea` in `countedStore`, after `fetchPhotos`. -/
def beaPhotos : MyPhotosState :=
  fetchPhotos (some "bea") readyToUpload countedStore

/-- The state of `HomeScreen` of the admin `carol` in `countedStore`, after two loads. -/
def carolHome : HomeState :=
  loadPhotos (some "carol") 5 2025
    (loadPhotos (some "carol") 5 2025 initialHomeState countedStore) countedStore

/-- A store in which the list of voted photos of `alice` holds `p1` twice and her
counter is 2, the length of the list; her vote is on `p1`. -/
def doubledVoteStore : Store :=
  { users := [exampleUser "alice" 2 ["p1", "p1"], exampleUser "bea" 0 []]
    photos := [examplePhoto "p1" "bea" 10 ["alice"]]
    themes := []
    config := none }

/-! ## Lemmas: the limit-enforcement sweep -/

theorem groupPush_keys (m : List (String × List PhotoRef)) (p : PhotoRef) :
    (groupPush m p).map Prod.fst =
      if p.userID ∈ m.map Prod.fst then m.map Prod.fst else m.map Prod.fst ++ [p.userID] := by
  induction m with
  | nil => simp [groupPush]
  | cons e rest ih =>
    obtain ⟨k, l⟩ := e
    by_cases hk : k = p.userID
    · simp [groupPush, hk]
    · have hk' : ¬ p.userID = k := fun h => hk h.symm
      simp only [groupPush, hk, if_false, List.map_cons, ih, List.mem_cons, hk', false_or]
      split <;> simp

theorem groupPush_keys_nodup (m : List (String × List PhotoRef)) (p : PhotoRef)
    (h : (m.map Prod.fst).Nodup) : ((groupPush m p).map Prod.fst).Nodup := by
  rw [groupPush_keys]
  split
  · exact h
  · rename_i hn
    exact List.Nodup.append h (List.nodup_singleton _) (by simpa using hn)

theorem mem_groupPush (m : List (String × List PhotoRef)) (p : PhotoRef)
    (hnd : (m.map Prod.fst).Nodup) (k : String) (g : List PhotoRef) :
    (k, g) ∈ groupPush m p ↔
      (k ≠ p.userID ∧ (k, g) ∈ m) ∨
      (k = p.userID ∧ ((∃ g0, (k, g0) ∈ m ∧ g = g0 ++ [p]) ∨
        (k ∉ m.map Prod.fst ∧ g = [p]))) := by
  induction m with
  | nil =>
    simp [groupPush]
  | cons e rest ih =>
    obtain ⟨k0, l0⟩ := e
    have hnd' := (List.nodup_cons.mp hnd)
    have hk0 : ∀ g', (k0, g') ∉ rest := fun g' hm =>
      hnd'.1 (List.mem_map.mpr ⟨(k0, g'), hm, rfl⟩)
    by_cases hk : k0 = p.userID
    · subst hk
      simp only [groupPush, if_true, List.mem_cons, Prod.mk.injEq, List.map_cons]
      constructor
      · rintro (⟨rfl, rfl⟩ | h)
        · exact Or.inr ⟨rfl, Or.inl ⟨l0, Or.inl ⟨rfl, rfl⟩, rfl⟩⟩
        · by_cases hkk : k = p.userID
          · subst hkk; exact absurd h (hk0 g)
          · exact Or.inl ⟨hkk, Or.inr h⟩
      · rintro (⟨hne, (⟨rfl, rfl⟩ | h)⟩ | ⟨rfl, (⟨g0, (⟨_, rfl⟩ | h), rfl⟩ | ⟨hn, _⟩)⟩)
        · exact absurd rfl hne
        · exact Or.inr h
        · exact Or.inl ⟨rfl, rfl⟩
        · exact absurd h (hk0 g0)
        · exact absurd (Or.inl rfl) hn
    · simp only [groupPush, hk, if_false, List.mem_cons, Prod.mk.injEq, ih hnd'.2, List.map_cons]
      constructor
      · rintro (⟨rfl, rfl⟩ | ⟨hne, h⟩ | ⟨rfl, (⟨g0, h, rfl⟩ | ⟨hn, rfl⟩)⟩)
        · exact Or.inl ⟨hk, Or.inl ⟨rfl, rfl⟩⟩
        · exact Or.inl ⟨hne, Or.inr h⟩
        · exact Or.inr ⟨rfl, Or.inl ⟨g0, Or.inr h, rfl⟩⟩
        · exact Or.inr ⟨rfl, Or.inr ⟨by
            intro hc
            rcases hc with hc | hc
            · exact hk hc.symm
            · exact hn hc, rfl⟩⟩
      · rintro (⟨hne, (⟨rfl, rfl⟩ | h)⟩ | ⟨rfl, (⟨g0, (⟨rfl, rfl⟩ | h), rfl⟩ | ⟨hn, rfl⟩)⟩)
        · exact Or.inl ⟨rfl, rfl⟩
        · exact Or.inr (Or.inl ⟨hne, h⟩)
        · exact absurd rfl hk
        · exact Or.inr (Or.inr ⟨rfl, Or.inl ⟨g0, h, rfl⟩⟩)
        · exact Or.inr (Or.inr ⟨rfl, Or.inr ⟨fun hc => hn (Or.inr hc), rfl⟩⟩)

theorem ofUser_append (k : String) (ps : List PhotoRef) (p : PhotoRef) :
    ofUser k (ps ++ [p]) = ofUser k ps ++ (if p.userID = k then [p] else []) := by
  unfold ofUser
  rw [List.filter_append]
  by_cases h : p.userID = k <;> simp [h]

theorem groupInv_push (m : List (String × List PhotoRef)) (ps : List PhotoRef) (p : PhotoRef)
    (h : GroupInv m ps) : GroupInv (groupPush m p) (ps ++ [p]) := by
  obtain ⟨hnd, hm⟩ := h
  refine ⟨groupPush_keys_nodup m p hnd, fun k g => ?_⟩
  rw [mem_groupPush m p hnd, ofUser_append]
  by_cases hk : k = p.userID
  · subst hk
    simp only [ne_eq, not_true_eq_false, false_and, true_and, false_or, if_true]
    constructor
    · rintro (⟨g0, h0, rfl⟩ | ⟨hn, rfl⟩)
      · exact ⟨by rw [((hm _ _).mp h0).1], by simp⟩
      · have he : ofUser p.userID ps = [] := by
          by_contra hc
          exact hn (List.mem_map.mpr ⟨(p.userID, ofUser p.userID ps), (hm _ _).mpr ⟨rfl, hc⟩, rfl⟩)
        exact ⟨by rw [he]; rfl, by simp⟩
    · rintro ⟨rfl, _⟩
      by_cases he : ofUser p.userID ps = []
      · refine Or.inr ⟨?_, by rw [he]; rfl⟩
        intro hc
        obtain ⟨⟨k0, g0⟩, h0, hk0⟩ := List.mem_map.mp hc
        simp only at hk0
        subst hk0
        exact ((hm _ _).mp h0).2 (((hm _ _).mp h0).1.trans he)
      · exact Or.inl ⟨_, (hm _ _).mpr ⟨rfl, he⟩, rfl⟩
  · have hk' : ¬ p.userID = k := fun h => hk h.symm
    simp only [ne_eq, hk, not_false_eq_true, true_and, false_and, or_false, hk', if_false,
      List.append_nil]
    exact hm k g

theorem groupInv_foldl (ps : List PhotoRef) :
    ∀ (m : List (String × List PhotoRef)) (ps0 : List PhotoRef),
      GroupInv m ps0 → GroupInv (ps.foldl groupPush m) (ps0 ++ ps) := by
  induction ps with
  | nil => intro m ps0 h; simpa using h
  | cons p rest ih =>
    intro m ps0 h
    have := ih (groupPush m p) (ps0 ++ [p]) (groupInv_push m ps0 p h)
    simpa using this

theorem groupInv_groupByUser (ps : List PhotoRef) : GroupInv (groupByUser ps) ps := by
  have h0 : GroupInv [] [] := ⟨by simp, by simp [ofUser]⟩
  simpa [groupByUser] using groupInv_foldl ps [] [] h0

theorem mem_groupByUser (ps : List PhotoRef) (k : String) (g : List PhotoRef) :
    (k, g) ∈ groupByUser ps ↔ (g = ofUser k ps ∧ g ≠ []) :=
  (groupInv_groupByUser ps).2 k g

theorem photosToDelete_eq (newLimit : Nat) (g : List PhotoRef) :
    photosToDelete newLimit g = (sortByCreatedAtDesc g).drop newLimit := by
  unfold photosToDelete
  simp only
  split
  · rfl
  · rename_i h
    exact (List.drop_eq_nil_of_le (Nat.le_of_not_lt h)).symm

theorem sortByCreatedAtDesc_perm (g : List PhotoRef) : (sortByCreatedAtDesc g).Perm g :=
  List.perm_insertionSort _ g

theorem sortByCreatedAtDesc_pairwise (g : List PhotoRef) :
    (sortByCreatedAtDesc g).Pairwise (fun a b => b.createdAt ≤ a.createdAt) := by
  haveI : IsTotal PhotoRef (fun a b => b.createdAt ≤ a.createdAt) :=
    ⟨fun a b => le_total b.createdAt a.createdAt⟩
  haveI : IsTrans PhotoRef (fun a b => b.createdAt ≤ a.createdAt) :=
    ⟨fun a b c hab hbc => le_trans hbc hab⟩
  exact List.sorted_insertionSort _ g

theorem mem_deletedRefs (newLimit : Nat) (photos : List Photo) (r : PhotoRef) :
    r ∈ deletedRefs newLimit photos ↔
      r ∈ (sortByCreatedAtDesc (ofUser r.userID (photos.map photoRef))).drop newLimit := by
  unfold deletedRefs
  rw [List.mem_flatMap]
  constructor
  · rintro ⟨⟨k, g⟩, hkg, hr⟩
    rw [photosToDelete_eq] at hr
    obtain ⟨rfl, _⟩ := (mem_groupByUser _ _ _).mp hkg
    have hmem : r ∈ ofUser k (photos.map photoRef) :=
      (sortByCreatedAtDesc_perm _).mem_iff.mp (List.mem_of_mem_drop hr)
    have hu : r.userID = k := by simpa [ofUser] using (List.mem_filter.mp hmem).2
    subst hu
    exact hr
  · intro hr
    have hmem : r ∈ ofUser r.userID (photos.map photoRef) :=
      (sortByCreatedAtDesc_perm _).mem_iff.mp (List.mem_of_mem_drop hr)
    refine ⟨(r.userID, ofUser r.userID (photos.map photoRef)),
      (mem_groupByUser _ _ _).mpr ⟨rfl, List.ne_nil_of_mem hmem⟩, ?_⟩
    rw [photosToDelete_eq]
    exact hr

theorem deleteAll_eq (dels : List PhotoRef) :
    ∀ photos : List Photo,
      deleteAll dels photos = photos.filter (fun p => decide (p.id ∉ dels.map PhotoRef.id)) := by
  induction dels with
  | nil => intro photos; simp [deleteAll]
  | cons d rest ih =>
    intro photos
    have h := ih (deleteDoc Photo.id d.id photos)
    unfold deleteAll at h ⊢
    rw [List.foldl_cons, h]
    unfold deleteDoc
    rw [List.filter_filter]
    apply List.filter_congr
    intro p _
    rw [Bool.eq_iff_iff]
    simp
    tauto

theorem foldl_deleteAll_eq (f : String × List PhotoRef → List PhotoRef)
    (es : List (String × List PhotoRef)) :
    ∀ photos : List Photo,
      es.foldl (fun st entry => deleteAll (f entry) st) photos =
        photos.filter (fun p => decide (p.id ∉ (es.flatMap f).map PhotoRef.id)) := by
  induction es with
  | nil => intro photos; simp
  | cons e rest ih =>
    intro photos
    rw [List.foldl_cons, ih, deleteAll_eq, List.filter_filter]
    apply List.filter_congr
    intro p _
    rw [Bool.eq_iff_iff]
    simp
    tauto

theorem sweep_eq_filter (newLimit : Nat) (photos : List Photo) :
    sweep newLimit photos =
      photos.filter (fun p => decide (p.id ∉ (deletedRefs newLimit photos).map PhotoRef.id)) := by
  unfold sweep deletedRefs
  exact foldl_deleteAll_eq _ _ photos

/-- The order in which the loop `for (const userID in userPhotos)` visits the users
does not matter: visiting the entries of the dictionary in any other order leaves the
same collection. -/
theorem sweep_visit_order (newLimit : Nat) (photos : List Photo)
    (es : List (String × List PhotoRef))
    (h : es.Perm (groupByUser (photos.map photoRef))) :
    es.foldl (fun st entry => deleteAll (photosToDelete newLimit entry.2) st) photos =
      sweep newLimit photos := by
  rw [foldl_deleteAll_eq, sweep_eq_filter]
  apply List.filter_congr
  intro p _
  have hiff : p.id ∈ (es.flatMap fun entry => photosToDelete newLimit entry.2).map PhotoRef.id ↔
      p.id ∈ (deletedRefs newLimit photos).map PhotoRef.id := by
    unfold deletedRefs
    simp only [List.mem_map, List.mem_flatMap]
    constructor
    · rintro ⟨r, ⟨e, he, hr⟩, hid⟩
      exact ⟨r, ⟨e, h.mem_iff.mp he, hr⟩, hid⟩
    · rintro ⟨r, ⟨e, he, hr⟩, hid⟩
      exact ⟨r, ⟨e, h.mem_iff.mpr he, hr⟩, hid⟩
  exact decide_eq_decide.mpr hiff.not

theorem savePhotoLimit_photos (newLimit : Nat) (db : Store) :
    (savePhotoLimit true (some (newLimit : Int)) db).photos = sweep newLimit db.photos := by
  have h : ¬ ((newLimit : Int) < 0) := by omega
  simp [savePhotoLimit, h]

theorem map_photoRef_filter (q : PhotoRef → Bool) (photos : List Photo) :
    (photos.filter (fun p => q (photoRef p))).map photoRef = (photos.map photoRef).filter q := by
  rw [List.filter_map]
  rfl

theorem ownedBy_map (u : String) (photos : List Photo) :
    (ownedBy u photos).map photoRef = ofUser u (photos.map photoRef) :=
  map_photoRef_filter (fun r => decide (r.userID = u)) photos

theorem filter_not_mem_drop_length_le (s : List PhotoRef) (n : Nat) :
    (s.filter (fun r => decide (r ∉ s.drop n))).length ≤ n := by
  have h : s.filter (fun r => decide (r ∉ s.drop n)) =
      (s.take n).filter (fun r => decide (r ∉ s.drop n)) ++
        (s.drop n).filter (fun r => decide (r ∉ s.drop n)) := by
    rw [← List.filter_append, List.take_append_drop]
  have h2 : (s.drop n).filter (fun r => decide (r ∉ s.drop n)) = [] := by
    rw [List.filter_eq_nil_iff]
    intro a ha
    simpa using ha
  rw [h, h2, List.append_nil]
  exact le_trans (List.length_filter_le _ _) (List.length_take_le _ _)

theorem filter_not_mem_drop_of_nodup (s : List PhotoRef) (n : Nat) (hs : s.Nodup) :
    s.filter (fun r => decide (r ∉ s.drop n)) = s.take n := by
  have h : s.filter (fun r => decide (r ∉ s.drop n)) =
      (s.take n).filter (fun r => decide (r ∉ s.drop n)) ++
        (s.drop n).filter (fun r => decide (r ∉ s.drop n)) := by
    rw [← List.filter_append, List.take_append_drop]
  have h2 : (s.drop n).filter (fun r => decide (r ∉ s.drop n)) = [] := by
    rw [List.filter_eq_nil_iff]
    intro a ha
    simpa using ha
  have h1 : (s.take n).filter (fun r => decide (r ∉ s.drop n)) = s.take n := by
    rw [List.filter_eq_self]
    intro a ha
    have hd := List.disjoint_take_drop hs (le_refl n)
    simpa using fun hc => hd ha hc
  rw [h, h1, h2, List.append_nil]

theorem deletedRefs_subset (newLimit : Nat) (photos : List Photo) (r : PhotoRef)
    (h : r ∈ deletedRefs newLimit photos) : r ∈ photos.map photoRef := by
  have h1 := (mem_deletedRefs newLimit photos r).mp h
  have h2 : r ∈ ofUser r.userID (photos.map photoRef) :=
    (sortByCreatedAtDesc_perm _).mem_iff.mp (List.mem_of_mem_drop h1)
  exact (List.mem_filter.mp h2).1

/-- With distinct document ids, a photo is deleted exactly when its entry lies beyond
the limit in the sorted list of its owner. -/
theorem id_mem_deleted_iff (newLimit : Nat) (photos : List Photo)
    (hid : (photos.map Photo.id).Nodup) (p : Photo) (hp : p ∈ photos) :
    p.id ∈ (deletedRefs newLimit photos).map PhotoRef.id ↔
      photoRef p ∈
        (sortByCreatedAtDesc (ofUser p.userID (photos.map photoRef))).drop newLimit := by
  constructor
  · intro h
    obtain ⟨r, hr, hrid⟩ := List.mem_map.mp h
    obtain ⟨q, hq, rfl⟩ := List.mem_map.mp (deletedRefs_subset newLimit photos r hr)
    have hqp : q = p := List.inj_on_of_nodup_map hid hq hp hrid
    subst hqp
    exact (mem_deletedRefs newLimit photos _).mp hr
  · intro h
    exact List.mem_map.mpr ⟨photoRef p, (mem_deletedRefs newLimit photos _).mpr h, rfl⟩

theorem mem_sweep_iff (newLimit : Nat) (photos : List Photo)
    (hid : (photos.map Photo.id).Nodup) (p : Photo) :
    p ∈ sweep newLimit photos ↔
      p ∈ photos ∧ photoRef p ∉
        (sortByCreatedAtDesc (ofUser p.userID (photos.map photoRef))).drop newLimit := by
  rw [sweep_eq_filter, List.mem_filter]
  constructor
  · rintro ⟨hp, hd⟩
    refine ⟨hp, fun hc => ?_⟩
    have := (id_mem_deleted_iff newLimit photos hid p hp).mpr hc
    simp [this] at hd
  · rintro ⟨hp, hd⟩
    refine ⟨hp, ?_⟩
    have := (id_mem_deleted_iff newLimit photos hid p hp).not.mpr hd
    simpa using this

theorem ownedBy_sweep_length_le (newLimit : Nat) (photos : List Photo) (u : String) :
    (ownedBy u (sweep newLimit photos)).length ≤ newLimit := by
  set s := sortByCreatedAtDesc (ofUser u (photos.map photoRef)) with hs
  have hsub : (ownedBy u (sweep newLimit photos)).length ≤
      ((ofUser u (photos.map photoRef)).filter (fun r => decide (r ∉ s.drop newLimit))).length := by
    rw [← List.length_map (ownedBy u (sweep newLimit photos)) photoRef]
    have e1 : (ownedBy u (sweep newLimit photos)).map photoRef =
        (photos.map photoRef).filter (fun r =>
          decide (r.userID = u) && decide (r.id ∉ (deletedRefs newLimit photos).map PhotoRef.id)) := by
      rw [sweep_eq_filter, ownedBy, List.filter_filter]
      exact map_photoRef_filter (fun r =>
          decide (r.userID = u) && decide (r.id ∉ (deletedRefs newLimit photos).map PhotoRef.id))
        photos
    rw [e1, ofUser, List.filter_filter]
    apply List.Sublist.length_le
    apply List.monotone_filter_right
    intro r hr
    simp only [Bool.and_eq_true, decide_eq_true_eq] at hr ⊢
    obtain ⟨hu, hd⟩ := hr
    refine ⟨fun hc => hd ?_, hu⟩
    refine List.mem_map.mpr ⟨r, (mem_deletedRefs newLimit photos r).mpr ?_, rfl⟩
    rw [hu]
    exact hc
  have hperm : ((ofUser u (photos.map photoRef)).filter
      (fun r => decide (r ∉ s.drop newLimit))).length =
      (s.filter (fun r => decide (r ∉ s.drop newLimit))).length :=
    ((sortByCreatedAtDesc_perm _).filter _).length_eq.symm
  rw [hperm] at hsub
  exact le_trans hsub (filter_not_mem_drop_length_le s newLimit)

theorem photoRef_nodup (photos : List Photo) (hid : (photos.map Photo.id).Nodup) :
    (photos.map photoRef).Nodup := by
  have h : (photos.map photoRef).map PhotoRef.id = photos.map Photo.id := by
    rw [List.map_map]; rfl
  exact List.Nodup.of_map PhotoRef.id (h ▸ hid)

theorem sorted_nodup (photos : List Photo) (hid : (photos.map Photo.id).Nodup) (u : String) :
    (sortByCreatedAtDesc (ofUser u (photos.map photoRef))).Nodup :=
  (sortByCreatedAtDesc_perm _).nodup_iff.mpr
    ((photoRef_nodup photos hid).sublist (List.filter_sublist _))

theorem ownedBy_sweep_length (newLimit : Nat) (photos : List Photo)
    (hid : (photos.map Photo.id).Nodup) (u : String) :
    (ownedBy u (sweep newLimit photos)).length = min (ownedBy u photos).length newLimit := by
  set s := sortByCreatedAtDesc (ofUser u (photos.map photoRef)) with hs
  have e0 : ownedBy u (sweep newLimit photos) =
      photos.filter (fun p => decide (p.userID = u) &&
        decide (photoRef p ∉ s.drop newLimit)) := by
    rw [sweep_eq_filter, ownedBy, List.filter_filter]
    apply List.filter_congr
    intro p hp
    by_cases hu : p.userID = u
    · have := id_mem_deleted_iff newLimit photos hid p hp
      rw [hu] at this
      simp only [hu, decide_True, Bool.true_and]
      exact decide_eq_decide.mpr this.not
    · simp [hu]
  have e1 : (ownedBy u (sweep newLimit photos)).map photoRef =
      (ofUser u (photos.map photoRef)).filter (fun r => decide (r ∉ s.drop newLimit)) := by
    rw [e0, ofUser, List.filter_filter]
    have := map_photoRef_filter (fun r => decide (r.userID = u) &&
        decide (r ∉ s.drop newLimit)) photos
    refine Eq.trans this ?_
    apply List.filter_congr
    intro r _
    exact Bool.and_comm _ _
  have e2 : ((ofUser u (photos.map photoRef)).filter
      (fun r => decide (r ∉ s.drop newLimit))).length =
      (s.filter (fun r => decide (r ∉ s.drop newLimit))).length :=
    ((sortByCreatedAtDesc_perm _).filter _).length_eq.symm
  have e3 : s.length = (ownedBy u photos).length := by
    rw [hs, (sortByCreatedAtDesc_perm _).length_eq, ← ownedBy_map, List.length_map]
  rw [← List.length_map (ownedBy u (sweep newLimit photos)) photoRef, e1, e2,
    filter_not_mem_drop_of_nodup s newLimit (sorted_nodup photos hid u), List.length_take, e3,
    min_comm]

theorem survivor_newer (newLimit : Nat) (photos : List Photo)
    (hid : (photos.map Photo.id).Nodup) (p q : Photo) (hp : p ∈ sweep newLimit photos)
    (hq : q ∈ photos) (hqd : q ∉ sweep newLimit photos) (hu : p.userID = q.userID) :
    q.createdAt ≤ p.createdAt := by
  set s := sortByCreatedAtDesc (ofUser p.userID (photos.map photoRef)) with hs
  obtain ⟨hpm, hpk⟩ := (mem_sweep_iff newLimit photos hid p).mp hp
  have hqdrop : photoRef q ∈ s.drop newLimit := by
    by_contra hc
    rw [hs, hu] at hc
    exact hqd ((mem_sweep_iff newLimit photos hid q).mpr ⟨hq, hc⟩)
  have hps : photoRef p ∈ s := by
    rw [hs, (sortByCreatedAtDesc_perm _).mem_iff, ← ownedBy_map]
    exact List.mem_map.mpr ⟨p, List.mem_filter.mpr ⟨hpm, by simp⟩, rfl⟩
  have hptake : photoRef p ∈ s.take newLimit := by
    rw [← List.take_append_drop newLimit s, List.mem_append] at hps
    exact hps.resolve_right hpk
  have hpw := sortByCreatedAtDesc_pairwise (ofUser p.userID (photos.map photoRef))
  rw [← hs, ← List.take_append_drop newLimit s, List.pairwise_append] at hpw
  exact hpw.2.2 _ hptake _ hqdrop

theorem eq_of_perm_of_sorted_strict :
    ∀ (l2 l1 : List PhotoRef), l1.Perm l2 →
      l1.Pairwise (fun a b => b.createdAt ≤ a.createdAt) →
      l2.Pairwise (fun a b => b.createdAt < a.createdAt) → l1 = l2 := by
  intro l2
  induction l2 with
  | nil => intro l1 hp _ _; exact hp.eq_nil
  | cons a t ih =>
    intro l1 hp h1 h2
    cases l1 with
    | nil => exact absurd hp.symm.eq_nil (by simp)
    | cons b t1 =>
      have hb : b ∈ a :: t := hp.mem_iff.mp (List.mem_cons_self _ _)
      have ha : a ∈ b :: t1 := hp.mem_iff.mpr (List.mem_cons_self _ _)
      have hba : b = a := by
        by_contra hne
        have hbt : b ∈ t := (List.mem_cons.mp hb).resolve_left hne
        have hat : a ∈ t1 := (List.mem_cons.mp ha).resolve_left (fun h => hne h.symm)
        have c1 := (List.pairwise_cons.mp h2).1 b hbt
        have c2 := (List.pairwise_cons.mp h1).1 a hat
        omega
      subst hba
      rw [ih t1 (List.Perm.cons_inv hp) (List.pairwise_cons.mp h1).2 (List.pairwise_cons.mp h2).2]

theorem photoRef_mem_pair (p a b : Photo) (h : photoRef p ∈ [photoRef a, photoRef b]) :
    p.createdAt = a.createdAt ∨ p.createdAt = b.createdAt := by
  simp only [List.mem_cons, List.mem_singleton, List.not_mem_nil, or_false] at h
  rcases h with h | h
  · exact Or.inl (congrArg PhotoRef.createdAt h)
  · exact Or.inr (congrArg PhotoRef.createdAt h)

/-! ## Lemmas: votes, approval and uploads -/

theorem getDoc_patch {α : Type} (key : α → String) (id j : String) (f : α → α)
    (hk : ∀ d, key (f d) = key d) (docs : List α) :
    getDoc key j (patch key id f docs) =
      (getDoc key j docs).map (fun d => if key d = id then f d else d) := by
  unfold getDoc patch
  rw [List.find?_map]
  have hfun : ((fun d => decide (key d = j)) ∘ fun d => if key d = id then f d else d) =
      fun d => decide (key d = j) := by
    funext d
    simp only [Function.comp]
    by_cases h : key d = id <;> simp [h, hk]
  rw [hfun]

theorem updateDoc_of_getDoc {α : Type} (key : α → String) (id : String) (f : α → α)
    (docs : List α) (d : α) (h : getDoc key id docs = some d) :
    updateDoc key id f docs = some (patch key id f docs) := by
  simp [updateDoc, h]

theorem updateDoc_of_getDoc_none {α : Type} (key : α → String) (id : String) (f : α → α)
    (docs : List α) (h : getDoc key id docs = none) :
    updateDoc key id f docs = none := by
  simp [updateDoc, h]

theorem getDoc_key {α : Type} (key : α → String) (id : String) (docs : List α) (d : α)
    (h : getDoc key id docs = some d) : key d = id := by
  unfold getDoc at h
  simpa using List.find?_some h

theorem handleVote_removed (uid : String) (m y : Nat) (photoId userId : String)
    (st : HomeState) (db : Store) (pd : Photo) (ud : User)
    (hne : uid ≠ userId) (hlt : st.userVotes < 3)
    (hp : getDoc Photo.id photoId db.photos = some pd)
    (hu : getDoc User.id uid db.users = some ud)
    (hv : includes pd.votes uid = true) :
    handleVote (some uid) m y photoId userId st db =
      ⟨loadPhotos (some uid) m y st (storeVoteRemoved uid photoId st.userVotes pd db),
        storeVoteRemoved uid photoId st.userVotes pd db, .toggled⟩ := by
  have h3 : ¬ st.userVotes ≥ 3 := by omega
  simp [handleVote, hne, h3, hp, hv, updateDoc_of_getDoc _ _ _ _ _ hp,
    updateDoc_of_getDoc _ _ _ _ _ hu, storeVoteRemoved]

theorem handleVote_added (uid : String) (m y : Nat) (photoId userId : String)
    (st : HomeState) (db : Store) (pd : Photo) (ud : User)
    (hne : uid ≠ userId) (hlt : st.userVotes < 3)
    (hp : getDoc Photo.id photoId db.photos = some pd)
    (hu : getDoc User.id uid db.users = some ud)
    (hv : includes pd.votes uid = false) :
    handleVote (some uid) m y photoId userId st db =
      ⟨loadPhotos (some uid) m y st (storeVoteAdded uid photoId st.userVotes pd db),
        storeVoteAdded uid photoId st.userVotes pd db, .toggled⟩ := by
  have h3 : ¬ st.userVotes ≥ 3 := by omega
  simp [handleVote, hne, h3, hp, hv, updateDoc_of_getDoc _ _ _ _ _ hp,
    updateDoc_of_getDoc _ _ _ _ _ hu, storeVoteAdded]

theorem handleVote_cases (currentUser : Option String) (m y : Nat)
    (photoId userId : String) (st : HomeState) (db : Store) :
    (handleVote currentUser m y photoId userId st db).store = db ∨
    ∃ uid pd, currentUser = some uid ∧ uid ≠ userId ∧ st.userVotes < 3 ∧
      getDoc Photo.id photoId db.photos = some pd ∧
      ((includes pd.votes uid = true ∧
          ((handleVote currentUser m y photoId userId st db).store =
              { db with photos := patch Photo.id photoId (photoVoteRemoved uid pd) db.photos } ∨
           (handleVote currentUser m y photoId userId st db).store =
              storeVoteRemoved uid photoId st.userVotes pd db)) ∨
       (includes pd.votes uid = false ∧
          ((handleVote currentUser m y photoId userId st db).store =
              { db with photos := patch Photo.id photoId (photoVoteAdded uid pd) db.photos } ∨
           (handleVote currentUser m y photoId userId st db).store =
              storeVoteAdded uid photoId st.userVotes pd db))) := by
  cases currentUser with
  | none => exact Or.inl rfl
  | some uid =>
    by_cases h1 : uid = userId
    · exact Or.inl (by simp [handleVote, h1])
    · by_cases h3 : st.userVotes ≥ 3
      · exact Or.inl (by simp [handleVote, h1, h3])
      · rcases hp : getDoc Photo.id photoId db.photos with _ | pd
        · exact Or.inl (by simp [handleVote, h1, h3, hp])
        · refine Or.inr ⟨uid, pd, rfl, h1, by omega, rfl, ?_⟩
          rcases hu : getDoc User.id uid db.users with _ | ud
          · cases hv : includes pd.votes uid
            · refine Or.inr ⟨rfl, Or.inl ?_⟩
              simp [handleVote, h1, h3, hp, hv, updateDoc_of_getDoc _ _ _ _ _ hp,
                updateDoc_of_getDoc_none _ _ _ _ hu]
            · refine Or.inl ⟨rfl, Or.inl ?_⟩
              simp [handleVote, h1, h3, hp, hv, updateDoc_of_getDoc _ _ _ _ _ hp,
                updateDoc_of_getDoc_none _ _ _ _ hu]
          · cases hv : includes pd.votes uid
            · refine Or.inr ⟨rfl, Or.inr ?_⟩
              rw [handleVote_added uid m y photoId userId st db pd ud h1 (by omega) hp hu hv]
            · refine Or.inl ⟨rfl, Or.inr ?_⟩
              rw [handleVote_removed uid m y photoId userId st db pd ud h1 (by omega) hp hu hv]

theorem getDoc_patch_self {α : Type} (key : α → String) (id : String) (f : α → α)
    (hk : ∀ d, key (f d) = key d) (docs : List α) (d : α)
    (h : getDoc key id docs = some d) :
    getDoc key id (patch key id f docs) = some (f d) := by
  rw [getDoc_patch key id id f hk, h]
  simp [getDoc_key key id docs d h]

theorem handleVote_user_after (uid : String) (m y : Nat) (photoId userId : String)
    (st : HomeState) (db : Store) (ud : User)
    (hu : getDoc User.id uid db.users = some ud) :
    ∃ ud', getDoc User.id uid (handleVote (some uid) m y photoId userId st db).store.users =
        some ud' ∧
      (ud' = ud ∨ (st.userVotes < 3 ∧ ∃ pd, getDoc Photo.id photoId db.photos = some pd ∧
        ((includes pd.votes uid = true ∧ ud' = userVoteRemoved photoId st.userVotes ud) ∨
         (includes pd.votes uid = false ∧ ud' = userVoteAdded photoId st.userVotes ud)))) := by
  rcases handleVote_cases (some uid) m y photoId userId st db with h |
    ⟨uid', pd, hc, _, hlt, hp, ⟨hv, (h | h)⟩ | ⟨hv, (h | h)⟩⟩
  · exact ⟨ud, by rw [h]; exact hu, Or.inl rfl⟩
  · exact ⟨ud, by rw [h]; exact hu, Or.inl rfl⟩
  · cases hc
    refine ⟨userVoteRemoved photoId st.userVotes ud, ?_, Or.inr ⟨hlt, pd, hp, Or.inl ⟨hv, rfl⟩⟩⟩
    rw [h]
    exact getDoc_patch_self User.id uid (userVoteRemoved photoId st.userVotes)
      (fun _ => rfl) db.users ud hu
  · exact ⟨ud, by rw [h]; exact hu, Or.inl rfl⟩
  · cases hc
    refine ⟨userVoteAdded photoId st.userVotes ud, ?_, Or.inr ⟨hlt, pd, hp, Or.inr ⟨hv, rfl⟩⟩⟩
    rw [h]
    exact getDoc_patch_self User.id uid (userVoteAdded photoId st.userVotes)
      (fun _ => rfl) db.users ud hu

theorem includes_arrayRemove (x y : String) (arr : Option (List String)) :
    includes (some (arrayRemove x arr)) y = (decide (y ≠ x) && includes arr y) := by
  cases arr with
  | none => simp [includes, arrayRemove]
  | some l =>
    simp only [includes, arrayRemove]
    rw [Bool.eq_iff_iff]
    simp [List.mem_filter, and_comm]

theorem includes_arrayUnion (x y : String) (arr : Option (List String)) :
    includes (some (arrayUnion x arr)) y = (decide (y = x) || includes arr y) := by
  cases arr with
  | none => simp [includes, arrayUnion]
  | some l =>
    simp only [includes, arrayUnion]
    rw [Bool.eq_iff_iff]
    by_cases h : x ∈ l
    · simp only [h, if_true, decide_eq_true_eq, Bool.or_eq_true]
      constructor
      · exact Or.inr
      · rintro (rfl | h')
        · exact h
        · exact h'
    · simp [h, or_comm]

theorem noSelfVote_patch_removed (uid photoId : String) (pd : Photo) (photos : List Photo)
    (hinv : NoSelfVote photos) :
    NoSelfVote (patch Photo.id photoId (photoVoteRemoved uid pd) photos) := by
  intro p' hp'
  obtain ⟨p, hp, rfl⟩ := List.mem_map.mp hp'
  by_cases h : p.id = photoId
  · simp only [h, if_true, photoVoteRemoved, includes_arrayRemove, hinv p hp, Bool.and_false]
  · simp only [h, if_false, hinv p hp]

theorem noSelfVote_patch_added (uid photoId userId : String) (pd : Photo)
    (photos : List Photo) (hne : uid ≠ userId)
    (howner : ∀ p ∈ photos, p.id = photoId → p.userID = userId)
    (hinv : NoSelfVote photos) :
    NoSelfVote (patch Photo.id photoId (photoVoteAdded uid pd) photos) := by
  intro p' hp'
  obtain ⟨p, hp, rfl⟩ := List.mem_map.mp hp'
  by_cases h : p.id = photoId
  · have ho : p.userID ≠ uid := by
      rw [howner p hp h]
      exact fun hc => hne hc.symm
    simp [h, photoVoteAdded, includes_arrayUnion, hinv p hp, ho]
  · simp only [h, if_false, hinv p hp]

theorem loadPhotos_userVotes (uid : String) (m y : Nat) (st : HomeState) (db : Store)
    (ud : User) (hu : getDoc User.id uid db.users = some ud) :
    (loadPhotos (some uid) m y st db).userVotes = orZero ud.votesThisMonth := by
  simp [loadPhotos, hu]

theorem getDoc_photo_removed (uid photoId : String) (userVotes : Int) (pd : Photo)
    (db : Store) (hp : getDoc Photo.id photoId db.photos = some pd) :
    getDoc Photo.id photoId (storeVoteRemoved uid photoId userVotes pd db).photos =
      some (photoVoteRemoved uid pd pd) :=
  getDoc_patch_self Photo.id photoId (photoVoteRemoved uid pd) (fun _ => rfl) db.photos pd hp

theorem getDoc_user_removed (uid photoId : String) (userVotes : Int) (pd : Photo)
    (db : Store) (ud : User) (hu : getDoc User.id uid db.users = some ud) :
    getDoc User.id uid (storeVoteRemoved uid photoId userVotes pd db).users =
      some (userVoteRemoved photoId userVotes ud) :=
  getDoc_patch_self User.id uid (userVoteRemoved photoId userVotes) (fun _ => rfl)
    db.users ud hu

theorem getDoc_photo_added (uid photoId : String) (userVotes : Int) (pd : Photo)
    (db : Store) (hp : getDoc Photo.id photoId db.photos = some pd) :
    getDoc Photo.id photoId (storeVoteAdded uid photoId userVotes pd db).photos =
      some (photoVoteAdded uid pd pd) :=
  getDoc_patch_self Photo.id photoId (photoVoteAdded uid pd) (fun _ => rfl) db.photos pd hp

theorem getDoc_user_added (uid photoId : String) (userVotes : Int) (pd : Photo)
    (db : Store) (ud : User) (hu : getDoc User.id uid db.users = some ud) :
    getDoc User.id uid (storeVoteAdded uid photoId userVotes pd db).users =
      some (userVoteAdded photoId userVotes ud) :=
  getDoc_patch_self User.id uid (userVoteAdded photoId userVotes) (fun _ => rfl)
    db.users ud hu

theorem length_filter_ne_of_nodup (x : String) :
    ∀ l : List String, l.Nodup → x ∈ l →
      ((l.filter (fun y => decide (y ≠ x))).length : Int) = (l.length : Int) - 1 := by
  intro l
  induction l with
  | nil => intro _ h; simp at h
  | cons a t ih =>
    intro hnd hx
    obtain ⟨hat, hnt⟩ := List.nodup_cons.mp hnd
    by_cases hax : a = x
    · subst hax
      have hf : t.filter (fun y => decide (y ≠ a)) = t := by
        rw [List.filter_eq_self]
        intro b hb
        have : b ≠ a := fun h => hat (h ▸ hb)
        simpa using this
      have e : (a :: t).filter (fun y => decide (y ≠ a)) =
          t.filter (fun y => decide (y ≠ a)) := by simp
      rw [e, hf, List.length_cons]
      push_cast
      omega
    · have hxt : x ∈ t := (List.mem_cons.mp hx).resolve_left (fun h => hax h.symm)
      have h1 := ih hnt hxt
      have e : (a :: t).filter (fun y => decide (y ≠ x)) =
          a :: t.filter (fun y => decide (y ≠ x)) := by simp [hax]
      rw [e, List.length_cons, List.length_cons]
      push_cast
      omega

theorem voteCountOk_removed (uid : String) (pd : Photo) (h : VoteCountOk pd)
    (hv : includes pd.votes uid = true) : VoteCountOk (photoVoteRemoved uid pd pd) := by
  obtain ⟨hnd, hc⟩ := h
  cases hvotes : pd.votes with
  | none => simp [includes, hvotes] at hv
  | some l =>
    simp only [votesOf, hvotes] at hnd hc
    have hmem : uid ∈ l := by simpa [includes, hvotes] using hv
    refine ⟨?_, ?_⟩
    · simp only [votesOf, photoVoteRemoved, arrayRemove, hvotes]
      exact hnd.sublist (List.filter_sublist _)
    · simp only [votesOf, photoVoteRemoved, arrayRemove, hvotes]
      show orZero pd.voteCount - 1 = _
      rw [length_filter_ne_of_nodup uid l hnd hmem, hc]

theorem voteCountOk_added (uid : String) (pd : Photo) (h : VoteCountOk pd)
    (hv : includes pd.votes uid = false) : VoteCountOk (photoVoteAdded uid pd pd) := by
  obtain ⟨hnd, hc⟩ := h
  cases hvotes : pd.votes with
  | none =>
    simp only [votesOf, hvotes] at hc
    refine ⟨by simp [votesOf, photoVoteAdded, arrayUnion, hvotes], ?_⟩
    simp only [votesOf, photoVoteAdded, arrayUnion, hvotes]
    show orZero pd.voteCount + 1 = _
    rw [hc]
    simp
  | some l =>
    simp only [votesOf, hvotes] at hnd hc
    have hmem : uid ∉ l := by simpa [includes, hvotes] using hv
    refine ⟨?_, ?_⟩
    · simp only [votesOf, photoVoteAdded, arrayUnion, hvotes, hmem, if_false]
      exact List.Nodup.append hnd (List.nodup_singleton _) (by simpa using hmem)
    · simp only [votesOf, photoVoteAdded, arrayUnion, hvotes, hmem, if_false]
      show orZero pd.voteCount + 1 = _
      rw [hc]
      simp

theorem getDoc_patch_keeps {α : Type} (key : α → String) (id j : String) (f : α → α)
    (hk : ∀ d, key (f d) = key d) (docs : List α) (d : α)
    (h : getDoc key j docs = some d) :
    getDoc key j (patch key id f docs) = some (if j = id then f d else d) := by
  rw [getDoc_patch key id j f hk, h]
  simp [getDoc_key key j docs d h]

theorem handleVote_keeps_voteCountOk (currentUser : Option String) (m y : Nat)
    (photoId userId : String) (st : HomeState) (db : Store) (j : String) (p : Photo)
    (hj : getDoc Photo.id j db.photos = some p) (hok : VoteCountOk p) :
    ∃ p', getDoc Photo.id j (handleVote currentUser m y photoId userId st db).store.photos =
        some p' ∧ VoteCountOk p' := by
  have key : ∀ (f : Photo → Photo), (∀ d, (f d).id = d.id) → (j = photoId → VoteCountOk (f p)) →
      ∃ p', getDoc Photo.id j (patch Photo.id photoId f db.photos) = some p' ∧
        VoteCountOk p' := by
    intro f hf hfp
    refine ⟨_, getDoc_patch_keeps Photo.id photoId j f hf db.photos p hj, ?_⟩
    by_cases h : j = photoId
    · simp only [h, if_true]; exact hfp h
    · simp only [h, if_false]; exact hok
  rcases handleVote_cases currentUser m y photoId userId st db with h |
    ⟨uid, pd, _, _, _, hp, ⟨hv, (h | h)⟩ | ⟨hv, (h | h)⟩⟩
  · exact ⟨p, by rw [h]; exact hj, hok⟩
  all_goals
    rw [h]
    refine key _ (fun _ => rfl) (fun hjp => ?_)
    subst hjp
    have hpd : pd = p := Option.some.inj (hp.symm.trans hj)
    subst hpd
    first
      | exact voteCountOk_removed uid pd hok hv
      | exact voteCountOk_added uid pd hok hv

theorem handleAcceptPhoto_keeps_voteCountOk (currentUser : Option String) (m y : Nat)
    (photoId : String) (st : HomeState) (db : Store) (j : String) (p : Photo)
    (hj : getDoc Photo.id j db.photos = some p) (hok : VoteCountOk p) :
    ∃ p', getDoc Photo.id j (handleAcceptPhoto currentUser m y photoId st db).2.photos =
        some p' ∧ VoteCountOk p' := by
  rcases hg : getDoc Photo.id photoId db.photos with _ | pd
  · simp only [handleAcceptPhoto, updateDoc_of_getDoc_none _ _ _ _ hg]
    exact ⟨p, hj, hok⟩
  · simp only [handleAcceptPhoto, updateDoc_of_getDoc _ _ _ _ _ hg]
    refine ⟨_, getDoc_patch_keeps Photo.id photoId j
      (fun p => { p with pending := some false }) (fun _ => rfl) db.photos p hj, ?_⟩
    by_cases h : j = photoId
    · simp only [h, if_true]
      exact hok
    · simp only [h, if_false]; exact hok

theorem uploadPhoto_new_photo (currentUser : Option String) (m y : Nat) (newId : String)
    (now : Int) (st : MyPhotosState) (db : Store)
    (h : (uploadPhoto currentUser m y newId now st db).outcome = .uploaded) :
    ∃ photoDoc, (uploadPhoto currentUser m y newId now st db).store.photos =
        db.photos ++ [photoDoc] ∧ photoDoc.id = newId ∧
      photoDoc.voteCount = some 0 ∧ photoDoc.votes = some [] := by
  cases currentUser with
  | none => simp [uploadPhoto] at h
  | some uid =>
    rcases himg : st.image with _ | image
    · simp [uploadPhoto, himg] at h
    · by_cases hi : image = ""
      · simp [uploadPhoto, himg, hi] at h
      · by_cases ht : titleBlank st.title = true
        · simp [uploadPhoto, himg, hi, ht] at h
        · rcases hu : getDoc User.id uid db.users with _ | userDoc
          · simp [uploadPhoto, himg, hi, ht, hu] at h
          · by_cases hl : orZero userDoc.photosUploadedBase64 ≥ readPhotoLimit db.config
            · simp [uploadPhoto, himg, hi, ht, hu, hl] at h
            · simp only [uploadPhoto, himg, hi, ht, hu, hl, if_false,
                updateDoc_of_getDoc _ _ _ _ _ hu]
              exact ⟨_, rfl, rfl, rfl, rfl⟩

theorem uploadPhoto_success (uid : String) (m y : Nat) (newId : String) (now : Int)
    (st : MyPhotosState) (db : Store) (image : String) (userDoc : User)
    (himg : st.image = some image) (hne : image ≠ "") (ht : titleBlank st.title = false)
    (hu : getDoc User.id uid db.users = some userDoc)
    (hl : orZero userDoc.photosUploadedBase64 < readPhotoLimit db.config) :
    (uploadPhoto (some uid) m y newId now st db).store =
        uploadedStore uid m y newId now st userDoc db ∧
    (uploadPhoto (some uid) m y newId now st db).outcome = .uploaded := by
  have hl' : ¬ orZero userDoc.photosUploadedBase64 ≥ readPhotoLimit db.config := by omega
  constructor
  · simp [uploadPhoto, himg, hne, ht, hu, hl', updateDoc_of_getDoc _ _ _ _ _ hu,
      uploadedStore, uploadedPhoto]
    rfl
  · simp [uploadPhoto, himg, hne, ht, hu, hl', updateDoc_of_getDoc _ _ _ _ _ hu]

theorem uploadPhoto_limitReached (uid : String) (m y : Nat) (newId : String) (now : Int)
    (st : MyPhotosState) (db : Store) (image : String) (userDoc : User)
    (himg : st.image = some image) (hne : image ≠ "") (ht : titleBlank st.title = false)
    (hu : getDoc User.id uid db.users = some userDoc)
    (hl : orZero userDoc.photosUploadedBase64 ≥ readPhotoLimit db.config) :
    uploadPhoto (some uid) m y newId now st db = ⟨st, db, .limitReached⟩ := by
  simp [uploadPhoto, himg, hne, ht, hu, hl]

theorem uploadPhoto_cases (currentUser : Option String) (m y : Nat) (newId : String)
    (now : Int) (st : MyPhotosState) (db : Store) :
    ((uploadPhoto currentUser m y newId now st db).store = db ∧
      (uploadPhoto currentUser m y newId now st db).state = st ∧
      (uploadPhoto currentUser m y newId now st db).outcome ≠ .uploaded) ∨
    ∃ uid image userDoc, currentUser = some uid ∧ st.image = some image ∧ image ≠ "" ∧
      titleBlank st.title = false ∧ getDoc User.id uid db.users = some userDoc ∧
      orZero userDoc.photosUploadedBase64 < readPhotoLimit db.config ∧
      (uploadPhoto currentUser m y newId now st db).store =
        uploadedStore uid m y newId now st userDoc db ∧
      (uploadPhoto currentUser m y newId now st db).outcome = .uploaded := by
  cases currentUser with
  | none => exact Or.inl (by simp [uploadPhoto])
  | some uid =>
    rcases himg : st.image with _ | image
    · exact Or.inl (by simp [uploadPhoto, himg])
    · by_cases hi : image = ""
      · exact Or.inl (by simp [uploadPhoto, himg, hi])
      · by_cases htb : titleBlank st.title = true
        · exact Or.inl (by simp [uploadPhoto, himg, hi, htb])
        · have ht : titleBlank st.title = false := by simpa using htb
          rcases hu : getDoc User.id uid db.users with _ | userDoc
          · exact Or.inl (by simp [uploadPhoto, himg, hi, ht, hu])
          · by_cases hl : orZero userDoc.photosUploadedBase64 ≥ readPhotoLimit db.config
            · rw [uploadPhoto_limitReached uid m y newId now st db image userDoc himg hi ht hu hl]
              exact Or.inl (by simp)
            · have hlt : orZero userDoc.photosUploadedBase64 < readPhotoLimit db.config := by
                omega
              obtain ⟨h1, h2⟩ :=
                uploadPhoto_success uid m y newId now st db image userDoc himg hi ht hu hlt
              exact Or.inr ⟨uid, image, userDoc, rfl, rfl, hi, ht, hu, hlt, h1, h2⟩

theorem readPhotoLimit_stored (n : Int) (hn : n ≠ 0) :
    readPhotoLimit (some { photoLimit := some n }) = n := by
  simp [readPhotoLimit, hn]

/-- What the limit check of `uploadPhoto` does: with the user signed in, an image and a
title that is not blank, and the user document present, the upload is rejected for the
limit exactly when the counter read from the user document is at least
`readPhotoLimit`, the stored limit when it is not 0 and 3 otherwise. -/
theorem uploadPhoto_limitReached_iff (uid : String) (m y : Nat) (newId : String)
    (now : Int) (st : MyPhotosState) (db : Store) (image : String) (userDoc : User)
    (himg : st.image = some image) (hne : image ≠ "") (ht : titleBlank st.title = false)
    (hu : getDoc User.id uid db.users = some userDoc) :
    (uploadPhoto (some uid) m y newId now st db).outcome = .limitReached ↔
      orZero userDoc.photosUploadedBase64 ≥ readPhotoLimit db.config := by
  by_cases hl : orZero userDoc.photosUploadedBase64 ≥ readPhotoLimit db.config
  · rw [uploadPhoto_limitReached uid m y newId now st db image userDoc himg hne ht hu hl]
    simp [hl]
  · have hlt : orZero userDoc.photosUploadedBase64 < readPhotoLimit db.config := by omega
    have h2 := (uploadPhoto_success uid m y newId now st db image userDoc himg hne ht hu hlt).2
    rw [h2]
    simp [hl]

/-- With a limit that is not 0 in the configuration, the counter that a successful
`uploadPhoto` writes does not exceed it. -/
theorem uploadPhoto_counter_le_limit (currentUser : Option String) (m y : Nat)
    (newId : String) (now : Int) (st : MyPhotosState) (db : Store) (n : Int)
    (hcfg : db.config = some { photoLimit := some n }) (hn : n ≠ 0)
    (h : (uploadPhoto currentUser m y newId now st db).outcome = .uploaded) :
    ∃ uid userDoc, currentUser = some uid ∧
      getDoc User.id uid (uploadPhoto currentUser m y newId now st db).store.users =
        some userDoc ∧
      orZero userDoc.photosUploadedBase64 ≤ n := by
  rcases uploadPhoto_cases currentUser m y newId now st db with ⟨_, _, hno⟩ |
    ⟨uid, image, userDoc, hc, _, _, _, hu, hl, hs, _⟩
  · exact absurd h hno
  · refine ⟨uid, uploadCounted userDoc userDoc, hc, ?_, ?_⟩
    · rw [hs]
      exact getDoc_patch_self User.id uid (uploadCounted userDoc) (fun _ => rfl)
        db.users userDoc hu
    · rw [hcfg, readPhotoLimit_stored n hn] at hl
      show orZero userDoc.photosUploadedBase64 + 1 ≤ n
      omega

theorem getDoc_patch_other {α : Type} (key : α → String) (id j : String) (f : α → α)
    (hk : ∀ d, key (f d) = key d) (docs : List α) (hj : j ≠ id) :
    getDoc key j (patch key id f docs) = getDoc key j docs := by
  rw [getDoc_patch key id j f hk]
  rcases h : getDoc key j docs with _ | d
  · rfl
  · have hd : key d = j := getDoc_key key j docs d h
    have hne : ¬ key d = id := fun hc => hj (hd.symm.trans hc)
    simp [hne]

theorem roleOrUser_eq_admin (r : Option String) : roleOrUser r = "admin" ↔ r = some "admin" := by
  cases r with
  | none => simp [roleOrUser]
  | some s =>
    by_cases hs : s = ""
    · subst hs; simp [roleOrUser]
    · simp [roleOrUser, hs]

theorem patch_of_getDoc_none {α : Type} (key : α → String) (id : String) (f : α → α)
    (docs : List α) (h : getDoc key id docs = none) : patch key id f docs = docs := by
  unfold getDoc at h
  rw [List.find?_eq_none] at h
  unfold patch
  conv_rhs => rw [← List.map_id docs]
  apply List.map_congr_left
  intro d hd
  have := h d hd
  simp only [decide_eq_true_eq] at this
  simp [this]

theorem patch_patch_pending (photoId : String) (photos : List Photo) :
    patch Photo.id photoId (fun p => { p with pending := some false })
        (patch Photo.id photoId (fun p => { p with pending := some false }) photos) =
      patch Photo.id photoId (fun p => { p with pending := some false }) photos := by
  unfold patch
  rw [List.map_map]
  apply List.map_congr_left
  intro p _
  by_cases h : p.id = photoId <;> simp [h]

theorem handleAcceptPhoto_store (currentUser : Option String) (m y : Nat)
    (photoId : String) (st : HomeState) (db : Store) :
    (handleAcceptPhoto currentUser m y photoId st db).2 =
      { db with
        photos := (patch Photo.id photoId (fun p => { p with pending := some false })
          db.photos) } := by
  rcases hg : getDoc Photo.id photoId db.photos with _ | pd
  · simp only [handleAcceptPhoto, updateDoc_of_getDoc_none _ _ _ _ hg,
      patch_of_getDoc_none _ _ _ _ hg]
  · simp only [handleAcceptPhoto, updateDoc_of_getDoc _ _ _ _ _ hg]

theorem loadPhotos_userRole_users (currentUser : Option String) (m y : Nat)
    (st : HomeState) (db db' : Store) (h : db'.users = db.users) :
    (loadPhotos currentUser m y st db').userRole = (loadPhotos currentUser m y st db).userRole := by
  cases currentUser with
  | none => rfl
  | some uid =>
    simp only [loadPhotos, h]
    rcases getDoc User.id uid db.users with _ | ud <;> rfl

theorem loadPhotos_idem (currentUser : Option String) (m y : Nat) (st : HomeState)
    (db : Store) (h : (loadPhotos currentUser m y st db).userRole = st.userRole) :
    loadPhotos currentUser m y (loadPhotos currentUser m y st db) db =
      loadPhotos currentUser m y st db := by
  cases currentUser with
  | none => simp [loadPhotos]
  | some uid =>
    rcases hu : getDoc User.id uid db.users with _ | ud
    · simp [loadPhotos, hu]
    · have hr : roleOrUser ud.role = st.userRole := by simpa [loadPhotos, hu] using h
      simp [loadPhotos, hu, hr]

theorem loadPhotos_photos (currentUser : Option String) (m y : Nat) (st : HomeState)
    (db : Store) :
    (loadPhotos currentUser m y st db).photos =
      sortByVoteCountDesc (feedSelection st.userRole m y db.photos) := by
  have hsel : (if st.userRole ≠ "admin" then
        (db.photos.filter (fun p => decide (p.month = m) && decide (p.year = y))).filter
          (fun photo => !isPending photo)
      else db.photos.filter (fun p => decide (p.month = m) && decide (p.year = y))) =
      feedSelection st.userRole m y db.photos := rfl
  cases currentUser with
  | none => simp only [loadPhotos, hsel]
  | some uid =>
    simp only [loadPhotos, hsel]
    rcases getDoc User.id uid db.users with _ | ud <;> rfl

theorem sortByVoteCountDesc_perm (l : List Photo) : (sortByVoteCountDesc l).Perm l :=
  List.perm_insertionSort _ l

theorem sortByVoteCountDesc_pairwise (l : List Photo) :
    (sortByVoteCountDesc l).Pairwise (fun a b => orZero b.voteCount ≤ orZero a.voteCount) := by
  haveI : IsTotal Photo (fun a b => orZero b.voteCount ≤ orZero a.voteCount) :=
    ⟨fun a b => le_total (orZero b.voteCount) (orZero a.voteCount)⟩
  haveI : IsTrans Photo (fun a b => orZero b.voteCount ≤ orZero a.voteCount) :=
    ⟨fun a b c hab hbc => le_trans hbc hab⟩
  exact List.sorted_insertionSort _ l

theorem photoRanking_pairwise (m y : Nat) (photos : List Photo) :
    (photoRanking m y photos).Pairwise (fun a b => b.voteCount ≤ a.voteCount) := by
  haveI : IsTotal RankingItem (fun a b => b.voteCount ≤ a.voteCount) :=
    ⟨fun a b => le_total b.voteCount a.voteCount⟩
  haveI : IsTrans RankingItem (fun a b => b.voteCount ≤ a.voteCount) :=
    ⟨fun a b c hab hbc => le_trans hbc hab⟩
  exact List.sorted_insertionSort _ _

theorem isPending_eq_false (p : Photo) : isPending p = false ↔ p.pending ≠ some true := by
  unfold isPending
  rcases p.pending with _ | b
  · simp
  · cases b <;> simp

theorem mem_feedSelection_non_admin (userRole : String) (m y : Nat) (photos : List Photo)
    (h : userRole ≠ "admin") (p : Photo) :
    p ∈ feedSelection userRole m y photos ↔
      (p ∈ photos ∧ p.month = m ∧ p.year = y ∧ p.pending ≠ some true) := by
  simp only [feedSelection, h, ne_eq, not_false_eq_true, if_true, List.mem_filter,
    Bool.and_eq_true, decide_eq_true_eq, Bool.not_eq_true', isPending_eq_false]
  tauto

/-! ## Lemmas: sweep counts, ties, the panel, profiles and theme keys -/

theorem sorted_length (u : String) (photos : List Photo) :
    (sortByCreatedAtDesc (ofUser u (photos.map photoRef))).length =
      (ownedBy u photos).length := by
  rw [(sortByCreatedAtDesc_perm _).length_eq, ← ownedBy_map, List.length_map]

/-- When no user owns more than `newLimit` photos the sweep deletes nothing. -/
theorem sweep_eq_self_of_le (newLimit : Nat) (photos : List Photo)
    (h : ∀ u, (ownedBy u photos).length ≤ newLimit) : sweep newLimit photos = photos := by
  rw [sweep_eq_filter, List.filter_eq_self]
  intro p _
  have hnil : deletedRefs newLimit photos = [] := by
    apply List.eq_nil_iff_forall_not_mem.mpr
    intro r hr
    have h1 := (mem_deletedRefs newLimit photos r).mp hr
    rw [List.drop_eq_nil_of_le (by rw [sorted_length]; exact h r.userID)] at h1
    exact absurd h1 (List.not_mem_nil _)
  simp [hnil]

theorem mem_sweep_of_few (newLimit : Nat) (photos : List Photo)
    (hid : (photos.map Photo.id).Nodup) (p : Photo) (hp : p ∈ photos)
    (h : (ownedBy p.userID photos).length ≤ newLimit) : p ∈ sweep newLimit photos := by
  rw [mem_sweep_iff newLimit photos hid p]
  refine ⟨hp, ?_⟩
  rw [List.drop_eq_nil_of_le (by rw [sorted_length]; exact h)]
  exact List.not_mem_nil _

theorem ownedBy_sweep_eq (newLimit : Nat) (photos : List Photo) (u : String) :
    ownedBy u (sweep newLimit photos) =
      (ownedBy u photos).filter
        (fun p => decide (p.id ∉ (deletedRefs newLimit photos).map PhotoRef.id)) := by
  rw [sweep_eq_filter, ownedBy, ownedBy, List.filter_filter, List.filter_filter]
  apply List.filter_congr
  intro p _
  exact Bool.and_comm _ _

theorem deleted_count (newLimit : Nat) (photos : List Photo)
    (hid : (photos.map Photo.id).Nodup) (u : String) :
    ((ownedBy u photos).filter (fun p => decide (p ∉ sweep newLimit photos))).length =
      (ownedBy u photos).length - newLimit := by
  have hcongr : (ownedBy u photos).filter (fun p => decide (p ∉ sweep newLimit photos)) =
      (ownedBy u photos).filter
        (fun p => !decide (p.id ∉ (deletedRefs newLimit photos).map PhotoRef.id)) := by
    apply List.filter_congr
    intro p hp
    have hpm : p ∈ photos := (List.mem_filter.mp hp).1
    have : p ∈ sweep newLimit photos ↔
        p.id ∉ (deletedRefs newLimit photos).map PhotoRef.id := by
      rw [sweep_eq_filter, List.mem_filter]
      simp [hpm]
    rw [Bool.eq_iff_iff]
    simp only [decide_eq_true_eq, Bool.not_eq_true', decide_eq_false_iff_not]
    exact this.not
  have hsplit := List.length_eq_length_filter_add (l := ownedBy u photos)
    (fun p => decide (p.id ∉ (deletedRefs newLimit photos).map PhotoRef.id))
  have hkept := ownedBy_sweep_length newLimit photos hid u
  rw [ownedBy_sweep_eq] at hkept
  rw [hcongr]
  omega

/-- Inserting into a list ordered by decreasing key moves the new element only past
elements of a different key. -/
theorem filter_orderedInsert_key {α : Type} (key : α → Int) (k : Int) (a : α) (l : List α) :
    (l.orderedInsert (fun x y => key y ≤ key x) a).filter (fun x => decide (key x = k)) =
      (a :: l).filter (fun x => decide (key x = k)) := by
  induction l with
  | nil => rfl
  | cons b l ih =>
    by_cases h : key b ≤ key a
    · have hins : (b :: l).orderedInsert (fun x y => key y ≤ key x) a = a :: b :: l := by
        simp [List.orderedInsert, h]
      rw [hins]
    · have hins : (b :: l).orderedInsert (fun x y => key y ≤ key x) a =
          b :: l.orderedInsert (fun x y => key y ≤ key x) a := by
        simp [List.orderedInsert, h]
      rw [hins, List.filter_cons, ih]
      by_cases ha : key a = k
      · have hb : ¬ key b = k := by omega
        simp [List.filter_cons, ha, hb]
      · simp [List.filter_cons, ha]

/-- The insertion sort by decreasing key keeps the elements of each key in their order. -/
theorem filter_insertionSort_key {α : Type} (key : α → Int) (k : Int) (l : List α) :
    (l.insertionSort (fun x y => key y ≤ key x)).filter (fun x => decide (key x = k)) =
      l.filter (fun x => decide (key x = k)) := by
  induction l with
  | nil => rfl
  | cons a l ih =>
    rw [List.insertionSort, filter_orderedInsert_key, List.filter_cons, List.filter_cons, ih]

theorem feedSelection_sublist (userRole : String) (m y : Nat) (photos : List Photo) :
    (feedSelection userRole m y photos).Sublist photos := by
  unfold feedSelection
  split
  · exact (List.filter_sublist _).trans (List.filter_sublist _)
  · exact List.filter_sublist _

theorem getDoc_setDoc_self {α : Type} (key : α → String) (d : α) (docs : List α) :
    getDoc key (key d) (setDoc key d docs) = some d := by
  unfold setDoc
  rcases h : getDoc key (key d) docs with _ | e
  · show getDoc key (key d) (docs ++ [d]) = some d
    unfold getDoc at h ⊢
    rw [List.find?_append, h]
    simp
  · show getDoc key (key d) (patch key (key d) (fun _ => d) docs) = some d
    have hpatch : patch key (key d) (fun _ => d) docs =
        patch key (key d) (fun x => if key x = key d then d else x) docs := by
      unfold patch
      apply List.map_congr_left
      intro x _
      by_cases hx : key x = key d <;> simp [hx]
    rw [hpatch, getDoc_patch_self key (key d) _ (fun x => by
      by_cases hx : key x = key d <;> simp [hx]) docs e h]
    simp [getDoc_key key (key d) docs e h]

theorem getDoc_setDoc_other {α : Type} (key : α → String) (d : α) (docs : List α)
    (j : String) (hj : j ≠ key d) :
    getDoc key j (setDoc key d docs) = getDoc key j docs := by
  unfold setDoc
  rcases h : getDoc key (key d) docs with _ | e
  · show getDoc key j (docs ++ [d]) = getDoc key j docs
    unfold getDoc
    rw [List.find?_append]
    have hd : ¬ key d = j := fun hc => hj hc.symm
    rcases List.find? (fun d => decide (key d = j)) docs with _ | x <;> simp [hd]
  · show getDoc key j (patch key (key d) (fun _ => d) docs) = getDoc key j docs
    have hpatch : patch key (key d) (fun _ => d) docs =
        patch key (key d) (fun x => if key x = key d then d else x) docs := by
      unfold patch
      apply List.map_congr_left
      intro x _
      by_cases hx : key x = key d <;> simp [hx]
    rw [hpatch, getDoc_patch_other key (key d) j _ (fun x => by
      by_cases hx : key x = key d <;> simp [hx]) docs hj]

/-- With the role admin held by the screen, the feed is the photos of the period. -/
theorem loadPhotos_feed_of_admin_role (currentUser : Option String) (m y : Nat)
    (st : HomeState) (db : Store) (hrole : st.userRole = "admin") (p : Photo) :
    p ∈ (loadPhotos currentUser m y st db).photos ↔
      p ∈ db.photos ∧ p.month = m ∧ p.year = y := by
  rw [loadPhotos_photos, (sortByVoteCountDesc_perm _).mem_iff]
  simp [feedSelection, hrole, List.mem_filter]

/-- Whatever the role, every photo of the feed is of the period. -/
theorem loadPhotos_feed_of_period (currentUser : Option String) (m y : Nat)
    (st : HomeState) (db : Store) (p : Photo)
    (hp : p ∈ (loadPhotos currentUser m y st db).photos) :
    p ∈ db.photos ∧ p.month = m ∧ p.year = y := by
  rw [loadPhotos_photos, (sortByVoteCountDesc_perm _).mem_iff] at hp
  unfold feedSelection at hp
  split at hp
  · have h := (List.mem_filter.mp hp).1
    simpa [List.mem_filter] using h
  · simpa [List.mem_filter] using hp

theorem fetchData_isAdmin (currentUser : Option String) (m y : Nat) (st : AdminState)
    (db : Store) (h : st.isAdmin = false) :
    (fetchData currentUser m y st db).isAdmin = true ↔ viewerIsAdmin currentUser db := by
  unfold fetchData viewerIsAdmin
  cases currentUser with
  | none => simp [h]
  | some uid =>
    rcases hu : getDoc User.id uid db.users with _ | userData
    · simp [hu, h]
    · by_cases hr : userData.role = some "admin"
      · simp [hu, hr]
      · simp [hu, hr, h]

theorem toDigitsCore_append (fuel : Nat) : ∀ (n : Nat) (ds : List Char),
    Nat.toDigitsCore 10 fuel n ds = Nat.toDigitsCore 10 fuel n [] ++ ds := by
  induction fuel with
  | zero => intro n ds; simp [Nat.toDigitsCore]
  | succ fuel ih =>
    intro n ds
    simp only [Nat.toDigitsCore]
    by_cases h : n / 10 = 0
    · simp [h]
    · simp only [h, if_false]
      rw [ih (n / 10) (Nat.digitChar (n % 10) :: ds), ih (n / 10) [Nat.digitChar (n % 10)]]
      simp

theorem digitChar_toNat (d : Nat) (h : d < 10) : (Nat.digitChar d).toNat - 48 = d := by
  interval_cases d <;> rfl

theorem digitChar_ne_hyphen (d : Nat) (h : d < 10) : Nat.digitChar d ≠ '-' := by
  interval_cases d <;> decide

theorem digitsValue_append (l : List Char) (c : Char) :
    digitsValue (l ++ [c]) = digitsValue l * 10 + (c.toNat - 48) := by
  simp [digitsValue, List.foldl_append]

/-- Reading the decimal digits of a number gives the number back. -/
theorem digitsValue_toDigitsCore (fuel : Nat) : ∀ n : Nat, n < fuel →
    digitsValue (Nat.toDigitsCore 10 fuel n []) = n := by
  induction fuel with
  | zero => intro n h; omega
  | succ fuel ih =>
    intro n hn
    simp only [Nat.toDigitsCore]
    by_cases h : n / 10 = 0
    · simp only [h, if_true]
      have hlt : n % 10 < 10 := Nat.mod_lt _ (by decide)
      have h0 : digitsValue [Nat.digitChar (n % 10)] = (Nat.digitChar (n % 10)).toNat - 48 := by
        simp [digitsValue]
      rw [h0, digitChar_toNat _ hlt]
      omega
    · simp only [h, if_false]
      rw [toDigitsCore_append, digitsValue_append, ih (n / 10) (by omega),
        digitChar_toNat _ (Nat.mod_lt _ (by decide))]
      omega

theorem toDigitsCore_no_hyphen (fuel : Nat) : ∀ n : Nat,
    '-' ∉ Nat.toDigitsCore 10 fuel n [] := by
  induction fuel with
  | zero => intro n; simp [Nat.toDigitsCore]
  | succ fuel ih =>
    intro n
    have hd : ¬ '-' = Nat.digitChar (n % 10) :=
      fun hc => digitChar_ne_hyphen _ (Nat.mod_lt _ (by decide)) hc.symm
    simp only [Nat.toDigitsCore]
    by_cases h : n / 10 = 0
    · simp [h, hd]
    · simp only [h, if_false]
      rw [toDigitsCore_append]
      simp [ih (n / 10), hd]

theorem toString_data (n : Nat) : (toString n).data = Nat.toDigits 10 n := rfl

/-- The decimal text of a natural number determines the number. -/
theorem digitsValue_toString (n : Nat) : digitsValue (toString n).data = n := by
  rw [toString_data]
  exact digitsValue_toDigitsCore (n + 1) n (Nat.lt_succ_self n)

theorem toString_no_hyphen (n : Nat) : '-' ∉ (toString n).data := by
  rw [toString_data]
  exact toDigitsCore_no_hyphen (n + 1) n

/-- Two texts cut at the first occurrence of a separator agree part by part. -/
theorem append_sep_inj (c : Char) : ∀ (l1 l2 r1 r2 : List Char), c ∉ l1 → c ∉ l2 →
    l1 ++ c :: r1 = l2 ++ c :: r2 → l1 = l2 ∧ r1 = r2 := by
  intro l1
  induction l1 with
  | nil =>
    intro l2 r1 r2 _ h2 h
    cases l2 with
    | nil => simpa using h
    | cons b l2 =>
      simp only [List.nil_append, List.cons_append, List.cons.injEq] at h
      exact absurd (h.1 ▸ List.mem_cons_self _ _) h2
  | cons a l1 ih =>
    intro l2 r1 r2 h1 h2 h
    cases l2 with
    | nil =>
      simp only [List.nil_append, List.cons_append, List.cons.injEq] at h
      exact absurd (h.1 ▸ List.mem_cons_self _ _) h1
    | cons b l2 =>
      simp only [List.cons_append, List.cons.injEq] at h
      obtain ⟨hl, hr⟩ := ih l2 r1 r2 (fun hc => h1 (List.mem_cons_of_mem _ hc))
        (fun hc => h2 (List.mem_cons_of_mem _ hc)) h.2
      exact ⟨by rw [h.1, hl], hr⟩

theorem themeKey_data (y m : Nat) :
    (themeKey y m).data = (toString y).data ++ '-' :: (toString m).data := by
  simp [themeKey, String.data_append]

theorem themeKey_inj (y m y' m' : Nat) (h : themeKey y m = themeKey y' m') :
    y = y' ∧ m = m' := by
  have hd : (themeKey y m).data = (themeKey y' m').data := by rw [h]
  rw [themeKey_data, themeKey_data] at hd
  obtain ⟨hy, hm⟩ := append_sep_inj '-' _ _ _ _ (toString_no_hyphen y) (toString_no_hyphen y') hd
  constructor
  · rw [← digitsValue_toString y, hy, digitsValue_toString]
  · rw [← digitsValue_toString m, hm, digitsValue_toString]

theorem saveTheme_saved (m y : Nat) (now : Int) (st : AdminState) (db : Store)
    (ha : st.isAdmin = true) (ht : titleBlank st.theme = false) :
    saveTheme m y now st db =
      ⟨st, { db with themes := (setDoc MonthlyTheme.key
          { key := themeKey y m, theme := st.theme, active := true, createdAt := now,
            month := m, year := y } db.themes) }, .saved⟩ := by
  simp [saveTheme, ha, ht]

theorem uploadCounterOk_iff (j : String) (db : Store) :
    UploadCounterOk j db ↔ ∃ u, getDoc User.id j db.users = some u ∧
      orZero u.photosUploadedBase64 = ((ownedBy j db.photos).length : Int) := by
  unfold UploadCounterOk
  rcases getDoc User.id j db.users with _ | u <;> simp

/-- The function `uploadPhoto` keeps the upload counter of every user equal to the number
of photos of that user. -/
theorem uploadPhoto_keeps_uploadCounterOk (currentUser : Option String) (m y : Nat)
    (newId : String) (now : Int) (st : MyPhotosState) (db : Store) (j : String)
    (h : UploadCounterOk j db) :
    UploadCounterOk j (uploadPhoto currentUser m y newId now st db).store := by
  rcases uploadPhoto_cases currentUser m y newId now st db with ⟨hs, _, _⟩ |
    ⟨uid, image, userDoc, _, _, _, _, hu, _, hs, _⟩
  · rw [hs]; exact h
  · rw [hs]
    obtain ⟨u, hj, hc⟩ := (uploadCounterOk_iff j db).mp h
    rw [uploadCounterOk_iff]
    refine ⟨if j = uid then uploadCounted userDoc u else u, ?_, ?_⟩
    · exact getDoc_patch_keeps User.id uid j (uploadCounted userDoc) (fun _ => rfl)
        db.users u hj
    · show orZero (if j = uid then uploadCounted userDoc u else u).photosUploadedBase64 =
        ((ownedBy j (db.photos ++ [uploadedPhoto uid m y newId now st userDoc])).length : Int)
      by_cases hju : j = uid
      · subst hju
        have hud : u = userDoc := Option.some.inj (hj.symm.trans hu)
        subst hud
        have hown : ownedBy j (db.photos ++ [uploadedPhoto j m y newId now st u]) =
            ownedBy j db.photos ++ [uploadedPhoto j m y newId now st u] := by
          simp [ownedBy, List.filter_append, uploadedPhoto]
        rw [hown, List.length_append]
        simp only [if_true, uploadCounted, orZero, List.length_singleton, Nat.cast_add,
          Nat.cast_one]
        rw [← hc]
        rfl
      · have hown : ownedBy j (db.photos ++ [uploadedPhoto uid m y newId now st userDoc]) =
            ownedBy j db.photos := by
          have : ¬ uid = j := fun hc => hju hc.symm
          simp [ownedBy, List.filter_append, uploadedPhoto, this]
        rw [hown]
        simpa [hju] using hc

theorem deleteDoc_eq_self_of_not_mem (photoId : String) (photos : List Photo)
    (h : photoId ∉ photos.map Photo.id) : deleteDoc Photo.id photoId photos = photos := by
  unfold deleteDoc
  rw [List.filter_eq_self]
  intro a ha
  have : a.id ≠ photoId := fun hc => h (hc ▸ List.mem_map_of_mem Photo.id ha)
  simpa using this

/-- Deleting the one document with a given id takes one photo from its owner and none
from anybody else. -/
theorem ownedBy_deleteDoc_length (j photoId : String) : ∀ photos : List Photo,
    (photos.map Photo.id).Nodup → ∀ p, getDoc Photo.id photoId photos = some p →
    ((ownedBy j (deleteDoc Photo.id photoId photos)).length : Int) =
      ((ownedBy j photos).length : Int) - (if p.userID = j then 1 else 0) := by
  intro photos
  induction photos with
  | nil => intro _ p hp; simp [getDoc] at hp
  | cons a t ih =>
    intro hnd p hp
    rw [List.map_cons, List.nodup_cons] at hnd
    obtain ⟨hat, hnt⟩ := hnd
    by_cases ha : a.id = photoId
    · have hpa : p = a := by
        have : getDoc Photo.id photoId (a :: t) = some a := by simp [getDoc, ha]
        exact (Option.some.inj (this.symm.trans hp)).symm
      subst hpa
      have hdel : deleteDoc Photo.id photoId (p :: t) = t := by
        have h1 : deleteDoc Photo.id photoId (p :: t) = deleteDoc Photo.id photoId t := by
          simp [deleteDoc, ha]
        rw [h1]
        exact deleteDoc_eq_self_of_not_mem photoId t (ha ▸ hat)
      rw [hdel]
      by_cases hj : p.userID = j
      · simp [ownedBy, hj]
      · simp [ownedBy, hj]
    · have hpt : getDoc Photo.id photoId t = some p := by
        simpa [getDoc, ha] using hp
      have hdel : deleteDoc Photo.id photoId (a :: t) = a :: deleteDoc Photo.id photoId t := by
        simp [deleteDoc, ha]
      rw [hdel]
      have := ih hnt p hpt
      by_cases hj : a.userID = j
      · have e1 : ownedBy j (a :: deleteDoc Photo.id photoId t) =
            a :: ownedBy j (deleteDoc Photo.id photoId t) := by simp [ownedBy, hj]
        have e2 : ownedBy j (a :: t) = a :: ownedBy j t := by simp [ownedBy, hj]
        rw [e1, e2, List.length_cons, List.length_cons]
        push_cast
        omega
      · have e1 : ownedBy j (a :: deleteDoc Photo.id photoId t) =
            ownedBy j (deleteDoc Photo.id photoId t) := by simp [ownedBy, hj]
        have e2 : ownedBy j (a :: t) = ownedBy j t := by simp [ownedBy, hj]
        rw [e1, e2]
        exact this

/-- The function `deletePhoto` of `MyPhotosScreen`, run by the owner of a photo of the
collection, keeps the upload counter of every user equal to the number of photos of
that user. -/
theorem deletePhoto_keeps_uploadCounterOk (uid photoId : String) (st : MyPhotosState)
    (db : Store) (p : Photo) (hid : (db.photos.map Photo.id).Nodup)
    (hp : getDoc Photo.id photoId db.photos = some p) (hown : p.userID = uid)
    (hu : UploadCounterOk uid db) (j : String) (h : UploadCounterOk j db) :
    UploadCounterOk j (deletePhoto true (some uid) photoId st db).store := by
  obtain ⟨ud, hud, _⟩ := (uploadCounterOk_iff uid db).mp hu
  obtain ⟨u, hj, hc⟩ := (uploadCounterOk_iff j db).mp h
  have hstore : (deletePhoto true (some uid) photoId st db).store =
      { db with
        photos := deleteDoc Photo.id photoId db.photos
        users := patch User.id uid (deleteCounted ud) db.users } := by
    simp [deletePhoto, hud, updateDoc_of_getDoc _ _ _ _ _ hud]
    rfl
  rw [hstore, uploadCounterOk_iff]
  have hlen := ownedBy_deleteDoc_length j photoId db.photos hid p hp
  refine ⟨if j = uid then deleteCounted ud u else u,
    getDoc_patch_keeps User.id uid j (deleteCounted ud) (fun _ => rfl) db.users u hj, ?_⟩
  show orZero (if j = uid then deleteCounted ud u else u).photosUploadedBase64 =
    ((ownedBy j (deleteDoc Photo.id photoId db.photos)).length : Int)
  rw [hlen]
  by_cases hju : j = uid
  · subst hju
    have hud' : u = ud := Option.some.inj (hj.symm.trans hud)
    subst hud'
    simp only [if_true, hown, deleteCounted, orZero]
    rw [← hc]
    rfl
  · have : ¬ p.userID = j := fun hc => hju (hc.symm.trans hown)
    simp only [hju, this, if_false]
    rw [hc]
    omega

/-! ## Claims -/

/-- C1: after the sweep of `savePhotoLimit` run by an admin with an accepted limit `L`
(a non-negative integer), every user owns at most `L` photos of the collection. -/
theorem c1_sweep_at_most_limit (db : Store) (L : Nat) (u : String) :
    (ownedBy u (savePhotoLimit true (some (L : Int)) db).photos).length ≤ L := by
  rw [savePhotoLimit_photos]
  exact ownedBy_sweep_length_le L db.photos u

/-- C2: in a collection with distinct document ids, the photos of a user that survive
the sweep of `savePhotoLimit` with limit `L` are that user's `L` most recent ones: the
collection after the sweep is a sublist of the one before, a user who had `n` photos
keeps `min n L` of them, and every surviving photo is at least as recent as every
deleted photo of the same user. -/
theorem c2_sweep_keeps_most_recent (db : Store) (L : Nat)
    (hid : (db.photos.map Photo.id).Nodup) :
    (savePhotoLimit true (some (L : Int)) db).photos.Sublist db.photos ∧
    (∀ u, (ownedBy u (savePhotoLimit true (some (L : Int)) db).photos).length =
        min (ownedBy u db.photos).length L) ∧
    (∀ p q, p ∈ (savePhotoLimit true (some (L : Int)) db).photos → q ∈ db.photos →
        q ∉ (savePhotoLimit true (some (L : Int)) db).photos → p.userID = q.userID →
        q.createdAt ≤ p.createdAt) := by
  rw [savePhotoLimit_photos]
  refine ⟨?_, fun u => ownedBy_sweep_length L db.photos hid u,
    fun p q hp hq hqd hu => survivor_newer L db.photos hid p q hp hq hqd hu⟩
  rw [sweep_eq_filter]
  exact List.filter_sublist _

/-- Instance of C2: in `sweepStore`, whose ids are distinct, `ana` keeps `min 5 3` photos
after the sweep with limit 3. -/
theorem c2_sweep_keeps_most_recent_witness :
    (sweepStore.photos.map Photo.id).Nodup ∧
    (ownedBy "ana" (savePhotoLimit true (some ((3 : Nat) : Int)) sweepStore).photos).length =
      min (ownedBy "ana" sweepStore.photos).length 3 :=
  ⟨by decide, (c2_sweep_keeps_most_recent sweepStore 3 (by decide)).2.1 "ana"⟩

/-- C3: with limit 3, for a user who owns exactly five photos created at instants
`T1 < T2 < T3 < T4 < T5`, wherever they stand in the collection, the sweep of
`savePhotoLimit` deletes the photos created at `T1` and `T2` and keeps exactly those
created at `T3`, `T4` and `T5`. -/
theorem c3_sweep_five_photos_limit_three (db : Store) (u : String) (p1 p2 p3 p4 p5 : Photo)
    (hid : (db.photos.map Photo.id).Nodup)
    (hown : (ownedBy u db.photos).Perm [p1, p2, p3, p4, p5])
    (h12 : p1.createdAt < p2.createdAt) (h23 : p2.createdAt < p3.createdAt)
    (h34 : p3.createdAt < p4.createdAt) (h45 : p4.createdAt < p5.createdAt) :
    p1 ∉ (savePhotoLimit true (some ((3 : Nat) : Int)) db).photos ∧
    p2 ∉ (savePhotoLimit true (some ((3 : Nat) : Int)) db).photos ∧
    ∀ p, p ∈ ownedBy u (savePhotoLimit true (some ((3 : Nat) : Int)) db).photos ↔
      (p = p3 ∨ p = p4 ∨ p = p5) := by
  rw [savePhotoLimit_photos]
  have hsort : sortByCreatedAtDesc (ofUser u (db.photos.map photoRef)) =
      [photoRef p5, photoRef p4, photoRef p3, photoRef p2, photoRef p1] := by
    apply eq_of_perm_of_sorted_strict
    · refine (sortByCreatedAtDesc_perm _).trans ?_
      rw [← ownedBy_map]
      have h1 := hown.map photoRef
      have h2 : ([p1, p2, p3, p4, p5].map photoRef).Perm
          [photoRef p5, photoRef p4, photoRef p3, photoRef p2, photoRef p1] :=
        (List.reverse_perm _).symm
      exact h1.trans h2
    · exact sortByCreatedAtDesc_pairwise _
    · simp only [List.pairwise_cons, List.mem_cons, List.mem_singleton, List.not_mem_nil,
        photoRef, forall_eq_or_imp, forall_eq, List.Pairwise.nil, and_true, or_false,
        IsEmpty.forall_iff, implies_true]
      omega
  have hmem : ∀ p, p ∈ ownedBy u db.photos ↔ p ∈ [p1, p2, p3, p4, p5] := fun p => hown.mem_iff
  have hsw : ∀ p, p ∈ db.photos → p.userID = u →
      (p ∈ sweep 3 db.photos ↔ photoRef p ∉ [photoRef p2, photoRef p1]) := by
    intro p hp hu
    rw [mem_sweep_iff 3 db.photos hid p, hu, hsort]
    simp [hp]
  have hin : ∀ p, p ∈ [p1, p2, p3, p4, p5] → p ∈ db.photos ∧ p.userID = u := by
    intro p hp
    have := (hmem p).mpr hp
    rw [ownedBy, List.mem_filter] at this
    exact ⟨this.1, by simpa using this.2⟩
  have e1 := hin p1 (by simp)
  have e2 := hin p2 (by simp)
  have e3 := hin p3 (by simp)
  have e4 := hin p4 (by simp)
  have e5 := hin p5 (by simp)
  refine ⟨?_, ?_, ?_⟩
  · rw [hsw p1 e1.1 e1.2]; simp
  · rw [hsw p2 e2.1 e2.2]; simp
  · intro p
    constructor
    · intro hp
      rw [ownedBy, List.mem_filter] at hp
      have hu : p.userID = u := by simpa using hp.2
      have hpm : p ∈ db.photos := by
        have h := hp.1
        rw [sweep_eq_filter] at h
        exact (List.mem_filter.mp h).1
      have hnot := (hsw p hpm hu).mp hp.1
      have hp5 : p ∈ [p1, p2, p3, p4, p5] :=
        (hmem p).mp (List.mem_filter.mpr ⟨hpm, by simpa using hu⟩)
      simp only [List.mem_cons, List.mem_singleton, List.not_mem_nil, or_false] at hp5
      rcases hp5 with rfl | rfl | h
      · exact absurd (by simp) hnot
      · exact absurd (by simp) hnot
      · exact h
    · intro hp
      have key : ∀ q, q ∈ db.photos → q.userID = u → p2.createdAt < q.createdAt →
          q ∈ ownedBy u (sweep 3 db.photos) := by
        intro q hq hu hlt
        rw [ownedBy, List.mem_filter]
        refine ⟨(hsw q hq hu).mpr ?_, by simpa using hu⟩
        intro hc
        rcases photoRef_mem_pair q p2 p1 hc with h | h <;> omega
      rcases hp with rfl | rfl | rfl
      · exact key _ e3.1 e3.2 (by omega)
      · exact key _ e4.1 e4.2 (by omega)
      · exact key _ e5.1 e5.2 (by omega)

/-- Instance of C3 on `sweepStore`, where the five photos of `ana` are read in the order
`a4`, `a1`, `a5`, `a2`, `a3` with a photo of `bea` in between. -/
theorem c3_sweep_five_photos_limit_three_witness :
    examplePhoto "a1" "ana" 10 [] ∉
        (savePhotoLimit true (some ((3 : Nat) : Int)) sweepStore).photos ∧
    examplePhoto "a2" "ana" 20 [] ∉
        (savePhotoLimit true (some ((3 : Nat) : Int)) sweepStore).photos ∧
    ∀ p, p ∈ ownedBy "ana" (savePhotoLimit true (some ((3 : Nat) : Int)) sweepStore).photos ↔
      (p = examplePhoto "a3" "ana" 30 [] ∨ p = examplePhoto "a4" "ana" 40 [] ∨
        p = examplePhoto "a5" "ana" 50 []) :=
  c3_sweep_five_photos_limit_three sweepStore "ana" (examplePhoto "a1" "ana" 10 [])
    (examplePhoto "a2" "ana" 20 []) (examplePhoto "a3" "ana" 30 [])
    (examplePhoto "a4" "ana" 40 []) (examplePhoto "a5" "ana" 50 [])
    (by decide) (by decide) (by decide) (by decide) (by decide) (by decide)

/-- C4: for every signed-in viewer whose stored `votesThisMonth` is at most 3 (no lower
bound is needed), every photo, and whatever counter the screen holds, the user document
of the viewer is still there after `handleVote` and its `votesThisMonth` is at most 3. -/
theorem c4_votes_at_most_three (uid : String) (m y : Nat) (photoId userId : String)
    (st : HomeState) (db : Store) (ud : User)
    (hu : getDoc User.id uid db.users = some ud)
    (hhi : orZero ud.votesThisMonth ≤ 3) :
    ∃ ud', getDoc User.id uid (handleVote (some uid) m y photoId userId st db).store.users =
        some ud' ∧ orZero ud'.votesThisMonth ≤ 3 := by
  obtain ⟨ud', hget, h | ⟨hlt, pd, _, ⟨_, h⟩ | ⟨_, h⟩⟩⟩ :=
    handleVote_user_after uid m y photoId userId st db ud hu
  · exact ⟨ud', hget, h ▸ hhi⟩
  · refine ⟨ud', hget, ?_⟩
    rw [h]
    simp only [userVoteRemoved, orZero]
    omega
  · refine ⟨ud', hget, ?_⟩
    rw [h]
    simp only [userVoteAdded, orZero]
    omega

/-- Instance of C4: `alice`, with two votes, votes for `p1` in `twoVotesStore`. -/
theorem c4_votes_at_most_three_witness :
    orZero (exampleUser "alice" 2 ["p2", "p3"]).votesThisMonth ≤ 3 ∧
    ∃ ud', getDoc User.id "alice"
        (handleVote (some "alice") 5 2025 "p1" "bea"
          (loadPhotos (some "alice") 5 2025 initialHomeState twoVotesStore)
          twoVotesStore).store.users = some ud' ∧ orZero ud'.votesThisMonth ≤ 3 :=
  ⟨by decide, c4_votes_at_most_three "alice" 5 2025 "p1" "bea"
    (loadPhotos (some "alice") 5 2025 initialHomeState twoVotesStore) twoVotesStore
    (exampleUser "alice" 2 ["p2", "p3"]) (by decide) (by decide)⟩

/-- C5 (as stated) fails: `alice` has `votesThisMonth = 0`, the screen has loaded that
counter, and the photo `p1` of `bea` lists her among its voters; `handleVote` withdraws
the vote and writes `votesThisMonth = -1`. -/
theorem c5_counterexample :
    getDoc User.id "alice" halfVotedStore.users = some (exampleUser "alice" 0 []) ∧
    (0 ≤ orZero (exampleUser "alice" 0 []).votesThisMonth ∧
      orZero (exampleUser "alice" 0 []).votesThisMonth ≤ 3) ∧
    getDoc User.id "alice"
        (handleVote (some "alice") 5 2025 "p1" "bea"
          (loadPhotos (some "alice") 5 2025 initialHomeState halfVotedStore)
          halfVotedStore).store.users = some (exampleUser "alice" (-1) []) ∧
    orZero (exampleUser "alice" (-1) []).votesThisMonth < 0 := by
  decide

/-- C5 (as amended): for every signed-in viewer whose stored `votesThisMonth` is not
negative and is the counter the screen holds, and every photo whose `votes` list
contains the viewer only if that counter is at least 1, the `votesThisMonth` that
`handleVote` leaves on the user document of the viewer is not negative. -/
theorem c5_votes_non_negative (uid : String) (m y : Nat) (photoId userId : String)
    (st : HomeState) (db : Store) (ud : User)
    (hu : getDoc User.id uid db.users = some ud)
    (hlo : 0 ≤ orZero ud.votesThisMonth)
    (hst : st.userVotes = orZero ud.votesThisMonth)
    (hcons : ∀ pd, getDoc Photo.id photoId db.photos = some pd →
      includes pd.votes uid = true → 1 ≤ orZero ud.votesThisMonth) :
    ∃ ud', getDoc User.id uid (handleVote (some uid) m y photoId userId st db).store.users =
        some ud' ∧ 0 ≤ orZero ud'.votesThisMonth := by
  obtain ⟨ud', hget, h | ⟨hlt, pd, hp, ⟨hv, h⟩ | ⟨_, h⟩⟩⟩ :=
    handleVote_user_after uid m y photoId userId st db ud hu
  · exact ⟨ud', hget, h ▸ hlo⟩
  · refine ⟨ud', hget, ?_⟩
    have := hcons pd hp hv
    rw [h]
    simp only [userVoteRemoved, orZero]
    omega
  · refine ⟨ud', hget, ?_⟩
    rw [h]
    simp only [userVoteAdded, orZero]
    omega

/-- Instance of C5 as amended: `alice`, with two votes, withdraws her vote for `p2` in
`twoVotesStore`. -/
theorem c5_votes_non_negative_witness :
    0 ≤ orZero (exampleUser "alice" 2 ["p2", "p3"]).votesThisMonth ∧
    ∃ ud', getDoc User.id "alice"
        (handleVote (some "alice") 5 2025 "p2" "bea"
          (loadPhotos (some "alice") 5 2025 initialHomeState twoVotesStore)
          twoVotesStore).store.users = some ud' ∧ 0 ≤ orZero ud'.votesThisMonth :=
  ⟨by decide, c5_votes_non_negative "alice" 5 2025 "p2" "bea"
    (loadPhotos (some "alice") 5 2025 initialHomeState twoVotesStore) twoVotesStore
    (exampleUser "alice" 2 ["p2", "p3"]) (by decide) (by decide) (by decide)
    (fun _ _ _ => by decide)⟩

/-- C6: when `handleVote(photoId, userId)` is called with the owner of the photo as
`userId` (as the feed does), by any viewer, signed in or not, and no photo has its owner
among its voters, then after the call still no photo has its owner among its voters;
and when the viewer is that owner the store is left as it was. -/
theorem c6_no_self_vote (currentUser : Option String) (m y : Nat) (photoId userId : String)
    (st : HomeState) (db : Store)
    (howner : ∀ p ∈ db.photos, p.id = photoId → p.userID = userId)
    (hinv : NoSelfVote db.photos) :
    NoSelfVote (handleVote currentUser m y photoId userId st db).store.photos ∧
    (currentUser = some userId →
      (handleVote currentUser m y photoId userId st db).store = db) := by
  constructor
  · rcases handleVote_cases currentUser m y photoId userId st db with h |
      ⟨uid, pd, _, hne, _, _, ⟨_, (h | h)⟩ | ⟨_, (h | h)⟩⟩
    · rw [h]; exact hinv
    · rw [h]; exact noSelfVote_patch_removed uid photoId pd db.photos hinv
    · rw [h]; exact noSelfVote_patch_removed uid photoId pd db.photos hinv
    · rw [h]; exact noSelfVote_patch_added uid photoId userId pd db.photos hne howner hinv
    · rw [h]; exact noSelfVote_patch_added uid photoId userId pd db.photos hne howner hinv
  · intro hc
    subst hc
    simp [handleVote]

/-- Instance of C6: `alice` votes for the photo `p1` of `bea` in `twoVotesStore`. -/
theorem c6_no_self_vote_witness :
    NoSelfVote twoVotesStore.photos ∧
    NoSelfVote (handleVote (some "alice") 5 2025 "p1" "bea"
      (loadPhotos (some "alice") 5 2025 initialHomeState twoVotesStore)
      twoVotesStore).store.photos :=
  ⟨by decide, (c6_no_self_vote (some "alice") 5 2025 "p1" "bea"
    (loadPhotos (some "alice") 5 2025 initialHomeState twoVotesStore) twoVotesStore
    (by decide) (by decide)).1⟩

/-- C7 (as stated) fails: `alice` has cast two votes and votes for the photo `p1` of
`bea`; the first call passes its preconditions and records the vote, the screen reloads
her counter, now 3, and the second call is rejected for the limit. The vote stays on
`p1` and her `votesThisMonth` stays 3 instead of returning to 2. -/
theorem c7_counterexample :
    (handleVote (some "alice") 5 2025 "p1" "bea"
      (loadPhotos (some "alice") 5 2025 initialHomeState twoVotesStore)
      twoVotesStore).outcome = .toggled ∧
    (voteTwice "alice" 5 2025 "p1" "bea"
      (loadPhotos (some "alice") 5 2025 initialHomeState twoVotesStore)
      twoVotesStore).outcome = .limitReached ∧
    (getDoc Photo.id "p1" twoVotesStore.photos).map (fun p => includes p.votes "alice") =
      some false ∧
    (getDoc Photo.id "p1"
      (voteTwice "alice" 5 2025 "p1" "bea"
        (loadPhotos (some "alice") 5 2025 initialHomeState twoVotesStore)
        twoVotesStore).store.photos).map (fun p => includes p.votes "alice") = some true ∧
    (getDoc User.id "alice" twoVotesStore.users).map User.votesThisMonth = some (some 2) ∧
    (getDoc User.id "alice"
      (voteTwice "alice" 5 2025 "p1" "bea"
        (loadPhotos (some "alice") 5 2025 initialHomeState twoVotesStore)
        twoVotesStore).store.users).map User.votesThisMonth = some (some 3) := by
  decide

/-- C7 (as amended): for every signed-in viewer and every photo of another user on which
both calls pass the preconditions of `handleVote` (the counter of the screen is below 3,
and below 2 when the first call casts the vote), with the screen holding the stored
counter and the photo in the viewer's `votedPhotos` exactly when the viewer is in the
photo's `votes`, two calls in succession toggle twice and return the membership of
`votes`, `voteCount`, `votesThisMonth` and the membership of `votedPhotos` to what they
were. -/
theorem c7_double_toggle_restores (uid : String) (m y : Nat) (photoId userId : String)
    (st : HomeState) (db : Store) (pd : Photo) (ud : User)
    (hne : uid ≠ userId)
    (hp : getDoc Photo.id photoId db.photos = some pd)
    (hu : getDoc User.id uid db.users = some ud)
    (hst : st.userVotes = orZero ud.votesThisMonth)
    (hlt : st.userVotes < 3)
    (hlt2 : includes pd.votes uid = false → st.userVotes < 2)
    (hcons : includes ud.votedPhotos photoId = includes pd.votes uid) :
    (handleVote (some uid) m y photoId userId st db).outcome = .toggled ∧
    (voteTwice uid m y photoId userId st db).outcome = .toggled ∧
    ∃ pd2 ud2,
      getDoc Photo.id photoId (voteTwice uid m y photoId userId st db).store.photos =
        some pd2 ∧
      getDoc User.id uid (voteTwice uid m y photoId userId st db).store.users = some ud2 ∧
      (∀ x, includes pd2.votes x = includes pd.votes x) ∧
      orZero pd2.voteCount = orZero pd.voteCount ∧
      orZero ud2.votesThisMonth = orZero ud.votesThisMonth ∧
      (∀ x, includes ud2.votedPhotos x = includes ud.votedPhotos x) := by
  unfold voteTwice
  cases hv : includes pd.votes uid
  · -- the first call casts the vote, the second withdraws it
    have h2 := hlt2 hv
    rw [handleVote_added uid m y photoId userId st db pd ud hne hlt hp hu hv]
    have hp1 := getDoc_photo_added uid photoId st.userVotes pd db hp
    have hu1 := getDoc_user_added uid photoId st.userVotes pd db ud hu
    have hs1 := loadPhotos_userVotes uid m y st _ _ hu1
    have hv1 : includes (photoVoteAdded uid pd pd).votes uid = true := by
      simp [photoVoteAdded, includes_arrayUnion]
    have hlt1 : (loadPhotos (some uid) m y st
        (storeVoteAdded uid photoId st.userVotes pd db)).userVotes < 3 := by
      rw [hs1]
      simp only [userVoteAdded, orZero]
      omega
    refine ⟨rfl, ?_⟩
    simp only
    rw [handleVote_removed uid m y photoId userId _ _ _ _ hne hlt1 hp1 hu1 hv1]
    refine ⟨rfl, _, _, getDoc_photo_removed uid photoId _ _ _ hp1,
      getDoc_user_removed uid photoId _ _ _ _ hu1, ?_, ?_, ?_, ?_⟩
    · intro x
      simp only [photoVoteRemoved, photoVoteAdded, includes_arrayRemove, includes_arrayUnion]
      by_cases hx : x = uid
      · subst hx; simp [hv]
      · simp [hx]
    · simp only [photoVoteRemoved, photoVoteAdded, orZero]
      omega
    · rw [hs1, ← hst]
      simp only [userVoteRemoved, userVoteAdded, orZero]
      omega
    · intro x
      simp only [userVoteRemoved, userVoteAdded, includes_arrayRemove, includes_arrayUnion]
      by_cases hx : x = photoId
      · subst hx; simp [hcons, hv]
      · simp [hx]
  · -- the first call withdraws the vote, the second casts it again
    rw [handleVote_removed uid m y photoId userId st db pd ud hne hlt hp hu hv]
    have hp1 := getDoc_photo_removed uid photoId st.userVotes pd db hp
    have hu1 := getDoc_user_removed uid photoId st.userVotes pd db ud hu
    have hs1 := loadPhotos_userVotes uid m y st _ _ hu1
    have hv1 : includes (photoVoteRemoved uid pd pd).votes uid = false := by
      simp [photoVoteRemoved, includes_arrayRemove]
    have hlt1 : (loadPhotos (some uid) m y st
        (storeVoteRemoved uid photoId st.userVotes pd db)).userVotes < 3 := by
      rw [hs1]
      simp only [userVoteRemoved, orZero]
      omega
    refine ⟨rfl, ?_⟩
    simp only
    rw [handleVote_added uid m y photoId userId _ _ _ _ hne hlt1 hp1 hu1 hv1]
    refine ⟨rfl, _, _, getDoc_photo_added uid photoId _ _ _ hp1,
      getDoc_user_added uid photoId _ _ _ _ hu1, ?_, ?_, ?_, ?_⟩
    · intro x
      simp only [photoVoteRemoved, photoVoteAdded, includes_arrayRemove, includes_arrayUnion]
      by_cases hx : x = uid
      · subst hx; simp [hv]
      · simp [hx]
    · simp only [photoVoteRemoved, photoVoteAdded, orZero]
      omega
    · rw [hs1, ← hst]
      simp only [userVoteRemoved, userVoteAdded, orZero]
      omega
    · intro x
      simp only [userVoteRemoved, userVoteAdded, includes_arrayRemove, includes_arrayUnion]
      by_cases hx : x = photoId
      · subst hx; simp [hcons, hv]
      · simp [hx]

/-- Instance of C7 as amended: `alice`, with no vote yet, votes twice for `p1` in
`voteStore`. -/
theorem c7_double_toggle_restores_witness :
    ("alice" ≠ "bea" ∧
      (loadPhotos (some "alice") 5 2025 initialHomeState voteStore).userVotes < 2) ∧
    (voteTwice "alice" 5 2025 "p1" "bea"
      (loadPhotos (some "alice") 5 2025 initialHomeState voteStore)
      voteStore).outcome = .toggled :=
  ⟨⟨by decide, by decide⟩,
    (c7_double_toggle_restores "alice" 5 2025 "p1" "bea"
      (loadPhotos (some "alice") 5 2025 initialHomeState voteStore) voteStore
      (examplePhoto "p1" "bea" 10 []) (exampleUser "alice" 0 [])
      (by decide) (by decide) (by decide) (by decide) (by decide) (fun _ => by decide)
      (by decide)).2.1⟩

/-- C8: `voteCount` equals the length of `votes` after every mutation by a single
actor. The photo that a successful `uploadPhoto` adds has `voteCount = 0` and an empty
`votes` list; and every photo whose `votes` list has no duplicates and whose `voteCount`
equals its length is, in the store left by `handleVote` and in the store left by
`handleAcceptPhoto`, again a photo whose `votes` list has no duplicates and whose
`voteCount` equals its length. -/
theorem c8_vote_count_matches_votes :
    (∀ (currentUser : Option String) (m y : Nat) (newId : String) (now : Int)
        (st : MyPhotosState) (db : Store),
      (uploadPhoto currentUser m y newId now st db).outcome = .uploaded →
      ∃ photoDoc, (uploadPhoto currentUser m y newId now st db).store.photos =
          db.photos ++ [photoDoc] ∧ photoDoc.id = newId ∧
        photoDoc.voteCount = some 0 ∧ photoDoc.votes = some [] ∧ VoteCountOk photoDoc) ∧
    (∀ (currentUser : Option String) (m y : Nat) (photoId userId : String)
        (st : HomeState) (db : Store) (j : String) (p : Photo),
      getDoc Photo.id j db.photos = some p → VoteCountOk p →
      ∃ p', getDoc Photo.id j
          (handleVote currentUser m y photoId userId st db).store.photos = some p' ∧
        VoteCountOk p') ∧
    (∀ (currentUser : Option String) (m y : Nat) (photoId : String)
        (st : HomeState) (db : Store) (j : String) (p : Photo),
      getDoc Photo.id j db.photos = some p → VoteCountOk p →
      ∃ p', getDoc Photo.id j
          (handleAcceptPhoto currentUser m y photoId st db).2.photos = some p' ∧
        VoteCountOk p') := by
  refine ⟨?_, ?_, ?_⟩
  · intro currentUser m y newId now st db h
    obtain ⟨photoDoc, h1, h2, h3, h4⟩ := uploadPhoto_new_photo currentUser m y newId now st db h
    refine ⟨photoDoc, h1, h2, h3, h4, ?_⟩
    simp [VoteCountOk, votesOf, h3, h4, orZero]
  · intro currentUser m y photoId userId st db j p hj hok
    exact handleVote_keeps_voteCountOk currentUser m y photoId userId st db j p hj hok
  · intro currentUser m y photoId st db j p hj hok
    exact handleAcceptPhoto_keeps_voteCountOk currentUser m y photoId st db j p hj hok

/-- Instance of C8: `alice` uploads a photo to `twoVotesStore`, and withdraws her vote
for `p2`. -/
theorem c8_vote_count_matches_votes_witness :
    ((uploadPhoto (some "alice") 5 2025 "p9" 90 readyToUpload twoVotesStore).outcome =
        .uploaded ∧
      ∃ photoDoc, (uploadPhoto (some "alice") 5 2025 "p9" 90 readyToUpload
          twoVotesStore).store.photos = twoVotesStore.photos ++ [photoDoc] ∧
        photoDoc.id = "p9" ∧ photoDoc.voteCount = some 0 ∧ photoDoc.votes = some [] ∧
        VoteCountOk photoDoc) ∧
    (VoteCountOk (examplePhoto "p2" "bea" 20 ["alice"]) ∧
      ∃ p', getDoc Photo.id "p2"
          (handleVote (some "alice") 5 2025 "p2" "bea"
            (loadPhotos (some "alice") 5 2025 initialHomeState twoVotesStore)
            twoVotesStore).store.photos = some p' ∧ VoteCountOk p') :=
  ⟨⟨by decide, c8_vote_count_matches_votes.1 (some "alice") 5 2025 "p9" 90 readyToUpload
      twoVotesStore (by decide)⟩,
    ⟨by decide, c8_vote_count_matches_votes.2.1 (some "alice") 5 2025 "p2" "bea"
      (loadPhotos (some "alice") 5 2025 initialHomeState twoVotesStore) twoVotesStore
      "p2" (examplePhoto "p2" "bea" 20 ["alice"]) (by decide) (by decide)⟩⟩

/-- C9 (as stated) fails: the counter written to the user document is the counter of the
screen plus or minus 1, not the stored one. In `twoVotesStore` the stored counter of
`alice` is 2; on a screen that holds the counter 0 (as before the first load has read
her user document) her vote for `p1`, which passes the three preconditions, is cast and
her `votesThisMonth` goes from 2 to 1 instead of 3. -/
theorem c9_counterexample :
    "alice" ≠ "bea" ∧
    getDoc User.id "alice" twoVotesStore.users = some (exampleUser "alice" 2 ["p2", "p3"]) ∧
    orZero (exampleUser "alice" 2 ["p2", "p3"]).votesThisMonth = 2 ∧
    initialHomeState.userVotes = 0 ∧
    getDoc Photo.id "p1" twoVotesStore.photos = some (examplePhoto "p1" "bea" 10 []) ∧
    includes (examplePhoto "p1" "bea" 10 []).votes "alice" = false ∧
    (handleVote (some "alice") 5 2025 "p1" "bea" initialHomeState twoVotesStore).outcome =
      .toggled ∧
    (getDoc Photo.id "p1"
      (handleVote (some "alice") 5 2025 "p1" "bea" initialHomeState
        twoVotesStore).store.photos).map Photo.votes = some (some ["alice"]) ∧
    (getDoc User.id "alice"
      (handleVote (some "alice") 5 2025 "p1" "bea" initialHomeState
        twoVotesStore).store.users).map User.votesThisMonth = some (some 1) := by
  refine ⟨by decide, by decide, by decide, by decide, by decide, by decide, by decide,
    by decide, by decide⟩

/-- C9 (as amended): when `handleVote` passes its preconditions (viewer signed in, not
the target user, fewer than 3 votes), the photo and the user document exist and the
screen holds the stored counter of the viewer, the vote is toggled: if the viewer is in
the photo's `votes`, the viewer is removed from it (nobody else is), `voteCount` and the
user's `votesThisMonth` each go down by 1 and the photo id leaves `votedPhotos`;
otherwise the viewer is added to `votes`, both counters go up by 1 and the photo id
joins `votedPhotos`. -/
theorem c9_vote_toggle_effect (uid : String) (m y : Nat) (photoId userId : String)
    (st : HomeState) (db : Store) (pd : Photo) (ud : User)
    (hne : uid ≠ userId) (hlt : st.userVotes < 3)
    (hp : getDoc Photo.id photoId db.photos = some pd)
    (hu : getDoc User.id uid db.users = some ud)
    (hst : st.userVotes = orZero ud.votesThisMonth) :
    ∃ pd' ud',
      getDoc Photo.id photoId (handleVote (some uid) m y photoId userId st db).store.photos =
        some pd' ∧
      getDoc User.id uid (handleVote (some uid) m y photoId userId st db).store.users =
        some ud' ∧
      (handleVote (some uid) m y photoId userId st db).outcome = .toggled ∧
      (includes pd.votes uid = true →
        includes pd'.votes uid = false ∧
        (∀ x, x ≠ uid → includes pd'.votes x = includes pd.votes x) ∧
        pd'.voteCount = some (orZero pd.voteCount - 1) ∧
        ud'.votesThisMonth = some (orZero ud.votesThisMonth - 1) ∧
        includes ud'.votedPhotos photoId = false ∧
        (∀ x, x ≠ photoId → includes ud'.votedPhotos x = includes ud.votedPhotos x)) ∧
      (includes pd.votes uid = false →
        includes pd'.votes uid = true ∧
        (∀ x, x ≠ uid → includes pd'.votes x = includes pd.votes x) ∧
        pd'.voteCount = some (orZero pd.voteCount + 1) ∧
        ud'.votesThisMonth = some (orZero ud.votesThisMonth + 1) ∧
        includes ud'.votedPhotos photoId = true ∧
        (∀ x, x ≠ photoId → includes ud'.votedPhotos x = includes ud.votedPhotos x)) := by
  cases hv : includes pd.votes uid
  · rw [handleVote_added uid m y photoId userId st db pd ud hne hlt hp hu hv]
    refine ⟨photoVoteAdded uid pd pd, userVoteAdded photoId st.userVotes ud,
      getDoc_photo_added uid photoId _ pd db hp, getDoc_user_added uid photoId _ pd db ud hu,
      rfl, fun h => absurd h (by simp), fun _ => ?_⟩
    refine ⟨?_, ?_, rfl, by simp [userVoteAdded, hst], ?_, ?_⟩
    · simp [photoVoteAdded, includes_arrayUnion]
    · intro x hx
      simp [photoVoteAdded, includes_arrayUnion, hx]
    · simp [userVoteAdded, includes_arrayUnion]
    · intro x hx
      simp [userVoteAdded, includes_arrayUnion, hx]
  · rw [handleVote_removed uid m y photoId userId st db pd ud hne hlt hp hu hv]
    refine ⟨photoVoteRemoved uid pd pd, userVoteRemoved photoId st.userVotes ud,
      getDoc_photo_removed uid photoId _ pd db hp,
      getDoc_user_removed uid photoId _ pd db ud hu,
      rfl, fun _ => ?_, fun h => absurd h (by simp)⟩
    refine ⟨?_, ?_, rfl, by simp [userVoteRemoved, hst], ?_, ?_⟩
    · simp [photoVoteRemoved, includes_arrayRemove]
    · intro x hx
      simp [photoVoteRemoved, includes_arrayRemove, hx]
    · simp [userVoteRemoved, includes_arrayRemove]
    · intro x hx
      simp [userVoteRemoved, includes_arrayRemove, hx]

/-- Instance of C9 as amended: `alice`, with two votes, withdraws her vote for `p2` in
`twoVotesStore`; the photo is left with `voteCount = 0` and she with one vote. -/
theorem c9_vote_toggle_effect_witness :
    ("alice" ≠ "bea" ∧
      (loadPhotos (some "alice") 5 2025 initialHomeState twoVotesStore).userVotes < 3) ∧
    ∃ pd' ud',
      getDoc Photo.id "p2" (handleVote (some "alice") 5 2025 "p2" "bea"
        (loadPhotos (some "alice") 5 2025 initialHomeState twoVotesStore)
        twoVotesStore).store.photos = some pd' ∧
      getDoc User.id "alice" (handleVote (some "alice") 5 2025 "p2" "bea"
        (loadPhotos (some "alice") 5 2025 initialHomeState twoVotesStore)
        twoVotesStore).store.users = some ud' ∧
      pd'.voteCount = some 0 ∧ ud'.votesThisMonth = some 1 :=
  ⟨⟨by decide, by decide⟩, by
    obtain ⟨pd', ud', h1, h2, _, h4, _⟩ :=
      c9_vote_toggle_effect "alice" 5 2025 "p2" "bea"
        (loadPhotos (some "alice") 5 2025 initialHomeState twoVotesStore) twoVotesStore
        (examplePhoto "p2" "bea" 20 ["alice"]) (exampleUser "alice" 2 ["p2", "p3"])
        (by decide) (by decide) (by decide) (by decide) (by decide)
    obtain ⟨_, _, h5, h6, _⟩ := h4 (by decide)
    exact ⟨pd', ud', h1, h2, h5, h6⟩⟩

/-- C10 (as stated) fails: the guard reads the counter of the screen, not the stored
`votesThisMonth`. In the store that the three votes of `alice` in May leave, her
`votesThisMonth` is 3; on a screen that holds the counter 0 (as before the first load
has read her user document) her vote for `j1` is not rejected: the photo and her user
document are written. -/
theorem c10_counterexample :
    (getDoc User.id "alice" threeVotesInMay.store.users).map User.votesThisMonth =
      some (some 3) ∧
    initialHomeState.userVotes = 0 ∧
    (handleVote (some "alice") 6 2025 "j1" "bea" initialHomeState
      threeVotesInMay.store).outcome = .toggled ∧
    (handleVote (some "alice") 6 2025 "j1" "bea" initialHomeState
      threeVotesInMay.store).store ≠ threeVotesInMay.store ∧
    (getDoc Photo.id "j1"
      (handleVote (some "alice") 6 2025 "j1" "bea" initialHomeState
        threeVotesInMay.store).store.photos).map Photo.votes = some (some ["alice"]) ∧
    (getDoc User.id "alice"
      (handleVote (some "alice") 6 2025 "j1" "bea" initialHomeState
        threeVotesInMay.store).store.users).map User.votesThisMonth = some (some 1) := by
  refine ⟨by decide, by decide, by decide, by decide, by decide, by decide⟩

/-- C10 (as amended): with the screen holding the stored `votesThisMonth` of the
signed-in viewer, `handleVote` is rejected, with the screen state and the whole store
left as they were, when nobody is signed in, when the viewer is the target user, and
when the `votesThisMonth` of the viewer is 3 or more; the store changes only when none
of these holds; and `loadPhotos` leaves the screen holding the stored `votesThisMonth`
of the viewer. -/
theorem c10_vote_rejections (currentUser : Option String) (m y : Nat)
    (photoId userId : String) (st : HomeState) (db : Store)
    (hsync : ∀ uid ud, currentUser = some uid → getDoc User.id uid db.users = some ud →
      st.userVotes = orZero ud.votesThisMonth) :
    (currentUser = none →
      handleVote currentUser m y photoId userId st db = ⟨st, db, .notSignedIn⟩) ∧
    (currentUser = some userId →
      handleVote currentUser m y photoId userId st db = ⟨st, db, .ownPhoto⟩) ∧
    (∀ uid ud, currentUser = some uid → uid ≠ userId →
      getDoc User.id uid db.users = some ud → 3 ≤ orZero ud.votesThisMonth →
      handleVote currentUser m y photoId userId st db = ⟨st, db, .limitReached⟩) ∧
    ((handleVote currentUser m y photoId userId st db).store ≠ db →
      ∃ uid, currentUser = some uid ∧ uid ≠ userId ∧ st.userVotes < 3 ∧
        ∀ ud, getDoc User.id uid db.users = some ud → orZero ud.votesThisMonth < 3) ∧
    (∀ uid ud st0, currentUser = some uid → getDoc User.id uid db.users = some ud →
      (loadPhotos currentUser m y st0 db).userVotes = orZero ud.votesThisMonth) := by
  refine ⟨?_, ?_, ?_, ?_, ?_⟩
  · rintro rfl
    rfl
  · rintro rfl
    simp [handleVote]
  · rintro uid ud rfl hne hu h3
    have h3' : st.userVotes ≥ 3 := by
      rw [hsync uid ud rfl hu]
      exact h3
    simp [handleVote, hne, h3']
  · intro hch
    rcases handleVote_cases currentUser m y photoId userId st db with h |
      ⟨uid, _, hc, hne, hlt, _, _⟩
    · exact absurd h hch
    · refine ⟨uid, hc, hne, hlt, fun ud hu => ?_⟩
      rw [← hsync uid ud hc hu]
      exact hlt
  · rintro uid ud st0 rfl hu
    exact loadPhotos_userVotes uid m y st0 db ud hu

/-- Instance of C10 as amended: `alice`, whose stored `votesThisMonth` is 3 after her
three votes of May, is rejected on a screen that has loaded her counter. -/
theorem c10_vote_rejections_witness :
    getDoc User.id "alice" threeVotesInMay.store.users =
      some (exampleUser "alice" 3 ["m1", "m2", "m3"]) ∧
    (loadPhotos (some "alice") 6 2025 initialHomeState threeVotesInMay.store).userVotes =
      orZero (exampleUser "alice" 3 ["m1", "m2", "m3"]).votesThisMonth ∧
    handleVote (some "alice") 6 2025 "j1" "bea"
        (loadPhotos (some "alice") 6 2025 initialHomeState threeVotesInMay.store)
        threeVotesInMay.store =
      ⟨loadPhotos (some "alice") 6 2025 initialHomeState threeVotesInMay.store,
        threeVotesInMay.store, .limitReached⟩ :=
  ⟨by decide, by decide,
    (c10_vote_rejections (some "alice") 6 2025 "j1" "bea"
      (loadPhotos (some "alice") 6 2025 initialHomeState threeVotesInMay.store)
      threeVotesInMay.store
      (by
        intro uid ud hc hu
        cases hc
        have h2 : getDoc User.id "alice" threeVotesInMay.store.users =
            some (exampleUser "alice" 3 ["m1", "m2", "m3"]) := by decide
        have h3 : ud = exampleUser "alice" 3 ["m1", "m2", "m3"] :=
          Option.some.inj (hu.symm.trans h2)
        rw [h3]
        decide)).2.2.1 "alice" (exampleUser "alice" 3 ["m1", "m2", "m3"]) rfl (by decide)
      (by decide) (by decide)⟩

/-- C11 fails on the code: the counter `votesThisMonth` is never reset. `alice` casts
three votes in May 2025; in June 2025 the screen, opened anew, loads the counter 3 and
her vote for the June photo `j1`, on which she has not voted, is rejected for the limit
with the store unchanged. -/
theorem c11_limit_carries_over_to_next_month :
    threeVotesInMay.outcome = .toggled ∧
    (getDoc User.id "alice" threeVotesInMay.store.users).map User.votesThisMonth =
      some (some 3) ∧
    (getDoc User.id "alice" threeVotesInMay.store.users).map User.votedPhotos =
      some (some ["m1", "m2", "m3"]) ∧
    (loadPhotos (some "alice") 6 2025 initialHomeState threeVotesInMay.store).photos =
      [examplePhotoIn 6 2025 "j1" "bea" []] ∧
    (loadPhotos (some "alice") 6 2025 initialHomeState threeVotesInMay.store).userVotes = 3 ∧
    handleVote (some "alice") 6 2025 "j1" "bea"
        (loadPhotos (some "alice") 6 2025 initialHomeState threeVotesInMay.store)
        threeVotesInMay.store =
      ⟨loadPhotos (some "alice") 6 2025 initialHomeState threeVotesInMay.store,
        threeVotesInMay.store, .limitReached⟩ := by
  decide

/-- C12: whenever `uploadPhoto` succeeds, the collection is the old one followed by
exactly one new photo document, which the uploader owns, so the uploader owns one photo
more; the counter `photosUploadedBase64` of the uploader becomes the value read from the
user document (0 when the field is missing) plus 1, nothing else of that document
changes, and the document of every other user reads as before. -/
theorem c12_upload_adds_one_photo (currentUser : Option String) (m y : Nat)
    (newId : String) (now : Int) (st : MyPhotosState) (db : Store)
    (h : (uploadPhoto currentUser m y newId now st db).outcome = .uploaded) :
    ∃ uid userDoc photoDoc,
      currentUser = some uid ∧ getDoc User.id uid db.users = some userDoc ∧
      (uploadPhoto currentUser m y newId now st db).store.photos = db.photos ++ [photoDoc] ∧
      photoDoc.id = newId ∧ photoDoc.userID = uid ∧
      (ownedBy uid (uploadPhoto currentUser m y newId now st db).store.photos).length =
        (ownedBy uid db.photos).length + 1 ∧
      getDoc User.id uid (uploadPhoto currentUser m y newId now st db).store.users =
        some { userDoc with
          photosUploadedBase64 := some (orZero userDoc.photosUploadedBase64 + 1) } ∧
      (∀ j, j ≠ uid →
        getDoc User.id j (uploadPhoto currentUser m y newId now st db).store.users =
          getDoc User.id j db.users) := by
  rcases uploadPhoto_cases currentUser m y newId now st db with ⟨_, _, hno⟩ |
    ⟨uid, image, userDoc, hc, _, _, _, hu, _, hs, _⟩
  · exact absurd h hno
  · refine ⟨uid, userDoc, uploadedPhoto uid m y newId now st userDoc, hc, hu, ?_, rfl, rfl,
      ?_, ?_, ?_⟩
    · rw [hs]; rfl
    · rw [hs]
      simp [uploadedStore, ownedBy, List.filter_append, uploadedPhoto]
    · rw [hs]
      exact getDoc_patch_self User.id uid (uploadCounted userDoc) (fun _ => rfl)
        db.users userDoc hu
    · intro j hj
      rw [hs]
      exact getDoc_patch_other User.id uid j (uploadCounted userDoc) (fun _ => rfl)
        db.users hj

/-- Instance of C12: `alice` uploads a photo to `twoVotesStore`. -/
theorem c12_upload_adds_one_photo_witness :
    (uploadPhoto (some "alice") 5 2025 "p9" 90 readyToUpload twoVotesStore).outcome =
      .uploaded ∧
    ∃ uid userDoc photoDoc,
      some "alice" = some uid ∧ getDoc User.id uid twoVotesStore.users = some userDoc ∧
      (uploadPhoto (some "alice") 5 2025 "p9" 90 readyToUpload twoVotesStore).store.photos =
        twoVotesStore.photos ++ [photoDoc] ∧
      photoDoc.id = "p9" ∧ photoDoc.userID = uid ∧
      (ownedBy uid
        (uploadPhoto (some "alice") 5 2025 "p9" 90 readyToUpload
          twoVotesStore).store.photos).length =
        (ownedBy uid twoVotesStore.photos).length + 1 ∧
      getDoc User.id uid
          (uploadPhoto (some "alice") 5 2025 "p9" 90 readyToUpload twoVotesStore).store.users =
        some { userDoc with
          photosUploadedBase64 := some (orZero userDoc.photosUploadedBase64 + 1) } ∧
      (∀ j, j ≠ uid →
        getDoc User.id j
            (uploadPhoto (some "alice") 5 2025 "p9" 90 readyToUpload
              twoVotesStore).store.users =
          getDoc User.id j twoVotesStore.users) :=
  ⟨by decide, c12_upload_adds_one_photo (some "alice") 5 2025 "p9" 90 readyToUpload
    twoVotesStore (by decide)⟩

/-- C13 fails on the code at the limit 0: an admin saves the limit 0, which
`savePhotoLimit` accepts and stores in the configuration; `uploadPhoto` reads it as
`photoLimit || 3`, that is 3, so the upload of `alice` succeeds and her counter
becomes 1, above the configured limit 0. -/
theorem c13_upload_exceeds_zero_limit :
    (savePhotoLimit true (some 0) voteStore).config = some { photoLimit := some 0 } ∧
    (uploadPhoto (some "alice") 5 2025 "p9" 90 readyToUpload
      (savePhotoLimit true (some 0) voteStore)).outcome = .uploaded ∧
    (getDoc User.id "alice"
      (uploadPhoto (some "alice") 5 2025 "p9" 90 readyToUpload
        (savePhotoLimit true (some 0) voteStore)).store.users).map
        User.photosUploadedBase64 = some (some 1) ∧
    ¬ ((1 : Int) ≤ 0) := by
  decide

/-- C14 fails on the code when the stored limit is 0: the configuration exists and
stores 0, the upload count 0 of `alice` is at least that limit, yet `uploadPhoto` reads
the limit as 3 and does not reject the upload. -/
theorem c14_zero_limit_read_as_three :
    zeroLimitStore.config = some { photoLimit := some 0 } ∧
    (getDoc User.id "alice" zeroLimitStore.users).map
      (fun u => decide (orZero u.photosUploadedBase64 ≥ 0)) = some true ∧
    readPhotoLimit zeroLimitStore.config = 3 ∧
    (uploadPhoto (some "alice") 5 2025 "p9" 90 readyToUpload zeroLimitStore).outcome =
      .uploaded := by
  decide

/-- C15: the photo that a successful `uploadPhoto` adds has `pending = true` exactly
when the role held by the screen is not admin, and `pending = false` exactly when it is
admin; and the role held by the screen is the one that `fetchPhotos` read from the user
document of the uploader, admin exactly when the document says so. -/
theorem c15_pending_unless_admin (currentUser : Option String) (m y : Nat)
    (newId : String) (now : Int) (st : MyPhotosState) (db : Store) :
    ((uploadPhoto currentUser m y newId now st db).outcome = .uploaded →
      ∃ photoDoc,
        (uploadPhoto currentUser m y newId now st db).store.photos =
          db.photos ++ [photoDoc] ∧ photoDoc.id = newId ∧
        (photoDoc.pending = some true ↔ st.userRole ≠ "admin") ∧
        (photoDoc.pending = some false ↔ st.userRole = "admin")) ∧
    (∀ uid userDoc st0, currentUser = some uid →
      getDoc User.id uid db.users = some userDoc →
      (fetchPhotos currentUser st0 db).userRole = roleOrUser userDoc.role ∧
      ((fetchPhotos currentUser st0 db).userRole = "admin" ↔
        userDoc.role = some "admin")) := by
  constructor
  · intro h
    rcases uploadPhoto_cases currentUser m y newId now st db with ⟨_, _, hno⟩ |
      ⟨uid, image, userDoc, _, _, _, _, _, _, hs, _⟩
    · exact absurd h hno
    · refine ⟨uploadedPhoto uid m y newId now st userDoc, by rw [hs]; rfl, rfl, ?_, ?_⟩
      · by_cases hr : st.userRole = "admin" <;> simp [uploadedPhoto, hr]
      · by_cases hr : st.userRole = "admin" <;> simp [uploadedPhoto, hr]
  · rintro uid userDoc st0 rfl hu
    have hrole : (fetchPhotos (some uid) st0 db).userRole = roleOrUser userDoc.role := by
      simp [fetchPhotos, hu]
    exact ⟨hrole, by rw [hrole]; exact roleOrUser_eq_admin userDoc.role⟩

/-- Instance of C15: `alice`, a plain user, uploads a photo to `twoVotesStore`. -/
theorem c15_pending_unless_admin_witness :
    (uploadPhoto (some "alice") 5 2025 "p9" 90 readyToUpload twoVotesStore).outcome =
      .uploaded ∧
    ∃ photoDoc,
      (uploadPhoto (some "alice") 5 2025 "p9" 90 readyToUpload twoVotesStore).store.photos =
        twoVotesStore.photos ++ [photoDoc] ∧ photoDoc.id = "p9" ∧
      (photoDoc.pending = some true ↔ readyToUpload.userRole ≠ "admin") ∧
      (photoDoc.pending = some false ↔ readyToUpload.userRole = "admin") :=
  ⟨by decide, (c15_pending_unless_admin (some "alice") 5 2025 "p9" 90 readyToUpload
    twoVotesStore).1 (by decide)⟩

/-- C16: `uploadPhoto` leaves the whole store (so the photo collection and every upload
counter) and the screen state as they were, with the matching rejection, whenever
nobody is signed in, or no image is selected, or every character of the title is white
space (the empty title included). -/
theorem c16_upload_rejected_without_input (currentUser : Option String) (m y : Nat)
    (newId : String) (now : Int) (st : MyPhotosState) (db : Store)
    (h : currentUser = none ∨ st.image = none ∨ st.image = some "" ∨
      ∀ c ∈ st.title.toList, isJsWhitespace c = true) :
    (uploadPhoto currentUser m y newId now st db).store = db ∧
    (uploadPhoto currentUser m y newId now st db).state = st ∧
    ((uploadPhoto currentUser m y newId now st db).outcome = .notSignedIn ∨
      (uploadPhoto currentUser m y newId now st db).outcome = .noImage ∨
      (uploadPhoto currentUser m y newId now st db).outcome = .noTitle) := by
  cases currentUser with
  | none => simp [uploadPhoto]
  | some uid =>
    rcases himg : st.image with _ | image
    · simp [uploadPhoto, himg]
    · by_cases hi : image = ""
      · simp [uploadPhoto, himg, hi]
      · have ht : titleBlank st.title = true := by
          rcases h with h | h | h | h
          · exact absurd h (by simp)
          · rw [himg] at h; exact absurd h (by simp)
          · rw [himg] at h; exact absurd (Option.some.inj h) hi
          · simpa [titleBlank, List.all_eq_true] using h
        simp [uploadPhoto, himg, hi, ht]

/-- Instance of C16: `alice` presses the upload button with an image and a title made
of two spaces. -/
theorem c16_upload_rejected_without_input_witness :
    (∀ c ∈ "  ".toList, isJsWhitespace c = true) ∧
    (uploadPhoto (some "alice") 5 2025 "p9" 90 { readyToUpload with title := "  " }
      twoVotesStore).store = twoVotesStore :=
  ⟨by decide, (c16_upload_rejected_without_input (some "alice") 5 2025 "p9" 90
    { readyToUpload with title := "  " } twoVotesStore
    (Or.inr (Or.inr (Or.inr (by decide))))).1⟩

/-- C17: `handleAcceptPhoto(photoId)` sets `pending` to false on the photo with that id
and changes nothing else in the store: every other field of that photo, every other
photo, the users, the themes and the configuration are as before. Applying it a second
time leaves the store of the first application, and the same screen state as well when
the role held by the screen is the one that `loadPhotos` reads. -/
theorem c17_accept_sets_pending_only (currentUser : Option String) (m y : Nat)
    (photoId : String) (st : HomeState) (db : Store) :
    (handleAcceptPhoto currentUser m y photoId st db).2.photos =
      db.photos.map (fun p => if p.id = photoId then { p with pending := some false } else p) ∧
    (handleAcceptPhoto currentUser m y photoId st db).2.users = db.users ∧
    (handleAcceptPhoto currentUser m y photoId st db).2.themes = db.themes ∧
    (handleAcceptPhoto currentUser m y photoId st db).2.config = db.config ∧
    (handleAcceptPhoto currentUser m y photoId
      (handleAcceptPhoto currentUser m y photoId st db).1
      (handleAcceptPhoto currentUser m y photoId st db).2).2 =
      (handleAcceptPhoto currentUser m y photoId st db).2 ∧
    ((loadPhotos currentUser m y st db).userRole = st.userRole →
      handleAcceptPhoto currentUser m y photoId
        (handleAcceptPhoto currentUser m y photoId st db).1
        (handleAcceptPhoto currentUser m y photoId st db).2 =
      handleAcceptPhoto currentUser m y photoId st db) := by
  have hs := handleAcceptPhoto_store currentUser m y photoId st db
  refine ⟨by rw [hs]; rfl, by rw [hs], by rw [hs], by rw [hs], ?_, ?_⟩
  · rw [handleAcceptPhoto_store, hs]
    simp only [patch_patch_pending]
  · intro hrole
    rcases hg : getDoc Photo.id photoId db.photos with _ | pd
    · simp only [handleAcceptPhoto, updateDoc_of_getDoc_none _ _ _ _ hg]
    · have hg1 := getDoc_patch_self Photo.id photoId
        (fun p => { p with pending := some false }) (fun _ => rfl) db.photos pd hg
      have hrole1 : (loadPhotos currentUser m y st
          { db with photos := (patch Photo.id photoId
            (fun p => { p with pending := some false }) db.photos) }).userRole =
          st.userRole :=
        (loadPhotos_userRole_users currentUser m y st db
          { db with photos := (patch Photo.id photoId
            (fun p => { p with pending := some false }) db.photos) } rfl).trans hrole
      simp only [handleAcceptPhoto, updateDoc_of_getDoc _ _ _ _ _ hg,
        updateDoc_of_getDoc _ _ _ _ _ hg1, patch_patch_pending,
        loadPhotos_idem currentUser m y st _ hrole1]

/-- Instance of C17: `bea`, whose screen holds her loaded role, accepts the photo `p1`
of `twoVotesStore` twice. -/
theorem c17_accept_sets_pending_only_witness :
    (loadPhotos (some "bea") 5 2025
        (loadPhotos (some "bea") 5 2025 initialHomeState twoVotesStore)
        twoVotesStore).userRole =
      (loadPhotos (some "bea") 5 2025 initialHomeState twoVotesStore).userRole ∧
    handleAcceptPhoto (some "bea") 5 2025 "p1"
        (handleAcceptPhoto (some "bea") 5 2025 "p1"
          (loadPhotos (some "bea") 5 2025 initialHomeState twoVotesStore) twoVotesStore).1
        (handleAcceptPhoto (some "bea") 5 2025 "p1"
          (loadPhotos (some "bea") 5 2025 initialHomeState twoVotesStore) twoVotesStore).2 =
      handleAcceptPhoto (some "bea") 5 2025 "p1"
        (loadPhotos (some "bea") 5 2025 initialHomeState twoVotesStore) twoVotesStore :=
  ⟨by decide, (c17_accept_sets_pending_only (some "bea") 5 2025 "p1"
    (loadPhotos (some "bea") 5 2025 initialHomeState twoVotesStore) twoVotesStore).2.2.2.2.2
    (by decide)⟩

/-- C18: once confirmed, `handleRejectPhoto(photoId)` and `handleDeletePhoto(photoId)`
leave the same store and the same screen state, for every state: the collection without
the documents of that id, whatever their `pending` flag or owner, every other photo kept
as it was and in the same order, users, themes and configuration untouched. When the
dialog is cancelled neither changes anything. -/
theorem c18_reject_and_delete_agree (currentUser : Option String) (m y : Nat)
    (photoId : String) (st : HomeState) (db : Store) :
    (handleRejectPhoto true currentUser m y photoId st db).store =
      (handleDeletePhoto true currentUser m y photoId st db).store ∧
    (handleRejectPhoto true currentUser m y photoId st db).state =
      (handleDeletePhoto true currentUser m y photoId st db).state ∧
    (handleRejectPhoto true currentUser m y photoId st db).store.photos =
      db.photos.filter (fun p => decide (p.id ≠ photoId)) ∧
    (∀ p, p ∈ (handleRejectPhoto true currentUser m y photoId st db).store.photos ↔
      (p ∈ db.photos ∧ p.id ≠ photoId)) ∧
    (handleRejectPhoto true currentUser m y photoId st db).store.users = db.users ∧
    (handleRejectPhoto true currentUser m y photoId st db).store.themes = db.themes ∧
    (handleRejectPhoto true currentUser m y photoId st db).store.config = db.config ∧
    handleRejectPhoto false currentUser m y photoId st db = ⟨st, db, none⟩ ∧
    handleDeletePhoto false currentUser m y photoId st db = ⟨st, db, none⟩ := by
  refine ⟨rfl, rfl, rfl, fun p => ?_, rfl, rfl, rfl, rfl, rfl⟩
  simp [handleRejectPhoto, deleteDoc, List.mem_filter]

/-- C19 (as stated) fails, in two ways. First, in `feedStore` the photo `old` of May 2025
has no field `pending`, so its `pending` is not equal to false, and it appears in the
feed that `loadPhotos` assembles for the plain user `alice`. Second, the filter follows
the role that the screen holds: `carol`, an admin in `adminFeedStore`, has the role
admin on her screen after a load; once her user document is deleted she is not an admin,
the load leaves the role of the screen as it is, and her feed still shows the photo
`wait`, whose `pending` is true. -/
theorem c19_counterexample :
    ¬ viewerIsAdmin (some "alice") feedStore ∧
    ({ examplePhoto "old" "bea" 30 [] with pending := none } : Photo).pending ≠ some false ∧
    ({ examplePhoto "old" "bea" 30 [] with pending := none } : Photo) ∈
      (loadPhotos (some "alice") 5 2025 initialHomeState feedStore).photos ∧
    (loadPhotos (some "carol") 5 2025 initialHomeState adminFeedStore).userRole = "admin" ∧
    getDoc User.id "carol" (deleteDoc User.id "carol" adminFeedStore.users) = none ∧
    ¬ viewerIsAdmin (some "carol")
      { adminFeedStore with users := deleteDoc User.id "carol" adminFeedStore.users } ∧
    ({ examplePhoto "wait" "bea" 20 [] with pending := some true } : Photo) ∈
      (loadPhotos (some "carol") 5 2025
        (loadPhotos (some "carol") 5 2025 initialHomeState adminFeedStore)
        { adminFeedStore with
          users := deleteDoc User.id "carol" adminFeedStore.users }).photos := by
  refine ⟨?_, by decide, by decide, by decide, by decide, ?_, by decide⟩
  · rintro ⟨uid, userDoc, hc, hu, hr⟩
    cases hc
    have : userDoc = exampleUser "alice" 0 [] := by
      have h2 : getDoc User.id "alice" feedStore.users = some (exampleUser "alice" 0 []) := by
        decide
      exact Option.some.inj (hu.symm.trans h2)
    subst this
    exact absurd hr (by decide)
  · rintro ⟨uid, userDoc, hc, hu, _⟩
    cases hc
    have h2 : getDoc User.id "carol" (deleteDoc User.id "carol" adminFeedStore.users) =
        none := by decide
    exact absurd (hu.symm.trans h2) (by simp)

/-- C19 (as amended): for a viewer who is not an admin, on a screen whose role (the one
that the previous load left, "user" when the screen is mounted) is not admin, the feed
assembled by `loadPhotos` contains exactly the photos of the current period whose
`pending` is not true (false, or the field missing): no photo with `pending = true`
appears in it and every photo of the period with `pending = false` does; and the role
held by the screen is again not admin after the load. -/
theorem c19_feed_of_non_admin (currentUser : Option String) (m y : Nat) (st : HomeState)
    (db : Store) (hst : st.userRole ≠ "admin") (hviewer : ¬ viewerIsAdmin currentUser db) :
    (∀ p, p ∈ (loadPhotos currentUser m y st db).photos ↔
      (p ∈ db.photos ∧ p.month = m ∧ p.year = y ∧ p.pending ≠ some true)) ∧
    (∀ p, p ∈ (loadPhotos currentUser m y st db).photos → p.pending ≠ some true) ∧
    (∀ p, p ∈ db.photos → p.month = m → p.year = y → p.pending = some false →
      p ∈ (loadPhotos currentUser m y st db).photos) ∧
    (loadPhotos currentUser m y st db).userRole ≠ "admin" := by
  have hmem : ∀ p, p ∈ (loadPhotos currentUser m y st db).photos ↔
      (p ∈ db.photos ∧ p.month = m ∧ p.year = y ∧ p.pending ≠ some true) := by
    intro p
    rw [loadPhotos_photos, (sortByVoteCountDesc_perm _).mem_iff,
      mem_feedSelection_non_admin st.userRole m y db.photos hst]
  refine ⟨hmem, fun p hp => ((hmem p).mp hp).2.2.2, fun p hp hm hy hpend => ?_, ?_⟩
  · exact (hmem p).mpr ⟨hp, hm, hy, by rw [hpend]; simp⟩
  · cases currentUser with
    | none => simpa [loadPhotos] using hst
    | some uid =>
      rcases hu : getDoc User.id uid db.users with _ | ud
      · simpa [loadPhotos, hu] using hst
      · have hr : ud.role ≠ some "admin" := fun hc => hviewer ⟨uid, ud, rfl, hu, hc⟩
        have : (loadPhotos (some uid) m y st db).userRole = roleOrUser ud.role := by
          simp [loadPhotos, hu]
        rw [this]
        exact fun hc => hr ((roleOrUser_eq_admin ud.role).mp hc)

/-- Instance of C19 as amended: the feed of the plain user `alice` on `feedStore`. -/
theorem c19_feed_of_non_admin_witness :
    initialHomeState.userRole ≠ "admin" ∧
    (examplePhoto "ok" "bea" 10 [] ∈
        (loadPhotos (some "alice") 5 2025 initialHomeState feedStore).photos ∧
      ({ examplePhoto "wait" "bea" 20 [] with pending := some true } : Photo) ∉
        (loadPhotos (some "alice") 5 2025 initialHomeState feedStore).photos) := by
  have hv : ¬ viewerIsAdmin (some "alice") feedStore := by
    rintro ⟨uid, userDoc, hc, hu, hr⟩
    cases hc
    have h2 : getDoc User.id "alice" feedStore.users = some (exampleUser "alice" 0 []) := by
      decide
    have := Option.some.inj (hu.symm.trans h2)
    subst this
    exact absurd hr (by decide)
  have h := c19_feed_of_non_admin (some "alice") 5 2025 initialHomeState feedStore
    (by decide) hv
  exact ⟨by decide, h.2.2.1 _ (by decide) (by decide) (by decide) (by decide),
    fun hc => h.2.1 _ hc rfl⟩

/-- C20: the feed that `loadPhotos` produces is sorted in non-increasing order of
`voteCount`, a missing `voteCount` counting as 0, and is a permutation of the photos
selected before sorting; the ranking of the admin panel is sorted in non-increasing
order of the `voteCount` of its entries, which is that of the photo or 0 when missing,
and is a permutation of the entries built from the photos of the current period. -/
theorem c20_feed_and_ranking_sorted (currentUser : Option String) (m y : Nat)
    (st : HomeState) (db : Store) :
    (loadPhotos currentUser m y st db).photos.Pairwise
      (fun a b => orZero b.voteCount ≤ orZero a.voteCount) ∧
    (loadPhotos currentUser m y st db).photos.Perm
      (feedSelection st.userRole m y db.photos) ∧
    (photoRanking m y db.photos).Pairwise (fun a b => b.voteCount ≤ a.voteCount) ∧
    (photoRanking m y db.photos).Perm (rankingData m y db.photos) ∧
    rankingData m y db.photos =
      (db.photos.filter (fun p => decide (p.month = m) && decide (p.year = y))).map
        rankingItem ∧
    (∀ p, (rankingItem p).voteCount = orZero p.voteCount) := by
  refine ⟨?_, ?_, photoRanking_pairwise m y db.photos, List.perm_insertionSort _ _, rfl,
    fun _ => rfl⟩
  · rw [loadPhotos_photos]
    exact sortByVoteCountDesc_pairwise _
  · rw [loadPhotos_photos]
    exact sortByVoteCountDesc_perm _

/-- C21: an admin does not see every photo of the period on the first load. The feed is
filtered with the role that the screen holds, "user" when it is mounted, and the role
of the viewer is read only after the feed is set: for the admin `carol` the photo of
`adminFeedStore` that awaits approval is missing from the feed of the first load and
shown by the second. -/
theorem c21_admin_first_load_hides_pending :
    viewerIsAdmin (some "carol") adminFeedStore ∧
    ({ examplePhoto "wait" "bea" 20 [] with pending := some true } : Photo) ∈
      adminFeedStore.photos ∧
    ({ examplePhoto "wait" "bea" 20 [] with pending := some true } : Photo).month = 5 ∧
    ({ examplePhoto "wait" "bea" 20 [] with pending := some true } : Photo).year = 2025 ∧
    ({ examplePhoto "wait" "bea" 20 [] with pending := some true } : Photo) ∉
      (loadPhotos (some "carol") 5 2025 initialHomeState adminFeedStore).photos ∧
    (loadPhotos (some "carol") 5 2025 initialHomeState adminFeedStore).userRole = "admin" ∧
    ({ examplePhoto "wait" "bea" 20 [] with pending := some true } : Photo) ∈
      (loadPhotos (some "carol") 5 2025
        (loadPhotos (some "carol") 5 2025 initialHomeState adminFeedStore)
        adminFeedStore).photos :=
  ⟨⟨"carol", { exampleUser "carol" 0 [] with role := some "admin" }, rfl, by decide, rfl⟩,
    by decide, by decide, by decide, by decide, by decide, by decide⟩

/-- C22: the user document written by `handleRegister` for the account it created, and
the one written by the listener of `BottomTabs` for an account without a user document,
has the role "user", the vote counter 0, an upload counter that `uploadPhoto` reads as 0
(the document has the field `photosUploaded` set to 0 and no field
`photosUploadedBase64`) and no voted photo (the document has no field `votedPhotos`);
the listener sets the role "user". -/
theorem c22_new_profile_defaults (uid name email : String) (now : Int) (db : Store)
    (cu : AuthUser) (hnew : getDoc User.id cu.uid db.users = none) :
    (∃ u, getDoc User.id uid (handleRegister (some uid) name email now db).users = some u ∧
      u.role = some "user" ∧ u.votesThisMonth = some 0 ∧ u.photosUploaded = some 0 ∧
      orZero u.photosUploadedBase64 = 0 ∧ u.votedPhotos = none ∧
      ∀ x, includes u.votedPhotos x = false) ∧
    (∃ u, getDoc User.id cu.uid (onAuthStateChanged (some cu) now db).2.users = some u ∧
      u.role = some "user" ∧ u.votesThisMonth = some 0 ∧ u.photosUploaded = some 0 ∧
      orZero u.photosUploadedBase64 = 0 ∧ u.votedPhotos = none ∧
      ∀ x, includes u.votedPhotos x = false) ∧
    (onAuthStateChanged (some cu) now db).1 = some "user" := by
  refine ⟨⟨_, getDoc_setDoc_self User.id
      { id := uid, name := name, email := email, role := some "user", createdAt := now,
        photoURL := "", votesThisMonth := some 0, votedPhotos := none,
        photosUploaded := some 0, photosUploadedBase64 := none } db.users,
      rfl, rfl, rfl, rfl, rfl, fun _ => rfl⟩, ?_, ?_⟩
  · simp only [onAuthStateChanged, hnew]
    exact ⟨_, getDoc_setDoc_self User.id
      { id := cu.uid, name := orEmpty cu.displayName, email := cu.email,
        role := some "user", createdAt := now, photoURL := orEmpty cu.photoURL,
        votesThisMonth := some 0, votedPhotos := none,
        photosUploaded := some 0, photosUploadedBase64 := none } db.users,
      rfl, rfl, rfl, rfl, rfl, fun _ => rfl⟩
  · simp only [onAuthStateChanged, hnew]

/-- Instance of C22: `dora` signs in to `voteStore`, where she has no user document. -/
theorem c22_new_profile_defaults_witness :
    getDoc User.id newAccount.uid voteStore.users = none ∧
    (onAuthStateChanged (some newAccount) 7 voteStore).1 = some "user" :=
  ⟨by decide, (c22_new_profile_defaults "dora" "Dora" "dora@example.org" 7 voteStore
    newAccount (by decide)).2.2⟩

/-- C23: the flag `isAdmin` of the panel, false when the panel is mounted, is set by
`fetchData` exactly when the signed-in viewer has a user document with the role admin;
and while the flag is false `saveTheme` and `savePhotoLimit` end with the denial and
leave the whole store (themes, configuration and photos) and the panel state as they
are. -/
theorem c23_no_write_unless_admin (currentUser : Option String) (m y : Nat) (now : Int)
    (st : AdminState) (db : Store) (h : st.isAdmin = false) :
    ((fetchData currentUser m y st db).isAdmin = true ↔ viewerIsAdmin currentUser db) ∧
    saveTheme m y now st db = ⟨st, db, .denied⟩ ∧
    savePhotoLimitPressed m y st db = ⟨st, db, .denied⟩ ∧
    ∀ newLimit, savePhotoLimit false newLimit db = db := by
  refine ⟨fetchData_isAdmin currentUser m y st db h, ?_, ?_, ?_⟩
  · simp [saveTheme, h]
  · simp [savePhotoLimitPressed, h]
  · intro newLimit
    simp [savePhotoLimit]

/-- Instance of C23: the panel of the plain user `alice` after `fetchData`, with a theme
typed in, saves nothing. -/
theorem c23_no_write_unless_admin_witness :
    ({ fetchData (some "alice") 5 2025 initialAdminState feedStore with
        theme := "Retratos" } : AdminState).isAdmin = false ∧
    saveTheme 5 2025 7
        { fetchData (some "alice") 5 2025 initialAdminState feedStore with
          theme := "Retratos" } feedStore =
      ⟨{ fetchData (some "alice") 5 2025 initialAdminState feedStore with
          theme := "Retratos" }, feedStore, .denied⟩ :=
  ⟨by decide, (c23_no_write_unless_admin (some "alice") 5 2025 7 _ feedStore (by decide)).2.1⟩

/-- C24: for an admin, `savePhotoLimit` rejects the entered limit exactly when
`parseInt` gives no number or a negative one, and then the store is left as it is;
otherwise the parsed limit `n ≥ 0` is the `photoLimit` of the configuration after the
call, and the store is the one that the write and the sweep with `n` leave. -/
theorem c24_limit_validated (m y : Nat) (st : AdminState) (db : Store)
    (h : st.isAdmin = true) :
    ((savePhotoLimitPressed m y st db).outcome = .invalid ↔
      (parseLimit st.photoLimit = none ∨ ∃ n, parseLimit st.photoLimit = some n ∧ n < 0)) ∧
    ((savePhotoLimitPressed m y st db).outcome = .invalid →
      (savePhotoLimitPressed m y st db).store = db) ∧
    (∀ n, parseLimit st.photoLimit = some n → 0 ≤ n →
      (savePhotoLimitPressed m y st db).outcome = .saved ∧
      (savePhotoLimitPressed m y st db).store.config = some { photoLimit := some n } ∧
      (savePhotoLimitPressed m y st db).store.photos = sweep n.toNat db.photos ∧
      (savePhotoLimitPressed m y st db).store.users = db.users ∧
      (savePhotoLimitPressed m y st db).store.themes = db.themes) := by
  rcases hp : parseLimit st.photoLimit with _ | n
  · simp [savePhotoLimitPressed, h, hp]
  · by_cases hn : n < 0
    · have hn' : ¬ 0 ≤ n := by omega
      simp [savePhotoLimitPressed, h, hp, hn, hn']
    · have hn' : 0 ≤ n := by omega
      simp [savePhotoLimitPressed, savePhotoLimit, h, hp, hn, hn']

/-- Instance of C24: an admin who types `-2`, `abc` or nothing is rejected, and one who
types `2` has the limit 2 stored and the collection swept. -/
theorem c24_limit_validated_witness :
    (adminTyped "2").isAdmin = true ∧
    parseInt "-2" = some (-2) ∧ parseInt "abc" = none ∧ parseInt "" = none ∧
    parseInt "2" = some 2 ∧
    (savePhotoLimitPressed 5 2025 (adminTyped "-2") sweepStore).outcome = .invalid ∧
    (savePhotoLimitPressed 5 2025 (adminTyped "abc") sweepStore).outcome = .invalid ∧
    (savePhotoLimitPressed 5 2025 (adminTyped "") sweepStore).outcome = .invalid ∧
    (savePhotoLimitPressed 5 2025 (adminTyped "2") sweepStore).store.config =
      some { photoLimit := some 2 } :=
  ⟨rfl, by decide, by decide, by decide, by decide, by decide, by decide, by decide,
    ((c24_limit_validated 5 2025 (adminTyped "2") sweepStore rfl).2.2 2
      (by decide) (by decide)).2.1⟩

/-- C25: in a collection with distinct document ids, the sweep of `savePhotoLimit` with
limit `L` deletes exactly `n - L` photos (0 when `n ≤ L`) of each user who owns `n`
photos; no photo of a user who owns at most `L` photos is deleted; and the collection
after the sweep is a sublist of the one before, so that no document is modified. -/
theorem c25_sweep_deletes_excess_only (db : Store) (L : Nat)
    (hid : (db.photos.map Photo.id).Nodup) :
    (∀ u, ((ownedBy u db.photos).filter
        (fun p => decide (p ∉ (savePhotoLimit true (some (L : Int)) db).photos))).length =
      (ownedBy u db.photos).length - L) ∧
    (∀ p ∈ db.photos, (ownedBy p.userID db.photos).length ≤ L →
      p ∈ (savePhotoLimit true (some (L : Int)) db).photos) ∧
    (savePhotoLimit true (some (L : Int)) db).photos.Sublist db.photos := by
  rw [savePhotoLimit_photos]
  refine ⟨fun u => deleted_count L db.photos hid u,
    fun p hp h => mem_sweep_of_few L db.photos hid p hp h, ?_⟩
  rw [sweep_eq_filter]
  exact List.filter_sublist _

/-- Instance of C25: in `sweepStore` the sweep with limit 3 deletes `5 - 3` photos of
`ana`. -/
theorem c25_sweep_deletes_excess_only_witness :
    (sweepStore.photos.map Photo.id).Nodup ∧
    ((ownedBy "ana" sweepStore.photos).filter
        (fun p => decide
          (p ∉ (savePhotoLimit true (some ((3 : Nat) : Int)) sweepStore).photos))).length =
      (ownedBy "ana" sweepStore.photos).length - 3 :=
  ⟨by decide, (c25_sweep_deletes_excess_only sweepStore 3 (by decide)).1 "ana"⟩

/-- C26: ties are kept in read order, `Array.prototype.sort` being a stable sort. In the
feed of `loadPhotos` the photos of each vote count are the photos of that vote count
selected from the read, in the order of the read, and two selected photos of equal vote
count that follow one another in the read follow one another in the feed; the same
holds of the entries of the ranking of `AdminPanel`. -/
theorem c26_ties_keep_read_order (currentUser : Option String) (m y : Nat)
    (st : HomeState) (db : Store) :
    (feedSelection st.userRole m y db.photos).Sublist db.photos ∧
    (∀ k : Int,
      (loadPhotos currentUser m y st db).photos.filter
          (fun p => decide (orZero p.voteCount = k)) =
        (feedSelection st.userRole m y db.photos).filter
          (fun p => decide (orZero p.voteCount = k))) ∧
    (∀ a b : Photo, orZero a.voteCount = orZero b.voteCount →
      [a, b].Sublist (feedSelection st.userRole m y db.photos) →
      [a, b].Sublist (loadPhotos currentUser m y st db).photos) ∧
    (∀ k : Int,
      (photoRanking m y db.photos).filter (fun r => decide (r.voteCount = k)) =
        (rankingData m y db.photos).filter (fun r => decide (r.voteCount = k))) ∧
    (∀ a b : RankingItem, a.voteCount = b.voteCount →
      [a, b].Sublist (rankingData m y db.photos) →
      [a, b].Sublist (photoRanking m y db.photos)) := by
  refine ⟨feedSelection_sublist _ _ _ _, ?_, ?_, ?_, ?_⟩
  · intro k
    rw [loadPhotos_photos]
    exact filter_insertionSort_key (fun p : Photo => orZero p.voteCount) k _
  · intro a b hab h
    rw [loadPhotos_photos]
    exact List.pair_sublist_insertionSort (le_of_eq hab.symm) h
  · intro k
    exact filter_insertionSort_key (fun r : RankingItem => r.voteCount) k _
  · intro a b hab h
    exact List.pair_sublist_insertionSort (le_of_eq hab.symm) h

/-- Instance of C26: the photos `ok` and `old` of `feedStore`, both without votes, are
read in this order and shown in this order. -/
theorem c26_ties_keep_read_order_witness :
    orZero (examplePhoto "ok" "bea" 10 []).voteCount =
      orZero ({ examplePhoto "old" "bea" 30 [] with pending := none } : Photo).voteCount ∧
    [examplePhoto "ok" "bea" 10 [],
        ({ examplePhoto "old" "bea" 30 [] with pending := none } : Photo)].Sublist
      (feedSelection initialHomeState.userRole 5 2025 feedStore.photos) ∧
    [examplePhoto "ok" "bea" 10 [],
        ({ examplePhoto "old" "bea" 30 [] with pending := none } : Photo)].Sublist
      (loadPhotos (some "alice") 5 2025 initialHomeState feedStore).photos :=
  ⟨by decide, by decide,
    (c26_ties_keep_read_order (some "alice") 5 2025 initialHomeState feedStore).2.2.1
      _ _ (by decide) (by decide)⟩

/-- C27: the sweep of `savePhotoLimit` is idempotent: run a second time with the same
limit `L` it leaves the collection of the first run, and run with `L` and then with any
`L' ≥ L` it leaves the collection that the run with `L` alone leaves. -/
theorem c27_sweep_idempotent (db : Store) (L : Nat) :
    (savePhotoLimit true (some (L : Int))
        (savePhotoLimit true (some (L : Int)) db)).photos =
      (savePhotoLimit true (some (L : Int)) db).photos ∧
    ∀ L' : Nat, L ≤ L' →
      (savePhotoLimit true (some (L' : Int))
          (savePhotoLimit true (some (L : Int)) db)).photos =
        (savePhotoLimit true (some (L : Int)) db).photos := by
  have key : ∀ L' : Nat, L ≤ L' →
      (savePhotoLimit true (some (L' : Int))
          (savePhotoLimit true (some (L : Int)) db)).photos =
        (savePhotoLimit true (some (L : Int)) db).photos := by
    intro L' hle
    rw [savePhotoLimit_photos, savePhotoLimit_photos]
    exact sweep_eq_self_of_le L' _
      (fun u => le_trans (ownedBy_sweep_length_le L db.photos u) hle)
  exact ⟨key L (le_refl L), key⟩

/-- Instance of C27: `sweepStore` swept with limit 2, then with limit 3. -/
theorem c27_sweep_idempotent_witness :
    (2 : Nat) ≤ 3 ∧
    (savePhotoLimit true (some ((3 : Nat) : Int))
        (savePhotoLimit true (some ((2 : Nat) : Int)) sweepStore)).photos =
      (savePhotoLimit true (some ((2 : Nat) : Int)) sweepStore).photos :=
  ⟨by decide, (c27_sweep_idempotent sweepStore 2).2 3 (by decide)⟩

/-- C28: the upload counter does not follow the deletions of `HomeScreen` and of the
sweep. In `countedStore` the counter of `bea` is 2 and she owns two photos; after
`handleRejectPhoto`, after `handleDeletePhoto` and after the sweep of `savePhotoLimit`
with limit 1 she owns one photo and her counter is still 2, while `deletePhoto` of
`MyPhotosScreen` and `uploadPhoto` keep the counter equal to the number of photos. -/
theorem c28_counter_not_decremented :
    UploadCounterOk "bea" countedStore ∧
    ¬ UploadCounterOk "bea"
      (handleRejectPhoto true (some "carol") 5 2025 "b2" carolHome countedStore).store ∧
    ¬ UploadCounterOk "bea"
      (handleDeletePhoto true (some "carol") 5 2025 "b1" carolHome countedStore).store ∧
    ¬ UploadCounterOk "bea" (savePhotoLimit true (some 1) countedStore) ∧
    (getDoc User.id "bea"
      (handleRejectPhoto true (some "carol") 5 2025 "b2" carolHome countedStore).store.users).map
        (fun u => orZero u.photosUploadedBase64) = some 2 ∧
    (ownedBy "bea"
      (handleRejectPhoto true (some "carol") 5 2025 "b2" carolHome
        countedStore).store.photos).length = 1 ∧
    UploadCounterOk "bea" (deletePhoto true (some "bea") "b2" beaPhotos countedStore).store ∧
    UploadCounterOk "bea" (uploadPhoto (some "bea") 5 2025 "b3" 30 readyToUpload
      countedStore).store := by
  refine ⟨by decide, by decide, by decide, by decide, by decide, by decide, by decide,
    by decide⟩

/-- C29, as stated, fails. First, `arrayRemove` takes every occurrence out of the list:
in `doubledVoteStore` the counter of `alice` is 2, the length of her list of voted
photos, and she is a voter of `p1` as her list says; after she withdraws the vote, with
the screen holding her stored counter, the counter is 1 and the list is empty. Second,
the counter written is the one of the screen: in `twoVotesStore` the counter of `alice`
is 2, the length of her list; a vote on `p1` from a screen that holds the counter 0
writes the counter 1 and a list of three photos. -/
theorem c29_counterexample :
    getDoc User.id "alice" doubledVoteStore.users = some (exampleUser "alice" 2 ["p1", "p1"]) ∧
    orZero (exampleUser "alice" 2 ["p1", "p1"]).votesThisMonth =
      ((votedOf (exampleUser "alice" 2 ["p1", "p1"])).length : Int) ∧
    getDoc Photo.id "p1" doubledVoteStore.photos = some (examplePhoto "p1" "bea" 10 ["alice"]) ∧
    includes (examplePhoto "p1" "bea" 10 ["alice"]).votes "alice" =
      includes (exampleUser "alice" 2 ["p1", "p1"]).votedPhotos "p1" ∧
    (loadPhotos (some "alice") 5 2025 initialHomeState doubledVoteStore).userVotes = 2 ∧
    getDoc User.id "alice"
        (handleVote (some "alice") 5 2025 "p1" "bea"
          (loadPhotos (some "alice") 5 2025 initialHomeState doubledVoteStore)
          doubledVoteStore).store.users = some (exampleUser "alice" 1 []) ∧
    orZero (exampleUser "alice" 1 []).votesThisMonth ≠
      ((votedOf (exampleUser "alice" 1 [])).length : Int) ∧
    getDoc User.id "alice" twoVotesStore.users = some (exampleUser "alice" 2 ["p2", "p3"]) ∧
    orZero (exampleUser "alice" 2 ["p2", "p3"]).votesThisMonth =
      ((votedOf (exampleUser "alice" 2 ["p2", "p3"])).length : Int) ∧
    getDoc Photo.id "p1" twoVotesStore.photos = some (examplePhoto "p1" "bea" 10 []) ∧
    includes (examplePhoto "p1" "bea" 10 []).votes "alice" =
      includes (exampleUser "alice" 2 ["p2", "p3"]).votedPhotos "p1" ∧
    getDoc User.id "alice"
        (handleVote (some "alice") 5 2025 "p1" "bea" initialHomeState
          twoVotesStore).store.users = some (exampleUser "alice" 1 ["p2", "p3", "p1"]) ∧
    orZero (exampleUser "alice" 1 ["p2", "p3", "p1"]).votesThisMonth ≠
      ((votedOf (exampleUser "alice" 1 ["p2", "p3", "p1"])).length : Int) := by
  refine ⟨by decide, by decide, by decide, by decide, by decide, by decide, by decide,
    by decide, by decide, by decide, by decide, by decide, by decide⟩

/-- C29, amended: for a user whose list of voted photos has no duplicates and whose
counter `votesThisMonth` equals the length of that list, when the screen holds the
stored counter and the user is a voter of the photo exactly when the photo is in the
list, the user document after `handleVote` again has a list without duplicates and a
counter equal to its length. -/
theorem c29_votes_match_voted_photos (uid : String) (m y : Nat) (photoId userId : String)
    (st : HomeState) (db : Store) (ud : User)
    (hu : getDoc User.id uid db.users = some ud)
    (hsync : st.userVotes = orZero ud.votesThisMonth)
    (hnd : (votedOf ud).Nodup)
    (hlen : orZero ud.votesThisMonth = ((votedOf ud).length : Int))
    (hagree : ∀ pd, getDoc Photo.id photoId db.photos = some pd →
      includes pd.votes uid = includes ud.votedPhotos photoId) :
    ∃ ud', getDoc User.id uid (handleVote (some uid) m y photoId userId st db).store.users =
        some ud' ∧
      (votedOf ud').Nodup ∧ orZero ud'.votesThisMonth = ((votedOf ud').length : Int) := by
  obtain ⟨ud', hget, hcase⟩ := handleVote_user_after uid m y photoId userId st db ud hu
  refine ⟨ud', hget, ?_⟩
  rcases hcase with rfl | ⟨_, pd, hp, ⟨hv, rfl⟩ | ⟨hv, rfl⟩⟩
  · exact ⟨hnd, hlen⟩
  · have hin := (hagree pd hp).symm.trans hv
    rcases hvp : ud.votedPhotos with _ | l
    · simp [includes, hvp] at hin
    · have hl : votedOf ud = l := by simp [votedOf, hvp]
      rw [hl] at hnd hlen
      have hmem : photoId ∈ l := by simpa [includes, hvp] using hin
      have hcount := length_filter_ne_of_nodup photoId l hnd hmem
      constructor
      · show (votedOf (userVoteRemoved photoId st.userVotes ud)).Nodup
        simp only [votedOf, userVoteRemoved, arrayRemove, hvp]
        exact hnd.filter _
      · show orZero (userVoteRemoved photoId st.userVotes ud).votesThisMonth =
          ((votedOf (userVoteRemoved photoId st.userVotes ud)).length : Int)
        simp only [votedOf, userVoteRemoved, arrayRemove, hvp, orZero]
        rw [hcount, hsync, hlen]
  · have hin := (hagree pd hp).symm.trans hv
    rcases hvp : ud.votedPhotos with _ | l
    · have hl : votedOf ud = [] := by simp [votedOf, hvp]
      rw [hl] at hlen
      constructor
      · show (votedOf (userVoteAdded photoId st.userVotes ud)).Nodup
        simp [votedOf, userVoteAdded, arrayUnion, hvp]
      · show orZero (userVoteAdded photoId st.userVotes ud).votesThisMonth =
          ((votedOf (userVoteAdded photoId st.userVotes ud)).length : Int)
        simp only [votedOf, userVoteAdded, arrayUnion, hvp, orZero]
        rw [hsync, hlen]
        simp
    · have hl : votedOf ud = l := by simp [votedOf, hvp]
      rw [hl] at hnd hlen
      have hmem : photoId ∉ l := by simpa [includes, hvp] using hin
      constructor
      · show (votedOf (userVoteAdded photoId st.userVotes ud)).Nodup
        simp only [votedOf, userVoteAdded, arrayUnion, hvp, hmem, if_false]
        exact List.Nodup.append hnd (List.nodup_singleton _) (by simpa using hmem)
      · show orZero (userVoteAdded photoId st.userVotes ud).votesThisMonth =
          ((votedOf (userVoteAdded photoId st.userVotes ud)).length : Int)
        simp only [votedOf, userVoteAdded, arrayUnion, hvp, hmem, if_false, orZero]
        rw [hsync, hlen]
        simp

/-- Instance of C29, amended: `alice`, with the votes `p2` and `p3` in `twoVotesStore`,
votes `p1` from a screen that holds her counter. -/
theorem c29_votes_match_voted_photos_witness :
    getDoc User.id "alice" twoVotesStore.users = some (exampleUser "alice" 2 ["p2", "p3"]) ∧
    ∃ ud', getDoc User.id "alice"
        (handleVote (some "alice") 5 2025 "p1" "bea"
          (loadPhotos (some "alice") 5 2025 initialHomeState twoVotesStore)
          twoVotesStore).store.users = some ud' ∧
      (votedOf ud').Nodup ∧ orZero ud'.votesThisMonth = ((votedOf ud').length : Int) :=
  ⟨by decide, c29_votes_match_voted_photos "alice" 5 2025 "p1" "bea"
    (loadPhotos (some "alice") 5 2025 initialHomeState twoVotesStore) twoVotesStore
    (exampleUser "alice" 2 ["p2", "p3"]) (by decide) (by decide) (by decide) (by decide)
    (by
      intro pd hpd
      have h1 : getDoc Photo.id "p1" twoVotesStore.photos =
          some (examplePhoto "p1" "bea" 10 []) := by decide
      have h2 : pd = examplePhoto "p1" "bea" 10 [] := Option.some.inj (hpd.symm.trans h1)
      rw [h2]
      decide)⟩

/-- C30: the key of the monthly theme is injective in the period, for all years and
months (those in 1..12 among them): two periods with the same key have the same year and
the same month. `saveTheme` and `getMonthlyTheme` build the key of a period in the same
way: after an admin saves a theme that is not blank, `getMonthlyTheme` of the same
period returns that theme, and `getMonthlyTheme` of any other period returns what it
returned before. -/
theorem c30_theme_key_injective (y m y' m' : Nat) (now : Int) (st : AdminState)
    (db : Store) :
    (themeKey y m = themeKey y' m' → y = y' ∧ m = m') ∧
    (st.isAdmin = true → titleBlank st.theme = false →
      (saveTheme m y now st db).outcome = .saved ∧
      getDoc MonthlyTheme.key (themeKey y m) (saveTheme m y now st db).store.themes =
        some { key := themeKey y m, theme := st.theme, active := true, createdAt := now,
               month := m, year := y } ∧
      getMonthlyTheme m y (saveTheme m y now st db).store = st.theme ∧
      ((y', m') ≠ (y, m) →
        getMonthlyTheme m' y' (saveTheme m y now st db).store = getMonthlyTheme m' y' db)) := by
  refine ⟨themeKey_inj y m y' m', ?_⟩
  intro ha ht
  rw [saveTheme_saved m y now st db ha ht]
  have hself := getDoc_setDoc_self MonthlyTheme.key
    { key := themeKey y m, theme := st.theme, active := true, createdAt := now,
      month := m, year := y } db.themes
  refine ⟨rfl, hself, ?_, ?_⟩
  · unfold getMonthlyTheme
    show (match getDoc MonthlyTheme.key (themeKey y m) (setDoc MonthlyTheme.key _ db.themes) with
      | some docSnap => docSnap.theme
      | none => "Tema libre") = st.theme
    rw [hself]
  · intro hne
    have hk : themeKey y' m' ≠ themeKey y m := by
      intro hc
      obtain ⟨h1, h2⟩ := themeKey_inj y' m' y m hc
      exact hne (by rw [h1, h2])
    unfold getMonthlyTheme
    show (match getDoc MonthlyTheme.key (themeKey y' m')
        (setDoc MonthlyTheme.key _ db.themes) with
      | some docSnap => docSnap.theme
      | none => "Tema libre") = _
    rw [getDoc_setDoc_other MonthlyTheme.key _ db.themes (themeKey y' m') hk]

/-- Instance of C30: the keys of January 2025 and of November 2025 differ, and the theme
that an admin saves for May 2025 is the one read for May 2025. -/
theorem c30_theme_key_injective_witness :
    themeKey 2025 1 = "2025-1" ∧ themeKey 2025 11 = "2025-11" ∧
    ({ initialAdminState with isAdmin := true, theme := "Retratos" } : AdminState).isAdmin
      = true ∧
    titleBlank
      ({ initialAdminState with isAdmin := true, theme := "Retratos" } : AdminState).theme
      = false ∧
    getMonthlyTheme 5 2025
      (saveTheme 5 2025 7 { initialAdminState with isAdmin := true, theme := "Retratos" }
        feedStore).store = "Retratos" :=
  ⟨by decide, by decide, by decide, by decide,
    ((c30_theme_key_injective 2025 5 2025 6 7
      { initialAdminState with isAdmin := true, theme := "Retratos" } feedStore).2
      (by decide) (by decide)).2.2.1⟩

end FotoTon
